import Mathlib

/-! Moodart board editor: the canvas interaction engine.

A shallow embedding of `src/App.jsx` (the `App` component and the two hooks
`useDrag` and `useResize`) together with theorems about zoom, item sizes,
dragging, stacking order, removal and patching.

Conventions of the embedding

* JavaScript numbers are embedded as exact rationals (`ℚ`).  Every number the
  handlers below compute from integer pointer coordinates and two-decimal zoom
  values is a rational; rounding error of binary floating point is not modelled.
* React state (`useState`) and refs (`useRef`) of `App` are the fields of one
  record `State`; a handler is a function `State → State`, and a functional
  updater `setItems (prev => f prev)` is `f` applied to the `items` field.
* An item id is `String(idCounter++)` in the source.  The decimal rendering of a
  natural number is injective and never the empty string, so the embedding keeps
  the counter value itself as the id (`Nat`); `null` is `none`.
-/

namespace Moodart

/-! ## Numbers -/

/-- JavaScript `Math.sign` on a number. -/
def mathSign (v : ℚ) : ℚ :=
  if 0 < v then 1 else if v < 0 then -1 else 0

/-- JavaScript `+(v).toFixed(2)`: the multiple of `1/100` nearest to `v`; of two
equally near multiples the one of larger magnitude is taken. -/
def toFixed2 (v : ℚ) : ℚ :=
  if v < 0 then -((Rat.floor (-v * 100 + 1 / 2) : ℤ) : ℚ) / 100
  else ((Rat.floor (v * 100 + 1 / 2) : ℤ) : ℚ) / 100

/-- JavaScript `v || 0` on a number: `0` is the only falsy rational. -/
def orZero (v : ℚ) : ℚ :=
  if v = 0 then 0 else v

/-- JavaScript `v || 1` on a number, as in `window.currentZoom || 1`. -/
def orOne (v : ℚ) : ℚ :=
  if v = 0 then 1 else v

/-! ## Items and patches -/

/-- A board item: the object literals built by the add-actions.  Fields that a
given kind of item does not carry are `none`. -/
structure Item where
  id : Nat
  type : String
  x : ℚ
  y : ℚ
  w : ℚ
  h : ℚ
  zIndex : ℚ
  src : Option String := none
  text : Option String := none
  title : Option String := none
  url : Option String := none
  colors : Option (List String) := none
  orientation : Option String := none
  deriving DecidableEq, Repr

/-- A partial-field record, the second argument of `setItem`: `some v` for a
field the record names, `none` for a field it does not name. -/
structure Patch where
  id : Option Nat := none
  type : Option String := none
  x : Option ℚ := none
  y : Option ℚ := none
  w : Option ℚ := none
  h : Option ℚ := none
  zIndex : Option ℚ := none
  src : Option String := none
  text : Option String := none
  title : Option String := none
  url : Option String := none
  colors : Option (List String) := none
  orientation : Option String := none
  deriving DecidableEq, Repr

/-- The object spread `{ ...it, ...patch }`. -/
def merge (it : Item) (patch : Patch) : Item :=
  { id := patch.id.getD it.id
    type := patch.type.getD it.type
    x := patch.x.getD it.x
    y := patch.y.getD it.y
    w := patch.w.getD it.w
    h := patch.h.getD it.h
    zIndex := patch.zIndex.getD it.zIndex
    src := patch.src.orElse (fun _ => it.src)
    text := patch.text.orElse (fun _ => it.text)
    title := patch.title.orElse (fun _ => it.title)
    url := patch.url.orElse (fun _ => it.url)
    colors := patch.colors.orElse (fun _ => it.colors)
    orientation := patch.orientation.orElse (fun _ => it.orientation) }

/-- The updater of `setItem(id, patch)`:
`prev.map((it) => (it.id === id ? { ...it, ...patch } : it))`. -/
def setItem (prev : List Item) (id : Nat) (patch : Patch) : List Item :=
  prev.map (fun it => if it.id = id then merge it patch else it)

/-! ## Viewport -/

/-- The updater of `zoomIn`: `z => Math.min(3, +(z + 0.1).toFixed(2))`. -/
def zoomInZ (z : ℚ) : ℚ :=
  min 3 (toFixed2 (z + 0.1))

/-- The updater of `zoomOut`: `z => Math.max(0.1, +(z - 0.1).toFixed(2))`. -/
def zoomOutZ (z : ℚ) : ℚ :=
  max 0.1 (toFixed2 (z - 0.1))

/-- The updater of `onWheel` for a wheel event with vertical delta `deltaY`:
`delta = -Math.sign(deltaY) * 0.05` and
`z => Math.min(3, Math.max(0.1, +(z + delta).toFixed(2)))`. -/
def onWheelZ (deltaY : ℚ) (z : ℚ) : ℚ :=
  let delta := -(mathSign deltaY) * 0.05
  min 3 (max 0.1 (toFixed2 (z + delta)))

/-! ## Application state -/

/-- The record held by `dragging.current` in `useDrag`. -/
structure DragRef where
  id : Nat
  sx : ℚ
  sy : ℚ
  ox : ℚ
  oy : ℚ
  deriving DecidableEq, Repr

/-- The `origin` argument of `onHandleDown` and `onResize`:
`{ w: item.w, h: item.h, x: item.x, y: item.y }`. -/
structure Origin where
  w : ℚ
  h : ℚ
  x : ℚ
  y : ℚ
  deriving DecidableEq, Repr

/-- The record held by `start.current` in `useResize`. -/
structure ResizeRef where
  id : Nat
  corner : String
  sx : ℚ
  sy : ℚ
  origin : Origin
  deriving DecidableEq, Repr

/-- The record held by `panning.current` in `App`. -/
structure PanRef where
  sx : ℚ
  sy : ℚ
  ox : ℚ
  oy : ℚ
  deriving DecidableEq, Repr

/-- The `pan` state `{ x, y }`. -/
structure Pan where
  x : ℚ
  y : ℚ
  deriving DecidableEq, Repr

/-- The state of `App` that the interaction engine reads and writes, with the
module-level `idCounter` and the refs of the two hooks. -/
structure State where
  items : List Item
  selected : Option Nat
  popover : Option String
  currentColor : String
  paletteStops : List String
  paletteOrientation : String
  selectMode : Bool
  pendingImageRef : Option Nat
  zoom : ℚ
  pan : Pan
  panning : Option PanRef
  dragging : Option DragRef
  start : Option ResizeRef
  idCounter : Nat
  deriving DecidableEq, Repr

/-- The state after the first render: the `useState`/`useRef` initial values and
`let idCounter = 1`. -/
def State.init : State :=
  { items := []
    selected := none
    popover := none
    currentColor := "#D84040"
    paletteStops := ["#D84040", "#ECDCBF", "#F8F2DE"]
    paletteOrientation := "vertical"
    selectMode := true
    pendingImageRef := none
    zoom := 1
    pan := { x := 0, y := 0 }
    panning := none
    dragging := none
    start := none
    idCounter := 1 }

/-! ## Viewport handlers -/

/-- Handler `onWheel` for a wheel event with vertical delta `deltaY`. -/
def onWheel (s : State) (deltaY : ℚ) : State :=
  { s with zoom := onWheelZ deltaY s.zoom }

/-- Handler `resetView`. -/
def resetView (s : State) : State :=
  { s with zoom := 1, pan := { x := 0, y := 0 } }

/-- Handler `zoomIn`. -/
def zoomIn (s : State) : State :=
  { s with zoom := zoomInZ s.zoom }

/-- Handler `zoomOut`. -/
def zoomOut (s : State) : State :=
  { s with zoom := zoomOutZ s.zoom }

/-- Handler `beginPan` for a pointer-down with button `button` at
`(clientX, clientY)`; `onItem` is `e.target.closest('.board-item')` being
non-null. -/
def beginPan (s : State) (button : ℤ) (onItem : Bool) (clientX clientY : ℚ) : State :=
  if !s.selectMode then s
  else if button ≠ 0 ∨ onItem then s
  else { s with panning := some { sx := clientX, sy := clientY, ox := s.pan.x, oy := s.pan.y } }

/-- Listener `onPanMove` for a pointer-move at `(clientX, clientY)`. -/
def onPanMove (s : State) (clientX clientY : ℚ) : State :=
  match s.panning with
  | none => s
  | some d => { s with pan := { x := d.ox + (clientX - d.sx), y := d.oy + (clientY - d.sy) } }

/-- Listener `endPan`. -/
def endPan (s : State) : State :=
  { s with panning := none }

/-! ## Adding items -/

/-- The provisional image item of `addImage`, with id `id` on a store of
`n` items. -/
def newImage (id n : Nat) : Item :=
  { id := id, type := "image", x := 100, y := 100, w := 320, h := 220,
    src := some "", zIndex := n }

/-- Handler `addImage`; the deferred `fileRef.current?.click()` opens the file
picker and does not touch the state. -/
def addImage (s : State) : State :=
  let it := newImage s.idCounter s.items.length
  { s with
    idCounter := s.idCounter + 1
    items := s.items ++ [it]
    selected := some it.id
    pendingImageRef := some it.id }

/-- The item built by `addNote`. -/
def newNote (id n : Nat) : Item :=
  { id := id, type := "note", x := 100, y := 100, w := 240, h := 140,
    text := some "", zIndex := n }

/-- Handler `addNote`. -/
def addNote (s : State) : State :=
  let it := newNote s.idCounter s.items.length
  { s with idCounter := s.idCounter + 1, items := s.items ++ [it], selected := some it.id }

/-- The item built by `addDocument`. -/
def newDocument (id n : Nat) : Item :=
  { id := id, type := "document", x := 100, y := 100, w := 200, h := 140,
    text := some "", title := some "Document", zIndex := n }

/-- Handler `addDocument`. -/
def addDocument (s : State) : State :=
  let it := newDocument s.idCounter s.items.length
  { s with idCounter := s.idCounter + 1, items := s.items ++ [it], selected := some it.id }

/-- The item built by `addComment`. -/
def newComment (id n : Nat) : Item :=
  { id := id, type := "comment", x := 100, y := 100, w := 240, h := 160,
    text := some "", zIndex := n }

/-- Handler `addComment`. -/
def addComment (s : State) : State :=
  let it := newComment s.idCounter s.items.length
  { s with idCounter := s.idCounter + 1, items := s.items ++ [it], selected := some it.id }

/-- The item built by `addLink`. -/
def newLink (id n : Nat) : Item :=
  { id := id, type := "link", x := 100, y := 100, w := 300, h := 100,
    url := some "", title := some "", zIndex := n }

/-- Handler `addLink`. -/
def addLink (s : State) : State :=
  let it := newLink s.idCounter s.items.length
  { s with idCounter := s.idCounter + 1, items := s.items ++ [it], selected := some it.id }

/-- Handlers `addMusic` and `addVideo` only open a popover. -/
def addMusic (s : State) : State :=
  { s with popover := some "music" }

/-- Handler `addVideo`. -/
def addVideo (s : State) : State :=
  { s with popover := some "video" }

/-- The item built by `onPickAudio` and by `addVoice`. -/
def newAudio (id n : Nat) (src title : String) : Item :=
  { id := id, type := "audio", x := 100, y := 100, w := 300, h := 80,
    src := some src, title := some title, zIndex := n }

/-- Handler `onPickAudio`: `file` is `e.target.files?.[0]` as the pair of the
object URL created for the file and the file's name, `none` when no file was
chosen. -/
def onPickAudio (s : State) (file : Option (String × String)) : State :=
  match file with
  | none => s
  | some (url, name) =>
    let it := newAudio s.idCounter s.items.length url name
    { s with
      idCounter := s.idCounter + 1
      items := s.items ++ [it]
      selected := some it.id
      popover := none }

/-- The item built by `onPickVideo`. -/
def newVideo (id n : Nat) (src title : String) : Item :=
  { id := id, type := "video", x := 100, y := 100, w := 480, h := 270,
    src := some src, title := some title, zIndex := n }

/-- Handler `onPickVideo`, with `file` as for `onPickAudio`. -/
def onPickVideo (s : State) (file : Option (String × String)) : State :=
  match file with
  | none => s
  | some (url, name) =>
    let it := newVideo s.idCounter s.items.length url name
    { s with
      idCounter := s.idCounter + 1
      items := s.items ++ [it]
      selected := some it.id
      popover := none }

/-- The item built by `addSwatch` from the palette state. -/
def newSwatch (id n : Nat) (paletteStops : List String) (paletteOrientation : String) : Item :=
  { id := id, type := "swatch", x := 100, y := 100
    w := if paletteOrientation = "horizontal" then 240 else 110
    h := if paletteOrientation = "horizontal" then 110 else 240
    colors := some paletteStops
    orientation := some paletteOrientation
    zIndex := n }

/-- Handler `addSwatch`. -/
def addSwatch (s : State) : State :=
  let it := newSwatch s.idCounter s.items.length s.paletteStops s.paletteOrientation
  { s with
    idCounter := s.idCounter + 1
    items := s.items ++ [it]
    selected := some it.id
    popover := none }

/-- Handler `addVoice(src)`.  It is called from the `onstop` callback that
`startRec` installed, so the `items` it reads is the store of the render in
which the recording was started: `n` is the length of that store. -/
def addVoice (s : State) (n : Nat) (src : String) : State :=
  let it := newAudio s.idCounter n src "Voice Note"
  { s with
    idCounter := s.idCounter + 1
    items := s.items ++ [it]
    selected := some it.id
    popover := none }

/-! ## Removing and patching items -/

/-- Handler `removeItem(id)`. -/
def removeItem (s : State) (id : Nat) : State :=
  { s with
    items := s.items.filter (fun i => i.id ≠ id)
    selected := if s.selected = some id then none else s.selected }

/-- JavaScript truthiness of an optional string such as `item.src`. -/
def truthy (v : Option String) : Bool :=
  match v with
  | none => false
  | some str => str ≠ ""

/-- Handler `onPickImage`: `file` is the object URL created for
`e.target.files?.[0]`, `none` when no file was chosen. -/
def onPickImage (s : State) (file : Option String) : State :=
  let s1 :=
    match file, s.pendingImageRef with
    | some url, some pendingId =>
      { s with items := setItem s.items pendingId { src := some url } }
    | none, some pendingId =>
      match s.items.find? (fun (it : Item) => it.id = pendingId) with
      | some item => if !truthy item.src then removeItem s pendingId else s
      | none => s
    | _, none => s
  { s1 with pendingImageRef := none }

/-! ## Palette -/

/-- Handler `setPaletteColor(idx, color)`. -/
def setPaletteColor (s : State) (idx : Nat) (color : String) : State :=
  { s with
    paletteStops := s.paletteStops.enum.map (fun p => if p.1 = idx then color else p.2) }

/-- Handler `addPaletteStop`. -/
def addPaletteStop (s : State) : State :=
  { s with paletteStops := s.paletteStops ++ [s.currentColor] }

/-- Handler `removePaletteStop(idx)`. -/
def removePaletteStop (s : State) (idx : Nat) : State :=
  if s.paletteStops.length > 1 then
    { s with
      paletteStops := (s.paletteStops.enum.filter (fun p => p.1 ≠ idx)).map (fun p => p.2) }
  else s

/-- The array after `[n[i], n[j]] = [n[j], n[i]]` for two indices inside it. -/
def swapAt (a : List String) (i j : Nat) : List String :=
  match a.get? i, a.get? j with
  | some vi, some vj => (a.set i vj).set j vi
  | _, _ => a

/-- Handler `movePaletteStop(idx, dir)`. -/
def movePaletteStop (s : State) (idx : Nat) (dir : String) : State :=
  if dir = "up" ∧ idx > 0 then
    { s with paletteStops := swapAt s.paletteStops (idx - 1) idx }
  else if dir = "down" ∧ idx + 1 < s.paletteStops.length then
    { s with paletteStops := swapAt s.paletteStops idx (idx + 1) }
  else s

/-! ## Resizing and stacking -/

/-- Handler `onResize(id, corner, dx, dy, origin)` on finite numbers, which is
what `useResize` passes; `onResizeJs` is the handler on numbers that may be
`NaN`. -/
def onResize (s : State) (id : Nat) (_corner : String) (dx dy : ℚ) (origin : Origin) : State :=
  { s with
    items := s.items.map (fun it =>
      if it.id ≠ id then it
      else
        let min := (60 : ℚ)
        { it with w := max min (origin.w + dx), h := max min (origin.h + dy), x := it.x, y := it.y }) }

/-- JavaScript `Math.max(...vs)`; `none` is `-Infinity`, the value for no
arguments. -/
def mathMax : List ℚ → Option ℚ
  | [] => none
  | v :: vs =>
    match mathMax vs with
    | none => some v
    | some m => some (max v m)

/-- Handler `bringToFront(id)`.  When `maxZ` is `-Infinity` the store is empty
and the `map` of `setItem` visits no item. -/
def bringToFront (s : State) (id : Nat) : State :=
  match mathMax (s.items.map (fun it => orZero it.zIndex)) with
  | some maxZ => { s with items := setItem s.items id { zIndex := some (maxZ + 1) } }
  | none => s

/-- The comparator of `sortedItems` puts `a` no later than `b`:
`(a.zIndex || 0) - (b.zIndex || 0) ≤ 0`. -/
def zLe (a b : Item) : Prop :=
  orZero a.zIndex - orZero b.zIndex ≤ 0

instance : DecidableRel zLe :=
  fun a b => inferInstanceAs (Decidable (orZero a.zIndex - orZero b.zIndex ≤ 0))

instance : IsTotal Item zLe :=
  ⟨fun a b => by simp only [zLe, sub_nonpos]; exact le_total _ _⟩

instance : IsTrans Item zLe :=
  ⟨fun a b c => by simp only [zLe, sub_nonpos]; exact le_trans⟩

/-- The render sequence
`[...items].sort((a, b) => (a.zIndex || 0) - (b.zIndex || 0))`.
`Array.prototype.sort` is a stable sort; insertion from the right is one. -/
def sortedItems (items : List Item) : List Item :=
  items.insertionSort zLe

/-- Handler `onBoardClick` for a pointer-down whose target is inside a board
item (`onItem`) or not. -/
def onBoardClick (s : State) (onItem : Bool) : State :=
  if onItem then s else { s with selected := none, popover := none }

/-! ## The drag and resize hooks -/

/-- Hook `useDrag`, `onMouseDown(e, item)`. -/
def useDrag.onMouseDown (s : State) (clientX clientY : ℚ) (item : Item) : State :=
  { s with
    dragging := some { id := item.id, sx := clientX, sy := clientY, ox := item.x, oy := item.y } }

/-- Hook `useDrag`, `onMouseMove(e)`; `onChange` is `setItem` and
`window.currentZoom` is the `zoom` state. -/
def useDrag.onMouseMove (s : State) (clientX clientY : ℚ) : State :=
  match s.dragging with
  | none => s
  | some d =>
    let nx := d.ox + (clientX - d.sx) / orOne s.zoom
    let ny := d.oy + (clientY - d.sy) / orOne s.zoom
    { s with items := setItem s.items d.id { x := some nx, y := some ny } }

/-- Hook `useDrag`, `onMouseUp`. -/
def useDrag.onMouseUp (s : State) : State :=
  { s with dragging := none }

/-- Hook `useResize`, `onHandleDown(e, id, corner, origin)`. -/
def useResize.onHandleDown (s : State) (clientX clientY : ℚ) (id : Nat) (corner : String)
    (origin : Origin) : State :=
  { s with
    start := some { id := id, corner := corner, sx := clientX, sy := clientY, origin := origin } }

/-- Hook `useResize`, `onMove(e)`. -/
def useResize.onMove (s : State) (clientX clientY : ℚ) : State :=
  match s.start with
  | none => s
  | some r =>
    let dx := (clientX - r.sx) / orOne s.zoom
    let dy := (clientY - r.sy) / orOne s.zoom
    onResize s r.id r.corner dx dy r.origin

/-- Hook `useResize`, `onUp`. -/
def useResize.onUp (s : State) : State :=
  { s with start := none }

/-- The `onMouseDown` that `App` gives to the `BoardItem` of `item`:
`setSelected(item.id); bringToFront(item.id); onMouseDown(e, item)`. -/
def itemMouseDown (s : State) (clientX clientY : ℚ) (item : Item) : State :=
  useDrag.onMouseDown (bringToFront { s with selected := some item.id } item.id)
    clientX clientY item

/-- The `onMouseDown` of the resize handle of the `BoardItem` of `item`:
`onHandleDown(e, item.id, 'se', { w: item.w, h: item.h, x: item.x, y: item.y })`. -/
def handleMouseDown (s : State) (clientX clientY : ℚ) (item : Item) : State :=
  useResize.onHandleDown s clientX clientY item.id "se"
    { w := item.w, h := item.h, x := item.x, y := item.y }

/-- The element of a rendered item that a pointer-down hits, as far as the
`onMouseDown` handlers inside `BoardItem` tell elements apart. -/
inductive ItemPart where
  /-- The root element or a descendant without an `onMouseDown` of its own
  (padding, icon, title, image, delete button). -/
  | body
  /-- The `<textarea>` of a note or comment:
  `onMouseDown={(e) => {if (isEditing) e.stopPropagation();}}`. -/
  | textarea
  /-- The `<audio>` element, the `<video>` element or an `<input>` of a link:
  `onMouseDown={(e) => e.stopPropagation()}`. -/
  | control
  deriving DecidableEq, Repr

/-- Component `BoardItem`, the `onMouseDown` handlers of the root element of
`item` and of the elements inside it, for a pointer-down on `part` while the
component's state `isEditing` has the value `isEditing` (`onFocus` of the
textarea sets it, `onBlur` clears it).  The prop `onMouseDown` is
`itemMouseDown`.  A note and a comment call it as
`if (!isEditing) onMouseDown(e)`, and the event they do not pass on bubbles to
`onBoardClick` with its target inside the item; the other six types call it
directly; any other type renders nothing.  An element that stops propagation
keeps the event from the root element, and a type that has no such element
gets no such event. -/
def boardItemMouseDown (s : State) (clientX clientY : ℚ) (item : Item) (part : ItemPart)
    (isEditing : Bool) : State :=
  if item.type = "note" ∨ item.type = "comment" then
    let root := if !isEditing then itemMouseDown s clientX clientY item else onBoardClick s true
    match part with
    | .control => s
    | .textarea => if isEditing then s else root
    | .body => root
  else if item.type ∈ ["image", "document", "link", "swatch", "audio", "video"] then
    match part with
    | .control => s
    | .textarea => s
    | .body => itemMouseDown s clientX clientY item
  else s

/-- The pointer-down reaches the `onMouseDown` that `App` gives to the
`BoardItem` of `item`: its target does not stop propagation, and a note or a
comment is not being edited. -/
def handlerRuns (item : Item) (part : ItemPart) (isEditing : Bool) : Bool :=
  if item.type = "note" ∨ item.type = "comment" then
    part ≠ .control && !isEditing
  else if item.type ∈ ["image", "document", "link", "swatch", "audio", "video"] then
    part = .body
  else false

/-! ## Events -/

/-- The events the interaction engine reacts to, each with the data its handler
reads from the event object or receives as arguments. -/
inductive Action where
  /-- Wheel event over the board with vertical delta `deltaY`. -/
  | wheel (deltaY : ℚ)
  | resetView
  | zoomIn
  | zoomOut
  /-- Pointer-down on the background layer that carries `beginPan`; the event
  then bubbles to the board, which carries `onBoardClick`. -/
  | backgroundDown (button : ℤ) (clientX clientY : ℚ)
  /-- Pointer-down that reaches only `onBoardClick`, its target outside every
  board item. -/
  | boardDown
  /-- Toolbar button "Select Mode". -/
  | selectModeButton
  | addImage
  | addNote
  | addDocument
  | addComment
  | addLink
  | addMusic
  | addVideo
  | addSwatch
  /-- A recording stops; `n` is the number of items on the board when the
  recording was started. -/
  | addVoice (n : Nat) (src : String)
  | pickAudio (file : Option (String × String))
  | pickVideo (file : Option (String × String))
  | pickImage (file : Option String)
  | removeItem (id : Nat)
  /-- Button "Clear Board" of the confirmation dialog. -/
  | clearBoard
  /-- Text input of an item: `setItem(id, { text })`. -/
  | editText (id : Nat) (text : String)
  /-- Title input of an item: `setItem(id, { title })`. -/
  | editTitle (id : Nat) (title : String)
  /-- Address input of a link item: `setItem(id, { url })`. -/
  | editUrl (id : Nat) (url : String)
  | setCurrentColor (color : String)
  /-- One of the two orientation buttons; they pass `horizontal` and `vertical`. -/
  | setPaletteOrientation (o : String)
  | setPaletteColor (idx : Nat) (color : String)
  | addPaletteStop
  | removePaletteStop (idx : Nat)
  | movePaletteStop (idx : Nat) (dir : String)
  /-- Pointer-down on the rendered item `item`, outside its resize handle: on
  the element `part` of it, while the `isEditing` state of its `BoardItem` is
  `isEditing`. -/
  | itemDown (clientX clientY : ℚ) (item : Item) (part : ItemPart) (isEditing : Bool)
  /-- Pointer-down on the resize handle of the rendered item `item`. -/
  | handleDown (clientX clientY : ℚ) (item : Item)
  /-- Pointer-move anywhere in the window. -/
  | mouseMove (clientX clientY : ℚ)
  /-- Pointer-up anywhere in the window. -/
  | mouseUp
  /-- A call `onResize(id, corner, dx, dy, origin)` with arbitrary finite numbers
  as arguments. -/
  | resize (id : Nat) (corner : String) (dx dy : ℚ) (origin : Origin)

/-- One event handled.  A pointer-down on an item or on its handle exists only
for an item that is rendered, that is, one in the store, and an orientation
button only for `horizontal` and `vertical`.  A pointer-down on an item goes
through the handlers of `BoardItem`, which call the handler of `App` or do not.
The three window listeners for pointer-move (and for pointer-up) all run; they
write disjoint fields, so their order does not matter. -/
def step (s : State) : Action → State
  | .wheel deltaY => onWheel s deltaY
  | .resetView => resetView s
  | .zoomIn => zoomIn s
  | .zoomOut => zoomOut s
  | .backgroundDown button clientX clientY =>
    onBoardClick (beginPan s button false clientX clientY) false
  | .boardDown => onBoardClick s false
  | .selectModeButton => { s with selectMode := true, selected := none }
  | .addImage => addImage { s with popover := none }
  | .addNote => addNote { s with popover := none }
  | .addDocument => addDocument { s with popover := none }
  | .addComment => addComment { s with popover := none }
  | .addLink => addLink { s with popover := none }
  | .addMusic => addMusic s
  | .addVideo => addVideo s
  | .addSwatch => addSwatch s
  | .addVoice n src => addVoice s n src
  | .pickAudio file => onPickAudio s file
  | .pickVideo file => onPickVideo s file
  | .pickImage file => onPickImage s file
  | .removeItem id => removeItem s id
  | .clearBoard => { s with items := [], selected := none }
  | .editText id text => { s with items := setItem s.items id { text := some text } }
  | .editTitle id title => { s with items := setItem s.items id { title := some title } }
  | .editUrl id url => { s with items := setItem s.items id { url := some url } }
  | .setCurrentColor color => { s with currentColor := color }
  | .setPaletteOrientation o =>
    if o = "horizontal" ∨ o = "vertical" then { s with paletteOrientation := o } else s
  | .setPaletteColor idx color => setPaletteColor s idx color
  | .addPaletteStop => addPaletteStop s
  | .removePaletteStop idx => removePaletteStop s idx
  | .movePaletteStop idx dir => movePaletteStop s idx dir
  | .itemDown clientX clientY item part isEditing =>
    if item ∈ s.items then boardItemMouseDown s clientX clientY item part isEditing else s
  | .handleDown clientX clientY item =>
    if item ∈ s.items then handleMouseDown s clientX clientY item else s
  | .mouseMove clientX clientY =>
    useResize.onMove (useDrag.onMouseMove (onPanMove s clientX clientY) clientX clientY)
      clientX clientY
  | .mouseUp => useResize.onUp (useDrag.onMouseUp (endPan s))
  | .resize id corner dx dy origin => onResize s id corner dx dy origin

/-- The state after a sequence of events, the earliest first. -/
def run (s : State) (acts : List Action) : State :=
  acts.foldl step s

/-- States the application can be in: those some sequence of events leads to
from the initial state. -/
def Reachable (s : State) : Prop :=
  ∃ acts : List Action, run State.init acts = s

/-- Pointer-move events at the given pointer positions, the earliest first. -/
def moveEvents (moves : List (ℚ × ℚ)) : List Action :=
  moves.map (fun p => Action.mouseMove p.1 p.2)

/-! ## Predicates used by the theorems -/

/-- The zoom invariant: inside `[0.1, 3.0]` and a whole number of hundredths. -/
def ZoomOk (z : ℚ) : Prop :=
  0.1 ≤ z ∧ z ≤ 3 ∧ ∃ k : ℤ, z = (k : ℚ) / 100

/-- The size floor: every item of the store is at least 60 wide and 60 high. -/
def MinSize (items : List Item) : Prop :=
  ∀ it ∈ items, 60 ≤ it.w ∧ 60 ≤ it.h

/-- A field of a patched item: it has the value the patch names for it, and its
old value when the patch does not name it. -/
def FieldSet {α : Type} (p : Option α) (old new : α) : Prop :=
  (∀ v, p = some v → new = v) ∧ (p = none → new = old)

/-- The same for a field that an item may lack. -/
def FieldSetOpt {α : Type} (p : Option α) (old new : Option α) : Prop :=
  (∀ v, p = some v → new = some v) ∧ (p = none → new = old)

/-- Item `new` is item `old` with the fields named in `patch` set to the patch's
values and every other field unchanged. -/
def Patched (old new : Item) (patch : Patch) : Prop :=
  FieldSet patch.id old.id new.id ∧ FieldSet patch.type old.type new.type ∧
    FieldSet patch.x old.x new.x ∧ FieldSet patch.y old.y new.y ∧
    FieldSet patch.w old.w new.w ∧ FieldSet patch.h old.h new.h ∧
    FieldSet patch.zIndex old.zIndex new.zIndex ∧ FieldSetOpt patch.src old.src new.src ∧
    FieldSetOpt patch.text old.text new.text ∧ FieldSetOpt patch.title old.title new.title ∧
    FieldSetOpt patch.url old.url new.url ∧ FieldSetOpt patch.colors old.colors new.colors ∧
    FieldSetOpt patch.orientation old.orientation new.orientation

/-- Every id in the store was issued by `newId` before: it is below the counter
value, so the next id is new. -/
def FreshIds (items : List Item) (idCounter : Nat) : Prop :=
  ∀ it ∈ items, it.id < idCounter

/-- The id that `newId()` returns while the event `a` is handled in state `s`:
each handler that builds an item calls `newId` once, which returns the counter
value and increments the counter; no other handler calls `newId`. -/
def issuedId (s : State) : Action → Option Nat
  | .addImage => some s.idCounter
  | .addNote => some s.idCounter
  | .addDocument => some s.idCounter
  | .addComment => some s.idCounter
  | .addLink => some s.idCounter
  | .addSwatch => some s.idCounter
  | .addVoice _ _ => some s.idCounter
  | .pickAudio (some _) => some s.idCounter
  | .pickVideo (some _) => some s.idCounter
  | _ => none

/-- The ids that `newId()` returns while the events `acts` are handled from
state `s`, the earliest first. -/
def issuedIds (s : State) : List Action → List Nat
  | [] => []
  | a :: acts => (issuedId s a).toList ++ issuedIds (step s a) acts

/-- The ids of the store are pairwise distinct and were all issued, and the ids
issued so far (`issued`, the earliest first) are increasing and below the
counter. -/
def IdsOk (s : State) (issued : List Nat) : Prop :=
  (s.items.map (fun it => it.id)).Nodup ∧ (∀ i ∈ s.items.map (fun it => it.id), i ∈ issued) ∧
    (∀ n ∈ issued, n < s.idCounter) ∧ issued.Pairwise (fun a b => a < b)

/-- The number of interaction state machines (drag, resize, pan) whose ref is
set, that is, which are in their active state. -/
def activeCount (s : State) : Nat :=
  (if s.dragging.isSome then 1 else 0) + (if s.start.isSome then 1 else 0) +
    (if s.panning.isSome then 1 else 0)

/-- The pointer-down events. -/
def isPointerDown : Action → Bool
  | .backgroundDown _ _ _ => true
  | .boardDown => true
  | .itemDown _ _ _ _ _ => true
  | .handleDown _ _ _ => true
  | _ => false

/-- The pointer-up event. -/
def isPointerUp : Action → Bool
  | .mouseUp => true
  | _ => false

/-- A sequence of events in which a pointer-down comes only while no button is
held: `held` says whether one is held before the first event; a pointer-down
sets it and a pointer-up clears it. -/
def oneButtonAtATime : Bool → List Action → Bool
  | _, [] => true
  | held, a :: acts =>
    if isPointerDown a then !held && oneButtonAtATime true acts
    else if isPointerUp a then oneButtonAtATime false acts
    else oneButtonAtATime held acts

/-- The zoom operation in the spec's words: the value rounded to 2 decimals and
clamped to `[0.1, 3.0]` on both sides. -/
def clampedRounded (v : ℚ) : ℚ :=
  min 3 (max 0.1 (toFixed2 v))

/-! ## Export -/

/-- JavaScript `v || d` for a string field `v` that may be missing: the empty
string and `undefined` are falsy. -/
def orStr (v : Option String) (d : String) : String :=
  match v with
  | some str => if str = "" then d else str
  | none => d

/-- The markup of `exportAsHTML` before the items: the text of the template
literal up to `${items.map(...)}`. -/
def htmlHead : String :=
  "<!DOCTYPE html>\n" ++
  "<html>\n" ++
  "<head>\n" ++
  "  <meta charset=\"UTF-8\">\n" ++
  "  <meta name=\"viewport\" content=\"width=device-width, initial-scale=1.0\">\n" ++
  "  <title>Moodart Board</title>\n" ++
  "  <style>\n" ++
  "    body \x7b margin: 0; padding: 40px; background: white; font-family: sans-serif; \x7d\n" ++
  "    h1 \x7b color: #D84040; margin-bottom: 30px; \x7d\n" ++
  "    .board \x7b position: relative; width: 100%; min-height: 800px; background: #fafafa; border: 1px solid #e0e0e0; border-radius: 8px; padding: 20px; \x7d\n" ++
  "    .item \x7b position: absolute; border-radius: 16px; box-shadow: 0 4px 12px rgba(0,0,0,0.1); overflow: hidden; \x7d\n" ++
  "    .item img \x7b width: 100%; height: 100%; object-fit: cover; \x7d\n" ++
  "    .item video \x7b width: 100%; height: 100%; object-fit: contain; background: #000; \x7d\n" ++
  "    .item audio \x7b width: calc(100% - 20px); margin: 10px; \x7d\n" ++
  "    .note \x7b background: rgba(255,255,255,0.95); padding: 20px; font-size: 14px; line-height: 1.6; border: 2px solid rgba(255,255,255,0.6); \x7d\n" ++
  "    .document \x7b background: rgba(255,255,255,0.98); padding: 20px; border: 2px solid rgba(255,255,255,0.6); \x7d\n" ++
  "    .doc-title \x7b font-weight: bold; margin-bottom: 10px; color: #A31D1D; display: flex; align-items: center; gap: 8px; \x7d\n" ++
  "    .comment \x7b background: linear-gradient(135deg, rgba(216, 64, 64, 0.15) 0%, rgba(163, 29, 29, 0.10) 100%); padding: 20px; border: 2px solid rgba(216, 64, 64, 0.3); \x7d\n" ++
  "    .comment-title \x7b font-weight: bold; margin-bottom: 10px; color: #D84040; \x7d\n" ++
  "    .link \x7b background: linear-gradient(135deg, rgba(224, 242, 254, 0.95) 0%, rgba(219, 234, 254, 0.95) 100%); padding: 20px; border: 2px solid rgba(147, 197, 253, 0.5); \x7d\n" ++
  "    .link-title \x7b font-weight: bold; margin-bottom: 10px; \x7d\n" ++
  "    .link a \x7b color: #2563eb; text-decoration: none; \x7d\n" ++
  "    .link a:hover \x7b text-decoration: underline; \x7d\n" ++
  "    .swatch \x7b display: flex; \x7d\n" ++
  "    .swatch-h \x7b flex-direction: row; \x7d\n" ++
  "    .swatch-v \x7b flex-direction: column; \x7d\n" ++
  "    .swatch-color \x7b flex: 1; \x7d\n" ++
  "    .audio-container \x7b background: rgba(255,255,255,0.98); padding: 16px; \x7d\n" ++
  "    .audio-title \x7b font-weight: 600; font-size: 12px; margin-bottom: 8px; color: #A31D1D; \x7d\n" ++
  "  </style>\n" ++
  "</head>\n" ++
  "<body>\n" ++
  "  <h1>Moodart Board</h1>\n" ++
  "  <div class=\"board\">\n" ++
  "    "

/-- The markup of `exportAsHTML` after the items. -/
def htmlTail : String :=
  "\n" ++
  "  </div>\n" ++
  "</body>\n" ++
  "</html>"

/-- The callback of `items.map` in `exportAsHTML`: the markup of one item.
`numStr` is the conversion of a number to a string that a template literal
applies.  `none` is the `TypeError` that `item.colors.map` raises for a swatch
item without `colors`. -/
def itemHtml (numStr : ℚ → String) (item : Item) : Option String :=
  if item.type = "image" ∧ truthy item.src = true then
    some
     ("<div class=\"item\" style=\"left:" ++ numStr item.x ++ "px;top:" ++ numStr item.y ++
      "px;width:" ++ numStr item.w ++ "px;height:" ++ numStr item.h ++ "px\">\n" ++
      "          <img src=\"" ++ item.src.getD "" ++ "\" alt=\"\" />\n" ++ "        </div>")
  else if item.type = "video" ∧ truthy item.src = true then
    some
     ("<div class=\"item\" style=\"left:" ++ numStr item.x ++ "px;top:" ++ numStr item.y ++
      "px;width:" ++ numStr item.w ++ "px;height:" ++ numStr item.h ++ "px\">\n" ++
      "          <video controls src=\"" ++ item.src.getD "" ++ "\"></video>\n" ++
      "        </div>")
  else if item.type = "audio" ∧ truthy item.src = true then
    some
     ("<div class=\"item audio-container\" style=\"left:" ++ numStr item.x ++ "px;top:" ++
      numStr item.y ++ "px;width:" ++ numStr item.w ++ "px;height:" ++ numStr item.h ++ "px\">\n" ++
      "          <div class=\"audio-title\">" ++ orStr item.title "Audio" ++ "</div>\n" ++
      "          <audio controls src=\"" ++ item.src.getD "" ++ "\"></audio>\n" ++
      "        </div>")
  else if item.type = "note" then
    some
     ("<div class=\"item note\" style=\"left:" ++ numStr item.x ++ "px;top:" ++ numStr item.y ++
      "px;width:" ++ numStr item.w ++ "px;height:" ++ numStr item.h ++ "px\">\n" ++ "          " ++
      orStr item.text "" ++ "\n" ++ "        </div>")
  else if item.type = "document" then
    some
     ("<div class=\"item document\" style=\"left:" ++ numStr item.x ++ "px;top:" ++ numStr item.y ++
      "px;width:" ++ numStr item.w ++ "px;height:" ++ numStr item.h ++ "px\">\n" ++
      "          <div class=\"doc-title\">" ++ orStr item.title "Document" ++ "</div>\n" ++
      "          <div>" ++ orStr item.text "" ++ "</div>\n" ++ "        </div>")
  else if item.type = "comment" then
    some
     ("<div class=\"item comment\" style=\"left:" ++ numStr item.x ++ "px;top:" ++ numStr item.y ++
      "px;width:" ++ numStr item.w ++ "px;height:" ++ numStr item.h ++ "px\">\n" ++
      "          <div class=\"comment-title\">Comment</div>\n" ++ "          <div>" ++
      orStr item.text "" ++ "</div>\n" ++ "        </div>")
  else if item.type = "link" then
    some
     ("<div class=\"item link\" style=\"left:" ++ numStr item.x ++ "px;top:" ++ numStr item.y ++
      "px;width:" ++ numStr item.w ++ "px;height:" ++ numStr item.h ++ "px\">\n" ++
      "          <div class=\"link-title\">" ++ orStr item.title "Link" ++ "</div>\n" ++
      "          <a href=\"" ++ orStr item.url "#" ++ "\" target=\"_blank\">" ++ orStr item.url "" ++
      "</a>\n" ++ "        </div>")
  else if item.type = "swatch" then
    match item.colors with
    | none => none
    | some colors =>
      some
       ("<div class=\"item swatch swatch-" ++
        (if item.orientation = some "horizontal" then "h" else "v") ++ "\" style=\"left:" ++
        numStr item.x ++ "px;top:" ++ numStr item.y ++ "px;width:" ++ numStr item.w ++
        "px;height:" ++ numStr item.h ++ "px\">\n" ++ "          " ++
        String.join (colors.map (fun c => "<div class=\"swatch-color\" style=\"background:" ++ c ++ "\"></div>")) ++
        "\n" ++ "        </div>")
  else some ""

/-- The document `htmlContent` that `exportAsHTML` builds from the store `items`
(and then offers for download, which does not touch the state); `none` when the
callback raises. -/
def exportAsHTML (numStr : ℚ → String) (items : List Item) : Option String :=
  (items.mapM (itemHtml numStr)).map
    (fun frags => htmlHead ++ "\n".intercalate frags ++ htmlTail)

/-- The effect of `exportAs(type)` on the state.  `boardMounted` is
`boardRef.current` being set, `pipelineThrows` is the image pipeline
(`htmlToImage`) raising inside the `try`, `windowOpened` is `window.open('')`
returning a window.  The awaits only delay the final `setPopover(null)`; the
downloads, alerts and the print window are outside the state. -/
def exportAs (s : State) (numStr : ℚ → String) (type : String)
    (boardMounted pipelineThrows windowOpened : Bool) : State :=
  if !boardMounted then s
  else if s.items.length = 0 then { s with popover := none }
  else if type = "png" ∨ type = "jpg" then { s with popover := none }
  else if type = "pdf" then
    if !pipelineThrows && !windowOpened then s else { s with popover := none }
  else if type = "html" then
    match exportAsHTML numStr s.items with
    | some _ => { s with popover := none }
    | none => s
  else { s with popover := none }

/-! ## The voice recorder -/

/-- The board state together with the recorder state of `App`: `recState`,
`voiceError`, whether `mediaRef.current` holds a recorder, and the item count
that the `onstop` callback of that recorder sees (see `addVoice`). -/
structure VoiceState where
  board : State
  recState : String
  voiceError : String
  mediaRef : Bool
  startedWith : Nat

/-- The recorder after the first render. -/
def VoiceState.init : VoiceState :=
  { board := State.init, recState := "idle", voiceError := "", mediaRef := false,
    startedWith := 0 }

/-- Handler `startRec`; `granted` is `getUserMedia` resolving.  When it rejects,
the `catch` block runs. -/
def startRec (v : VoiceState) (granted : Bool) : VoiceState :=
  if granted then
    { v with mediaRef := true, startedWith := v.board.items.length, recState := "recording",
             voiceError := "" }
  else
    { v with recState := "error", voiceError := "Microphone permission required (HTTPS)" }

/-- Handler `stopRec` followed by the `onstop` callback it triggers; `src` is the
object URL of the recording. -/
def stopRec (v : VoiceState) (src : String) : VoiceState :=
  if v.mediaRef ∧ v.recState = "recording" then
    { v with board := addVoice v.board v.startedWith src, recState := "idle", voiceError := "" }
  else v

/-- What the user can do while the voice popover is in the tree: press the
button it shows, or do something on the board. -/
inductive VoiceAction where
  /-- Button "Start Recording", rendered when `recState === 'idle'`. -/
  | start (granted : Bool)
  /-- Button "Stop & Add to Board", rendered when `recState === 'recording'`. -/
  | stop (src : String)
  /-- Any event of the board. -/
  | board (a : Action)

/-- One action handled; a button that is not rendered cannot be pressed.  For
`recState === 'error'` the popover renders the message only. -/
def voiceStep (v : VoiceState) : VoiceAction → VoiceState
  | .start granted => if v.recState = "idle" then startRec v granted else v
  | .stop src => if v.recState = "recording" then stopRec v src else v
  | .board a => { v with board := step v.board a }

/-- The recorder after a sequence of actions, the earliest first. -/
def voiceRun (v : VoiceState) (acts : List VoiceAction) : VoiceState :=
  acts.foldl voiceStep v

/-! ## The palette as a JavaScript array -/

/-- An element slot of a JavaScript array of colours: an empty slot (a hole),
`undefined`, or a string. -/
inductive Slot where
  | hole
  | undefined
  | color (c : String)
  deriving DecidableEq, Repr

/-- The array copy `[...a]`: an empty slot is read as `undefined`. -/
def Stops.spread (a : List Slot) : List Slot :=
  a.map (fun v => if v = .hole then .undefined else v)

/-- The read `a[i]` for an integer `i`: `undefined` outside the array and for an
empty slot. -/
def Stops.get (a : List Slot) (i : ℤ) : Slot :=
  if i < 0 then .undefined
  else
    match a.get? i.toNat with
    | some v => if v = .hole then .undefined else v
    | none => .undefined

/-- The array after the assignment `a[i] = v` for an integer `i`: beyond the end
the array grows, with empty slots in between; a negative `i` names a property
that is no element. -/
def Stops.set (a : List Slot) (i : ℤ) (v : Slot) : List Slot :=
  if i < 0 then a
  else if i.toNat < a.length then a.set i.toNat v
  else a ++ List.replicate (i.toNat - a.length) .hole ++ [v]

/-- The updater of `setPaletteColor(idx, color)`:
`arr.map((c, i) => (i === idx ? color : c))`; `map` leaves empty slots empty. -/
def Stops.setPaletteColor (arr : List Slot) (idx : ℤ) (color : String) : List Slot :=
  arr.enum.map (fun p =>
    if p.2 = .hole then .hole else if (p.1 : ℤ) = idx then .color color else p.2)

/-- The updater of `addPaletteStop`: `[...a, currentColor]`. -/
def Stops.addPaletteStop (a : List Slot) (currentColor : String) : List Slot :=
  Stops.spread a ++ [.color currentColor]

/-- Handler `removePaletteStop(idx)` on the array: `filter` visits no empty
slot. -/
def Stops.removePaletteStop (paletteStops : List Slot) (idx : ℤ) : List Slot :=
  if paletteStops.length > 1 then
    (paletteStops.enum.filter (fun p => ¬ p.2 = .hole ∧ ¬ (p.1 : ℤ) = idx)).map (fun p => p.2)
  else paletteStops

/-- Handler `movePaletteStop(idx, dir)` on the array: the copy `n = [...a]` and
the swap `[n[i], n[j]] = [n[j], n[i]]`, whose right side is read before the two
assignments are made from left to right. -/
def Stops.movePaletteStop (paletteStops : List Slot) (idx : ℤ) (dir : String) : List Slot :=
  if dir = "up" ∧ idx > 0 then
    let n := Stops.spread paletteStops
    Stops.set (Stops.set n (idx - 1) (Stops.get n idx)) idx (Stops.get n (idx - 1))
  else if dir = "down" ∧ idx < (paletteStops.length : ℤ) - 1 then
    let n := Stops.spread paletteStops
    Stops.set (Stops.set n idx (Stops.get n (idx + 1))) (idx + 1) (Stops.get n idx)
  else paletteStops

/-- A call of one of the four palette handlers, with any integer index. -/
inductive PaletteCall where
  | setPaletteColor (idx : ℤ) (color : String)
  | addPaletteStop (currentColor : String)
  | removePaletteStop (idx : ℤ)
  | movePaletteStop (idx : ℤ) (dir : String)

/-- The palette array after one call. -/
def Stops.call (a : List Slot) : PaletteCall → List Slot
  | .setPaletteColor idx color => Stops.setPaletteColor a idx color
  | .addPaletteStop currentColor => Stops.addPaletteStop a currentColor
  | .removePaletteStop idx => Stops.removePaletteStop a idx
  | .movePaletteStop idx dir => Stops.movePaletteStop a idx dir

/-- The palette array after a sequence of calls, the earliest first. -/
def Stops.run (a : List Slot) (calls : List PaletteCall) : List Slot :=
  calls.foldl Stops.call a

/-- The initial palette `[PALETTE.red, PALETTE.sand, PALETTE.cream]`. -/
def Stops.init : List Slot :=
  [.color "#D84040", .color "#ECDCBF", .color "#F8F2DE"]

/-- The number of slots of the array that are not empty. -/
def Stops.real (a : List Slot) : Nat :=
  a.countP (fun v => decide (¬ v = .hole))

/-- The array has an element, and at least two when its length is at least
two. -/
def Stops.Ok (a : List Slot) : Prop :=
  1 ≤ Stops.real a ∧ (2 ≤ a.length → 2 ≤ Stops.real a)

/-- A palette of strings as an array without empty slots. -/
def Stops.ofColors (l : List String) : List Slot :=
  l.map Slot.color

/-- The palette has at least one stop and the orientation is one of the two the
buttons set. -/
def PaletteOk (s : State) : Prop :=
  1 ≤ s.paletteStops.length ∧
    (s.paletteOrientation = "horizontal" ∨ s.paletteOrientation = "vertical")

/-! ## The resize handler on numbers that may be NaN -/

/-- A JavaScript number as a handler may receive one: `NaN`, an infinity, or a
finite number, which is embedded as a rational. -/
inductive JsNumber where
  | nan
  | posInf
  | negInf
  | num (v : ℚ)
  deriving DecidableEq, Repr

/-- JavaScript `a + b`: `NaN` when an operand is `NaN` and for
`Infinity + -Infinity`. -/
def JsNumber.add : JsNumber → JsNumber → JsNumber
  | .nan, _ => .nan
  | _, .nan => .nan
  | .posInf, .negInf => .nan
  | .negInf, .posInf => .nan
  | .posInf, _ => .posInf
  | _, .posInf => .posInf
  | .negInf, _ => .negInf
  | _, .negInf => .negInf
  | .num a, .num b => .num (a + b)

/-- JavaScript `Math.max(a, b)`: `NaN` when an argument is `NaN`. -/
def JsNumber.mathMax : JsNumber → JsNumber → JsNumber
  | .nan, _ => .nan
  | _, .nan => .nan
  | .posInf, _ => .posInf
  | _, .posInf => .posInf
  | .negInf, b => b
  | a, .negInf => a
  | .num a, .num b => .num (max a b)

/-- JavaScript `a >= b`: false when an operand is `NaN`. -/
def JsNumber.ge : JsNumber → JsNumber → Bool
  | .nan, _ => false
  | _, .nan => false
  | .posInf, _ => true
  | _, .negInf => true
  | .negInf, _ => false
  | _, .posInf => false
  | .num a, .num b => decide (b ≤ a)

/-- The fields of an item that `onResize` reads and writes, as JavaScript
numbers; the handler returns every other field as it is. -/
structure JsItem where
  id : Nat
  w : JsNumber
  h : JsNumber
  x : JsNumber
  y : JsNumber
  deriving DecidableEq, Repr

/-- The `origin` argument of `onResize` as JavaScript numbers. -/
structure JsOrigin where
  w : JsNumber
  h : JsNumber
  x : JsNumber
  y : JsNumber
  deriving DecidableEq, Repr

/-- Handler `onResize(id, corner, dx, dy, origin)` on JavaScript numbers, as
the updater it passes to `setItems`.  On finite numbers it is `onResize`. -/
def onResizeJs (prev : List JsItem) (id : Nat) (_corner : String) (dx dy : JsNumber)
    (origin : JsOrigin) : List JsItem :=
  prev.map (fun it =>
    if it.id ≠ id then it
    else
      let min := JsNumber.num 60
      { it with
        w := JsNumber.mathMax min (origin.w.add dx), h := JsNumber.mathMax min (origin.h.add dy),
        x := it.x, y := it.y })

/-- An item with finite numbers as a `JsItem`. -/
def JsItem.ofItem (it : Item) : JsItem :=
  { id := it.id, w := .num it.w, h := .num it.h, x := .num it.x, y := .num it.y }

/-- An origin of finite numbers as a `JsOrigin`. -/
def JsOrigin.ofOrigin (o : Origin) : JsOrigin :=
  { w := .num o.w, h := .num o.h, x := .num o.x, y := .num o.y }

/-! # Theorems -/

/-! ## Zoom stays in range -/

theorem ratFloor_eq (v : ℚ) : Rat.floor v = ⌊v⌋ := rfl

theorem toFixed2_hundredths (v : ℚ) : ∃ k : ℤ, toFixed2 v = (k : ℚ) / 100 := by
  unfold toFixed2
  split
  · exact ⟨-Rat.floor (-v * 100 + 1 / 2), by push_cast; ring⟩
  · exact ⟨Rat.floor (v * 100 + 1 / 2), rfl⟩

theorem le_toFixed2 (v : ℚ) (k : ℤ) (hk : 0 ≤ k) (h : (k : ℚ) / 100 ≤ v) :
    (k : ℚ) / 100 ≤ toFixed2 v := by
  have hk' : (0 : ℚ) ≤ k := by exact_mod_cast hk
  have hv : ¬ v < 0 := by
    have : (0 : ℚ) ≤ (k : ℚ) / 100 := by positivity
    linarith
  have hf : k ≤ Rat.floor (v * 100 + 1 / 2) := by
    rw [ratFloor_eq, Int.le_floor]
    linarith
  have hf' : (k : ℚ) ≤ (Rat.floor (v * 100 + 1 / 2) : ℤ) := by exact_mod_cast hf
  simp only [toFixed2, hv, if_false]
  linarith

theorem toFixed2_le (v : ℚ) (k : ℤ) (h : v ≤ (k : ℚ) / 100) :
    toFixed2 v ≤ (k : ℚ) / 100 := by
  unfold toFixed2
  split
  · have hf : -k ≤ Rat.floor (-v * 100 + 1 / 2) := by
      rw [ratFloor_eq, Int.le_floor]
      push_cast
      linarith
    have hf' : -(k : ℚ) ≤ (Rat.floor (-v * 100 + 1 / 2) : ℤ) := by exact_mod_cast hf
    linarith
  · have hf : Rat.floor (v * 100 + 1 / 2) < k + 1 := by
      rw [ratFloor_eq, Int.floor_lt]
      push_cast
      linarith
    have hf' : ((Rat.floor (v * 100 + 1 / 2) : ℤ) : ℚ) ≤ k := by exact_mod_cast Int.lt_add_one_iff.mp hf
    linarith

theorem toFixed2_hundredth (k : ℤ) : toFixed2 ((k : ℚ) / 100) = (k : ℚ) / 100 := by
  have half : ⌊(1 / 2 : ℚ)⌋ = 0 := by
    rw [Int.floor_eq_iff]; norm_num
  unfold toFixed2
  split
  · have : -((k : ℚ) / 100) * 100 + 1 / 2 = ((-k : ℤ) : ℚ) + 1 / 2 := by push_cast; ring
    rw [this, ratFloor_eq, Int.floor_int_add, half]
    push_cast; ring
  · have : (k : ℚ) / 100 * 100 + 1 / 2 = (k : ℚ) + 1 / 2 := by ring
    rw [this, ratFloor_eq, Int.floor_int_add, half]
    simp

theorem zoomOk_one : ZoomOk 1 :=
  ⟨by norm_num, by norm_num, 100, by norm_num⟩

theorem hundredths_min3 {v : ℚ} (h : ∃ k : ℤ, v = (k : ℚ) / 100) :
    ∃ k : ℤ, min 3 v = (k : ℚ) / 100 := by
  rcases min_choice 3 v with h3 | hv
  · exact ⟨300, by rw [h3]; norm_num⟩
  · rw [hv]; exact h

theorem hundredths_max01 {v : ℚ} (h : ∃ k : ℤ, v = (k : ℚ) / 100) :
    ∃ k : ℤ, max 0.1 v = (k : ℚ) / 100 := by
  rcases max_choice 0.1 v with h1 | hv
  · exact ⟨10, by rw [h1]; norm_num⟩
  · rw [hv]; exact h

theorem zoomOk_zoomInZ {z : ℚ} (h : ZoomOk z) : ZoomOk (zoomInZ z) := by
  obtain ⟨hlo, -, -⟩ := h
  refine ⟨?_, min_le_left _ _, hundredths_min3 (toFixed2_hundredths _)⟩
  have h20 := le_toFixed2 (z + 0.1) 20 (by norm_num) (by norm_num at hlo ⊢; linarith)
  unfold zoomInZ
  rw [le_min_iff]
  constructor
  · norm_num
  · norm_num at h20 ⊢; linarith

theorem zoomOk_zoomOutZ {z : ℚ} (h : ZoomOk z) : ZoomOk (zoomOutZ z) := by
  obtain ⟨-, hhi, -⟩ := h
  refine ⟨le_max_left _ _, ?_, hundredths_max01 (toFixed2_hundredths _)⟩
  have h290 := toFixed2_le (z - 0.1) 290 (by norm_num at hhi ⊢; linarith)
  unfold zoomOutZ
  rw [max_le_iff]
  constructor
  · norm_num
  · norm_num at h290 ⊢; linarith

theorem zoomOk_onWheelZ (deltaY z : ℚ) : ZoomOk (onWheelZ deltaY z) := by
  unfold onWheelZ
  refine ⟨?_, min_le_left _ _, hundredths_min3 (hundredths_max01 (toFixed2_hundredths _))⟩
  rw [le_min_iff]
  exact ⟨by norm_num, le_max_left _ _⟩

theorem boardItemMouseDown_eq (s : State) (cx cy : ℚ) (item : Item) (part : ItemPart)
    (isEditing : Bool) :
    boardItemMouseDown s cx cy item part isEditing =
      if handlerRuns item part isEditing = true then itemMouseDown s cx cy item else s := by
  unfold boardItemMouseDown handlerRuns onBoardClick
  by_cases h1 : item.type = "note" ∨ item.type = "comment"
  · cases part <;> cases isEditing <;> simp [h1]
  · by_cases h2 : item.type ∈ ["image", "document", "link", "swatch", "audio", "video"]
    · cases part <;> cases isEditing <;> simp [h1, h2]
    · simp [h1, h2]

theorem step_itemDown_eq (s : State) (cx cy : ℚ) (item : Item) (part : ItemPart)
    (isEditing : Bool) :
    step s (.itemDown cx cy item part isEditing) =
      if item ∈ s.items ∧ handlerRuns item part isEditing = true then itemMouseDown s cx cy item
      else s := by
  simp only [step, boardItemMouseDown_eq]
  by_cases h1 : item ∈ s.items <;> by_cases h2 : handlerRuns item part isEditing = true <;>
    simp [h1, h2]

theorem step_zoom (s : State) (a : Action) :
    (step s a).zoom = s.zoom ∨ (step s a).zoom = 1 ∨ (step s a).zoom = zoomInZ s.zoom ∨
      (step s a).zoom = zoomOutZ s.zoom ∨ ∃ deltaY, (step s a).zoom = onWheelZ deltaY s.zoom := by
  cases a <;>
    simp only [step, boardItemMouseDown_eq, onWheel, resetView, zoomIn, zoomOut, onBoardClick,
      beginPan, addImage,
      addNote, addDocument, addComment, addLink, addMusic, addVideo, addSwatch, addVoice,
      onPickAudio, onPickVideo, onPickImage, removeItem, setPaletteColor, addPaletteStop,
      removePaletteStop, movePaletteStop, itemMouseDown, handleMouseDown, bringToFront,
      useDrag.onMouseDown, useDrag.onMouseMove, useDrag.onMouseUp, useResize.onHandleDown,
      useResize.onMove, useResize.onUp, onPanMove, endPan, onResize] <;>
    (repeat' split) <;> first | simp | exact Or.inr (Or.inr (Or.inr (Or.inr ⟨_, rfl⟩)))

theorem zoomOk_step (s : State) (a : Action) (h : ZoomOk s.zoom) : ZoomOk (step s a).zoom := by
  rcases step_zoom s a with e | e | e | e | ⟨d, e⟩ <;> rw [e]
  · exact h
  · exact zoomOk_one
  · exact zoomOk_zoomInZ h
  · exact zoomOk_zoomOutZ h
  · exact zoomOk_onWheelZ d s.zoom

theorem zoomOk_run (acts : List Action) (s : State) (h : ZoomOk s.zoom) :
    ZoomOk (run s acts).zoom := by
  induction acts generalizing s with
  | nil => exact h
  | cons a acts ih => exact ih (step s a) (zoomOk_step s a h)

/-- C1: after any finite sequence of events from the initial state (zoomIn,
zoomOut, wheel events with any deltaY and resetView among them, in any order and
interleaved with any other event), the zoom lies in `[0.1, 3.0]` and is a whole
number of hundredths, that is, it has at most two decimal places. -/
theorem zoom_in_range_two_decimals (acts : List Action) :
    (0.1 : ℚ) ≤ (run State.init acts).zoom ∧ (run State.init acts).zoom ≤ 3 ∧
      ∃ k : ℤ, (run State.init acts).zoom = (k : ℚ) / 100 :=
  zoomOk_run acts State.init zoomOk_one

/-! ## The size floor -/

theorem minSize_append {items : List Item} {it : Item} (h : MinSize items)
    (hw : 60 ≤ it.w) (hh : 60 ≤ it.h) : MinSize (items ++ [it]) := by
  intro j hj
  rcases List.mem_append.mp hj with hj | hj
  · exact h j hj
  · rw [List.mem_singleton.mp hj]; exact ⟨hw, hh⟩

theorem minSize_filter {items : List Item} (p : Item → Bool) (h : MinSize items) :
    MinSize (items.filter p) :=
  fun j hj => h j (List.mem_of_mem_filter hj)

theorem minSize_setItem {items : List Item} (id : Nat) (patch : Patch) (h : MinSize items)
    (hw : patch.w = none) (hh : patch.h = none) : MinSize (setItem items id patch) := by
  intro j hj
  obtain ⟨i, hi, rfl⟩ := List.mem_map.mp hj
  split
  · simpa [merge, hw, hh] using h i hi
  · exact h i hi

theorem minSize_onResize (s : State) (id : Nat) (corner : String) (dx dy : ℚ) (origin : Origin)
    (h : MinSize s.items) : MinSize (onResize s id corner dx dy origin).items := by
  intro j hj
  obtain ⟨i, hi, rfl⟩ := List.mem_map.mp hj
  split
  · exact h i hi
  · exact ⟨le_max_left _ _, le_max_left _ _⟩

theorem minSize_bringToFront (s : State) (id : Nat) (h : MinSize s.items) :
    MinSize (bringToFront s id).items := by
  unfold bringToFront
  split
  · exact minSize_setItem _ _ h rfl rfl
  · exact h

theorem minSize_onPickImage (s : State) (file : Option String) (h : MinSize s.items) :
    MinSize (onPickImage s file).items := by
  unfold onPickImage
  simp only
  split
  · exact minSize_setItem _ _ h rfl rfl
  · split
    · split
      · exact minSize_filter _ h
      · exact h
    · exact h
  · exact h

theorem minSize_newSwatch (id n : Nat) (stops : List String) (o : String) :
    60 ≤ (newSwatch id n stops o).w ∧ 60 ≤ (newSwatch id n stops o).h := by
  unfold newSwatch
  constructor <;> simp only <;> split <;> norm_num

theorem minSize_step (s : State) (a : Action) (h : MinSize s.items) :
    MinSize (step s a).items := by
  cases a with
  | wheel _ => exact h
  | resetView => exact h
  | zoomIn => exact h
  | zoomOut => exact h
  | backgroundDown button cx cy =>
    simp only [step, onBoardClick, beginPan]
    repeat' split
    all_goals exact h
  | boardDown => exact h
  | selectModeButton => exact h
  | addImage => exact minSize_append h (by norm_num [newImage]) (by norm_num [newImage])
  | addNote => exact minSize_append h (by norm_num [newNote]) (by norm_num [newNote])
  | addDocument => exact minSize_append h (by norm_num [newDocument]) (by norm_num [newDocument])
  | addComment => exact minSize_append h (by norm_num [newComment]) (by norm_num [newComment])
  | addLink => exact minSize_append h (by norm_num [newLink]) (by norm_num [newLink])
  | addMusic => exact h
  | addVideo => exact h
  | addSwatch => exact minSize_append h (minSize_newSwatch _ _ _ _).1 (minSize_newSwatch _ _ _ _).2
  | addVoice n src => exact minSize_append h (by norm_num [newAudio]) (by norm_num [newAudio])
  | pickAudio file =>
    cases file with
    | none => exact h
    | some f => exact minSize_append h (by norm_num [newAudio]) (by norm_num [newAudio])
  | pickVideo file =>
    cases file with
    | none => exact h
    | some f => exact minSize_append h (by norm_num [newVideo]) (by norm_num [newVideo])
  | pickImage file => exact minSize_onPickImage s file h
  | removeItem id => exact minSize_filter _ h
  | clearBoard => intro j hj; cases hj
  | editText id text => exact minSize_setItem _ _ h rfl rfl
  | editTitle id title => exact minSize_setItem _ _ h rfl rfl
  | editUrl id url => exact minSize_setItem _ _ h rfl rfl
  | setCurrentColor _ => exact h
  | setPaletteOrientation o =>
    simp only [step]
    split <;> exact h
  | setPaletteColor _ _ => exact h
  | addPaletteStop => exact h
  | removePaletteStop idx =>
    simp only [step, removePaletteStop]
    split <;> exact h
  | movePaletteStop idx dir =>
    simp only [step, movePaletteStop]
    repeat' split
    all_goals exact h
  | itemDown cx cy item part isEditing =>
    rw [step_itemDown_eq]
    split
    · exact minSize_bringToFront _ _ h
    · exact h
  | handleDown cx cy item =>
    simp only [step]
    split <;> exact h
  | mouseMove cx cy =>
    have h1 : MinSize (onPanMove s cx cy).items := by
      unfold onPanMove
      split <;> exact h
    have h2 : MinSize (useDrag.onMouseMove (onPanMove s cx cy) cx cy).items := by
      unfold useDrag.onMouseMove
      split
      · exact h1
      · exact minSize_setItem _ _ h1 rfl rfl
    show MinSize (useResize.onMove _ cx cy).items
    unfold useResize.onMove
    split
    · exact h2
    · exact minSize_onResize _ _ _ _ _ _ h2
  | mouseUp => exact h
  | resize id corner dx dy origin => exact minSize_onResize s id corner dx dy origin h

theorem minSize_run (acts : List Action) (s : State) (h : MinSize s.items) :
    MinSize (run s acts).items := by
  induction acts generalizing s with
  | nil => exact h
  | cons a acts ih => exact ih (step s a) (minSize_step s a h)

/-- C2: in every state reached from the empty board by any sequence of events
(the add-actions for image, note, document, comment, link, audio, video, voice
and swatch, drags, removals and `onResize` calls with arbitrary finite numbers
as `dx`, `dy` and `origin` among them), every item of the store has `w ≥ 60` and
`h ≥ 60`. -/
theorem size_floor_reachable (acts : List Action) :
    ∀ it ∈ (run State.init acts).items, (60 : ℚ) ≤ it.w ∧ (60 : ℚ) ≤ it.h :=
  minSize_run acts State.init (fun _ hj => by cases hj)

/-! ## Dragging -/

theorem orOne_of_pos {z : ℚ} (h : 0 < z) : orOne z = z := by
  unfold orOne
  rw [if_neg (ne_of_gt h)]

theorem onPanMove_frame (s : State) (cx cy : ℚ) :
    (onPanMove s cx cy).items = s.items ∧ (onPanMove s cx cy).dragging = s.dragging ∧
      (onPanMove s cx cy).zoom = s.zoom ∧ (onPanMove s cx cy).start = s.start := by
  unfold onPanMove
  split <;> simp

theorem dragMove_frame (s : State) (cx cy : ℚ) :
    (useDrag.onMouseMove s cx cy).dragging = s.dragging ∧
      (useDrag.onMouseMove s cx cy).zoom = s.zoom ∧
      (useDrag.onMouseMove s cx cy).start = s.start := by
  unfold useDrag.onMouseMove
  split <;> simp

theorem resizeMove_frame (s : State) (cx cy : ℚ) :
    (useResize.onMove s cx cy).dragging = s.dragging ∧
      (useResize.onMove s cx cy).zoom = s.zoom := by
  unfold useResize.onMove
  split <;> simp [onResize]

/-- A resize move keeps the id and the position of every item, in order. -/
theorem resizeMove_position (s : State) (cx cy : ℚ) :
    (useResize.onMove s cx cy).items.map (fun it => (it.id, it.x, it.y)) =
      s.items.map (fun it => (it.id, it.x, it.y)) := by
  unfold useResize.onMove
  split
  · rfl
  · simp only [onResize, List.map_map]
    apply List.map_congr_left
    intro it _
    simp only [Function.comp]
    split <;> rfl

theorem resizeMove_ids (s : State) (cx cy : ℚ) :
    (useResize.onMove s cx cy).items.map (fun it => it.id) = s.items.map (fun it => it.id) := by
  unfold useResize.onMove
  split
  · rfl
  · simp only [onResize, List.map_map]
    apply List.map_congr_left
    intro it _
    simp only [Function.comp]
    split <;> rfl

theorem mem_position {items items' : List Item}
    (h : items'.map (fun it => (it.id, it.x, it.y)) = items.map (fun it => (it.id, it.x, it.y)))
    {it : Item} (hit : it ∈ items') : ∃ j ∈ items, j.id = it.id ∧ j.x = it.x ∧ j.y = it.y := by
  have : (it.id, it.x, it.y) ∈ items.map (fun it => (it.id, it.x, it.y)) := by
    rw [← h]; exact List.mem_map_of_mem _ hit
  obtain ⟨j, hj, e⟩ := List.mem_map.mp this
  simp only [Prod.mk.injEq] at e
  exact ⟨j, hj, e⟩

theorem setItem_ids (items : List Item) (id : Nat) (patch : Patch) (h : patch.id = none) :
    (setItem items id patch).map (fun it => it.id) = items.map (fun it => it.id) := by
  simp only [setItem, List.map_map]
  apply List.map_congr_left
  intro it _
  simp only [Function.comp]
  split
  · simp [merge, h]
  · rfl

theorem bringToFront_ids (s : State) (id : Nat) :
    (bringToFront s id).items.map (fun it => it.id) = s.items.map (fun it => it.id) := by
  unfold bringToFront
  split
  · exact setItem_ids _ _ _ rfl
  · rfl

/-- One pointer-move while a drag is active: the drag stays active, the zoom and
the ids in the store stay as they are, and every item with the dragged id is at
the position computed from the origin of the drag. -/
theorem step_mouseMove_dragging (s : State) (cx cy : ℚ) (d : DragRef)
    (hd : s.dragging = some d) :
    (step s (.mouseMove cx cy)).dragging = some d ∧
      (step s (.mouseMove cx cy)).zoom = s.zoom ∧
      (step s (.mouseMove cx cy)).items.map (fun it => it.id) = s.items.map (fun it => it.id) ∧
      ∀ it ∈ (step s (.mouseMove cx cy)).items, it.id = d.id →
        it.x = d.ox + (cx - d.sx) / orOne s.zoom ∧ it.y = d.oy + (cy - d.sy) / orOne s.zoom := by
  obtain ⟨pi, pd, pz, -⟩ := onPanMove_frame s cx cy
  obtain ⟨dd, dz, -⟩ := dragMove_frame (onPanMove s cx cy) cx cy
  obtain ⟨rd, rz⟩ := resizeMove_frame (useDrag.onMouseMove (onPanMove s cx cy) cx cy) cx cy
  have hpos := resizeMove_position (useDrag.onMouseMove (onPanMove s cx cy) cx cy) cx cy
  have hdrag : (useDrag.onMouseMove (onPanMove s cx cy) cx cy).items =
      setItem s.items d.id
        { x := some (d.ox + (cx - d.sx) / orOne s.zoom),
          y := some (d.oy + (cy - d.sy) / orOne s.zoom) } := by
    unfold useDrag.onMouseMove
    rw [pd, hd]
    simp only [pi, pz]
  refine ⟨by simp only [step]; rw [rd, dd, pd, hd], by simp only [step]; rw [rz, dz, pz], ?_, ?_⟩
  · simp only [step]
    rw [resizeMove_ids, hdrag]
    exact setItem_ids _ _ _ rfl
  · intro it hit hid
    simp only [step] at hit
    obtain ⟨j, hj, ji, jx, jy⟩ := mem_position hpos hit
    rw [hdrag] at hj
    obtain ⟨i, _, rfl⟩ := List.mem_map.mp hj
    rw [← jx, ← jy]
    by_cases hi : i.id = d.id
    · simp [hi, merge]
    · rw [if_neg hi] at ji
      exact absurd (ji.trans hid) hi

theorem run_append (s : State) (as bs : List Action) :
    run s (as ++ bs) = run (run s as) bs := by
  simp [run, List.foldl_append]

theorem run_moveEvents_dragging (moves : List (ℚ × ℚ)) (s : State) (d : DragRef)
    (hd : s.dragging = some d) :
    (run s (moveEvents moves)).dragging = some d ∧ (run s (moveEvents moves)).zoom = s.zoom ∧
      (run s (moveEvents moves)).items.map (fun it => it.id) = s.items.map (fun it => it.id) := by
  induction moves generalizing s with
  | nil => exact ⟨hd, rfl, rfl⟩
  | cons p moves ih =>
    obtain ⟨h1, h2, h3, -⟩ := step_mouseMove_dragging s p.1 p.2 d hd
    obtain ⟨i1, i2, i3⟩ := ih (step s (.mouseMove p.1 p.2)) h1
    exact ⟨i1, i2.trans h2, i3.trans h3⟩

theorem step_itemDown (s : State) (item : Item) (part : ItemPart) (isEditing : Bool)
    (sx sy : ℚ) (hmem : item ∈ s.items) (hruns : handlerRuns item part isEditing = true) :
    (step s (.itemDown sx sy item part isEditing)).dragging =
        some { id := item.id, sx := sx, sy := sy, ox := item.x, oy := item.y } ∧
      (step s (.itemDown sx sy item part isEditing)).zoom = s.zoom ∧
      (step s (.itemDown sx sy item part isEditing)).items.map (fun it => it.id) =
        s.items.map (fun it => it.id) := by
  rw [step_itemDown_eq, if_pos ⟨hmem, hruns⟩]
  simp only [itemMouseDown, useDrag.onMouseDown, true_and]
  refine ⟨?_, ?_⟩
  · unfold bringToFront
    split <;> rfl
  · exact bringToFront_ids _ _

/-- C3: a pointer-down at `(sx, sy)` on an item of the store that reaches the
item's handler (its target does not stop propagation, and the item is not a note
or comment being edited) captures the item's position at that moment as the
origin of the drag; when the zoom `z` is in `[0.1, 3.0]`, after any sequence of
pointer-moves whose last pointer position is `(sx + dx, sy + dy)` the item is in
the store at exactly `(ox + dx / z, oy + dy / z)`, whatever the earlier moves
were.  From the empty board: a new note is at `(100, 100)`; dragged by
`(50, 30)` at zoom 1 it is at `(150, 130)`; after ten `zoomIn` the zoom is 2 and
a second drag by `(40, 0)` puts it at `(170, 130)`. -/
theorem drag_position_from_origin (s : State) (item : Item) (part : ItemPart)
    (isEditing : Bool) (sx sy dx dy : ℚ) (moves : List (ℚ × ℚ)) (hmem : item ∈ s.items)
    (hruns : handlerRuns item part isEditing = true) (hlo : 0.1 ≤ s.zoom) (hhi : s.zoom ≤ 3) :
    ((step s (.itemDown sx sy item part isEditing)).dragging =
        some { id := item.id, sx := sx, sy := sy, ox := item.x, oy := item.y } ∧
      (∃ it ∈ (run s (.itemDown sx sy item part isEditing ::
          moveEvents (moves ++ [(sx + dx, sy + dy)]))).items,
        it.id = item.id) ∧
      ∀ it ∈ (run s (.itemDown sx sy item part isEditing ::
          moveEvents (moves ++ [(sx + dx, sy + dy)]))).items,
        it.id = item.id → it.x = item.x + dx / s.zoom ∧ it.y = item.y + dy / s.zoom) ∧
    ∀ px py qx qy : ℚ,
      (run State.init [.addNote]).items.map (fun it => (it.x, it.y)) = [(100, 100)] ∧
      (run State.init [.addNote, .itemDown px py (newNote 1 0) .body false,
        .mouseMove (px + 50) (py + 30),
        .mouseUp]).items = [{ newNote 1 0 with x := 150, y := 130, zIndex := 1 }] ∧
      (run State.init [.addNote, .itemDown px py (newNote 1 0) .body false,
        .mouseMove (px + 50) (py + 30),
        .mouseUp, .zoomIn, .zoomIn, .zoomIn, .zoomIn, .zoomIn, .zoomIn, .zoomIn, .zoomIn,
        .zoomIn, .zoomIn]).zoom = 2 ∧
      (run State.init [.addNote, .itemDown px py (newNote 1 0) .body false,
        .mouseMove (px + 50) (py + 30),
        .mouseUp, .zoomIn, .zoomIn, .zoomIn, .zoomIn, .zoomIn, .zoomIn, .zoomIn, .zoomIn,
        .zoomIn, .zoomIn,
        .itemDown qx qy { newNote 1 0 with x := 150, y := 130, zIndex := 1 } .body false,
        .mouseMove (qx + 40) qy, .mouseUp]).items.map (fun it => (it.x, it.y)) = [(170, 130)] := by
  have hpos : (0 : ℚ) < s.zoom := lt_of_lt_of_le (by norm_num) hlo
  have _ := hhi
  constructor
  · obtain ⟨d1, z1, i1⟩ := step_itemDown s item part isEditing sx sy hmem hruns
    obtain ⟨d2, z2, i2⟩ :=
      run_moveEvents_dragging moves (step s (.itemDown sx sy item part isEditing)) _ d1
    obtain ⟨-, -, i3, p3⟩ := step_mouseMove_dragging
      (run (step s (.itemDown sx sy item part isEditing)) (moveEvents moves)) (sx + dx) (sy + dy)
      _ d2
    have hrun : run s (.itemDown sx sy item part isEditing ::
          moveEvents (moves ++ [(sx + dx, sy + dy)])) =
        step (run (step s (.itemDown sx sy item part isEditing)) (moveEvents moves))
          (.mouseMove (sx + dx) (sy + dy)) := by
      simp [run, moveEvents, List.foldl_append]
    rw [hrun]
    refine ⟨d1, ?_, ?_⟩
    · have hid : item.id ∈ s.items.map (fun it => it.id) := List.mem_map_of_mem _ hmem
      rw [← i1, ← i2, ← i3] at hid
      obtain ⟨it, hit, e⟩ := List.mem_map.mp hid
      exact ⟨it, hit, e⟩
    · intro it hit hid
      have := p3 it hit hid
      rw [z2, z1, orOne_of_pos hpos] at this
      simpa using this
  · intro px py qx qy
    refine ⟨?_, ?_, ?_, ?_⟩
    · simp [run, step, addNote, newNote, State.init]
    · simp [run, step, boardItemMouseDown, addNote, newNote, itemMouseDown, bringToFront,
        mathMax, setItem, merge, useDrag.onMouseDown, useDrag.onMouseMove, useResize.onMove,
        onPanMove, useDrag.onMouseUp,
        useResize.onUp, endPan, orZero, orOne, State.init]
      norm_num
    · simp [run, step, boardItemMouseDown, addNote, newNote, itemMouseDown, bringToFront,
        mathMax, setItem, merge, useDrag.onMouseDown, useDrag.onMouseMove, useResize.onMove,
        onPanMove, useDrag.onMouseUp,
        useResize.onUp, endPan, orZero, orOne, State.init, zoomIn]
      norm_num [zoomInZ, toFixed2, Rat.floor_def']
    · simp [run, step, boardItemMouseDown, addNote, newNote, itemMouseDown, bringToFront,
        mathMax, setItem, merge, useDrag.onMouseDown, useDrag.onMouseMove, useResize.onMove,
        onPanMove, useDrag.onMouseUp,
        useResize.onUp, endPan, orZero, orOne, State.init, zoomIn]
      norm_num [zoomInZ, toFixed2, Rat.floor_def']

/-! ## The render sequence -/

theorem orZero_eq (v : ℚ) : orZero v = v := by
  unfold orZero
  split
  · rename_i h; exact h.symm
  · rfl

theorem zLe_iff (a b : Item) : zLe a b ↔ a.zIndex ≤ b.zIndex := by
  unfold zLe
  rw [orZero_eq, orZero_eq, sub_nonpos]

theorem sortedItems_perm (items : List Item) : (sortedItems items).Perm items :=
  List.perm_insertionSort zLe items

theorem sortedItems_sorted (items : List Item) :
    (sortedItems items).Pairwise (fun a b => a.zIndex ≤ b.zIndex) := by
  have h := List.sorted_insertionSort zLe items
  exact List.Pairwise.imp (fun {a b} hab => (zLe_iff a b).mp hab) h

theorem sortedItems_sublist {items c : List Item}
    (hr : c.Pairwise (fun a b => a.zIndex ≤ b.zIndex)) (hc : c.Sublist items) :
    c.Sublist (sortedItems items) :=
  List.sublist_insertionSort (List.Pairwise.imp (fun {a b} hab => (zLe_iff a b).mpr hab) hr) hc

theorem sortedItems_filter (items : List Item) (z : ℚ) :
    (sortedItems items).filter (fun it => it.zIndex = z) =
      items.filter (fun it => it.zIndex = z) := by
  have hpw : (items.filter (fun it => it.zIndex = z)).Pairwise
      (fun a b => a.zIndex ≤ b.zIndex) := by
    rw [List.pairwise_iff_forall_sublist]
    intro a b hab
    have ha := List.mem_filter.mp (hab.subset (List.mem_cons_self a [b]))
    have hb := List.mem_filter.mp (hab.subset (List.mem_cons_of_mem a (List.mem_singleton_self b)))
    simp only [decide_eq_true_eq] at ha hb
    rw [ha.2, hb.2]
  have hsub := sortedItems_sublist hpw (List.filter_sublist items)
  have hsub' := hsub.filter (fun it => decide (it.zIndex = z))
  rw [List.filter_filter] at hsub'
  simp only [Bool.and_self] at hsub'
  have hlen := ((sortedItems_perm items).filter (fun it => decide (it.zIndex = z))).length_eq
  exact (hsub'.eq_of_length hlen.symm).symm

/-- C9: for every store, the render sequence `sortedItems` is a permutation of
the store's items, is sorted ascending by `zIndex`, and is stable: two items with
equal `zIndex` of which one comes before the other in the store come in the same
order in the render sequence, and for each `zIndex` value the items that have it
form the same sequence in the store and in the render sequence.  `sortedItems`
sorts a copy (`[...items]`): it is a function of the store and writes nothing. -/
theorem sortedItems_sorted_stable_perm (items : List Item) :
    (sortedItems items).Perm items ∧
      (sortedItems items).Pairwise (fun a b => a.zIndex ≤ b.zIndex) ∧
      (∀ a b : Item, a.zIndex = b.zIndex → [a, b].Sublist items →
        [a, b].Sublist (sortedItems items)) ∧
      ∀ z : ℚ, (sortedItems items).filter (fun it => it.zIndex = z) =
        items.filter (fun it => it.zIndex = z) :=
  ⟨sortedItems_perm items, sortedItems_sorted items,
    fun _ _ hab h => sortedItems_sublist (List.pairwise_pair.mpr (le_of_eq hab)) h,
    sortedItems_filter items⟩

/-! ## Bringing an item to the front -/

theorem mathMax_eq_none {vs : List ℚ} (h : mathMax vs = none) : vs = [] := by
  cases vs with
  | nil => rfl
  | cons v vs =>
    simp only [mathMax] at h
    split at h <;> cases h

theorem mathMax_ge : ∀ {vs : List ℚ} {m : ℚ}, mathMax vs = some m → ∀ v ∈ vs, v ≤ m
  | [], _, h => by cases h
  | v :: vs, m, h => by
    simp only [mathMax] at h
    intro u hu
    split at h
    · rename_i hn
      cases h
      rw [mathMax_eq_none hn] at hu
      rw [List.mem_singleton.mp hu]
    · rename_i m' hm'
      cases h
      rcases List.mem_cons.mp hu with e | hu
      · rw [e]; exact le_max_left _ _
      · exact le_trans (mathMax_ge hm' u hu) (le_max_right _ _)

theorem mathMax_mem : ∀ {vs : List ℚ} {m : ℚ}, mathMax vs = some m → m ∈ vs
  | [], _, h => by cases h
  | v :: vs, m, h => by
    simp only [mathMax] at h
    split at h
    · cases h; exact List.mem_cons_self _ _
    · rename_i m' hm'
      cases h
      rcases max_choice v m' with e | e
      · rw [e]; exact List.mem_cons_self _ _
      · rw [e]; exact List.mem_cons_of_mem _ (mathMax_mem hm')

/-- On a non-empty store `bringToFront(id)` is `setItem(id, { zIndex: maxZ + 1 })`
for a `maxZ` that is the `zIndex` of an item and below which no item's is. -/
theorem bringToFront_eq (s : State) (id : Nat) (hne : s.items ≠ []) :
    ∃ maxZ : ℚ, (∃ j ∈ s.items, j.zIndex = maxZ) ∧ (∀ j ∈ s.items, j.zIndex ≤ maxZ) ∧
      (bringToFront s id).items = setItem s.items id { zIndex := some (maxZ + 1) } := by
  unfold bringToFront
  split
  · rename_i maxZ hm
    refine ⟨maxZ, ?_, ?_, rfl⟩
    · obtain ⟨j, hj, e⟩ := List.mem_map.mp (mathMax_mem hm)
      exact ⟨j, hj, by rw [← e, orZero_eq]⟩
    · intro j hj
      have := mathMax_ge hm (orZero j.zIndex) (List.mem_map_of_mem _ hj)
      rwa [orZero_eq] at this
  · rename_i hn
    exact absurd (List.map_eq_nil_iff.mp (mathMax_eq_none hn)) hne

theorem pairwise_getLast {items : List Item} {last : Item}
    (hs : items.Pairwise (fun a b => a.zIndex ≤ b.zIndex)) (hl : items.getLast? = some last) :
    ∀ a ∈ items, a.zIndex ≤ last.zIndex := by
  obtain ⟨ys, rfl⟩ := List.getLast?_eq_some_iff.mp hl
  intro a ha
  rcases List.mem_append.mp ha with ha | ha
  · exact (List.pairwise_append.mp hs).2.2 a ha last (List.mem_singleton_self _)
  · rw [List.mem_singleton.mp ha]

/-- C4: for every store and every id of an item in it, after `bringToFront(id)`
the render sequence `sortedItems` is non-empty and its last element is an item
with that id. -/
theorem bringToFront_last (s : State) (id : Nat) (hid : ∃ it ∈ s.items, it.id = id) :
    ∃ last : Item, (sortedItems (bringToFront s id).items).getLast? = some last ∧
      last.id = id := by
  obtain ⟨it, hit, rfl⟩ := hid
  obtain ⟨maxZ, -, hmax, heq⟩ := bringToFront_eq s it.id (List.ne_nil_of_mem hit)
  have hpromoted : merge it { zIndex := some (maxZ + 1) } ∈ (bringToFront s it.id).items := by
    rw [heq]
    refine List.mem_map.mpr ⟨it, hit, ?_⟩
    rw [if_pos rfl]
  have hmemS : merge it { zIndex := some (maxZ + 1) } ∈ sortedItems (bringToFront s it.id).items :=
    (sortedItems_perm _).mem_iff.mpr hpromoted
  cases hl : (sortedItems (bringToFront s it.id).items).getLast? with
  | none =>
    rw [List.getLast?_eq_none_iff] at hl
    rw [hl] at hmemS
    cases hmemS
  | some last =>
    refine ⟨last, rfl, ?_⟩
    have hge := pairwise_getLast (sortedItems_sorted _) hl _ hmemS
    have hlast : last ∈ (bringToFront s it.id).items :=
      (sortedItems_perm _).mem_iff.mp (List.mem_of_getLast?_eq_some hl)
    rw [heq] at hlast
    obtain ⟨j, hj, e⟩ := List.mem_map.mp hlast
    by_cases hji : j.id = it.id
    · rw [if_pos hji] at e
      rw [← e]
      simpa [merge] using hji
    · rw [if_neg hji] at e
      rw [← e] at hge
      have := hmax j hj
      simp only [merge, Option.getD_some] at hge
      linarith

theorem merge_zIndex (it : Item) (z : ℚ) :
    merge it { zIndex := some z } = { it with zIndex := z } := rfl

/-- C5: for every store and every id present in it, `bringToFront(id)` gives the
items with that id the `zIndex` `maxZ + 1`, where `maxZ` is the largest `zIndex`
in the store (the item itself included), and leaves every other item as it is.
With two items of `zIndex` 0 and 1 and different ids, bringing the first to the
front gives it `zIndex` 2 and the render sequence becomes `[second, first]`. -/
theorem bringToFront_max_plus_one (s : State) (id : Nat) (hid : ∃ it ∈ s.items, it.id = id) :
    (∃ maxZ : ℚ, (∃ j ∈ s.items, j.zIndex = maxZ) ∧ (∀ j ∈ s.items, j.zIndex ≤ maxZ) ∧
      (bringToFront s id).items =
        s.items.map (fun it => if it.id = id then { it with zIndex := maxZ + 1 } else it) ∧
      (∃ it ∈ (bringToFront s id).items, it.id = id) ∧
      ∀ it ∈ (bringToFront s id).items, it.id = id → it.zIndex = maxZ + 1) ∧
    ∀ (t : State) (a b : Item), a.zIndex = 0 → b.zIndex = 1 → a.id ≠ b.id →
      (bringToFront { t with items := [a, b] } a.id).items = [{ a with zIndex := 2 }, b] ∧
      sortedItems (bringToFront { t with items := [a, b] } a.id).items =
        [b, { a with zIndex := 2 }] := by
  constructor
  · obtain ⟨it, hit, rfl⟩ := hid
    obtain ⟨maxZ, hmem, hmax, heq⟩ := bringToFront_eq s it.id (List.ne_nil_of_mem hit)
    have heq' : (bringToFront s it.id).items =
        s.items.map (fun j => if j.id = it.id then { j with zIndex := maxZ + 1 } else j) := by
      rw [heq]; rfl
    refine ⟨maxZ, hmem, hmax, heq', ?_, ?_⟩
    · rw [heq']
      exact ⟨_, List.mem_map.mpr ⟨it, hit, rfl⟩, by rw [if_pos rfl]⟩
    · intro j hj hji
      rw [heq'] at hj
      obtain ⟨i, _, rfl⟩ := List.mem_map.mp hj
      by_cases hi : i.id = it.id
      · rw [if_pos hi]
      · rw [if_neg hi] at hji
        exact absurd hji hi
  · intro t a b ha hb hab
    have hba : ¬ b.id = a.id := fun e => hab e.symm
    have h1 : (bringToFront { t with items := [a, b] } a.id).items =
        [{ a with zIndex := 2 }, b] := by
      simp only [bringToFront, List.map, mathMax, ha, hb, orZero_eq, setItem, if_pos, if_neg hba,
        merge_zIndex]
      norm_num
    refine ⟨h1, ?_⟩
    rw [h1]
    simp only [sortedItems, List.insertionSort, List.orderedInsert, zLe_iff, hb]
    norm_num

/-! ## Removing and patching -/

/-- C7: for every store and selection, `removeItem(id)` yields the store with
exactly the items whose id differs from `id`, in their original order and
unmodified (a sublist of the old store that has no item with id `id` and has
every other item as often as before); a selection equal to `id` becomes none and
any other selection is unchanged. -/
theorem removeItem_store_and_selection (s : State) (id : Nat) :
    (removeItem s id).items = s.items.filter (fun i => i.id ≠ id) ∧
      (removeItem s id).items.Sublist s.items ∧
      (∀ it : Item, it ∈ (removeItem s id).items ↔ it ∈ s.items ∧ it.id ≠ id) ∧
      (∀ it : Item, it.id ≠ id → (removeItem s id).items.count it = s.items.count it) ∧
      (s.selected = some id → (removeItem s id).selected = none) ∧
      (s.selected ≠ some id → (removeItem s id).selected = s.selected) := by
  refine ⟨rfl, List.filter_sublist _, ?_, ?_, ?_, ?_⟩
  · intro it
    simp [removeItem, List.mem_filter]
  · intro it hit
    simp only [removeItem]
    rw [List.count_filter]
    simpa using hit
  · intro h
    simp [removeItem, h]
  · intro h
    simp [removeItem, h]

theorem fieldSet_getD {α : Type} (p : Option α) (old : α) : FieldSet p old (p.getD old) := by
  cases p <;> simp [FieldSet]

theorem fieldSetOpt_orElse {α : Type} (p : Option α) (old : Option α) :
    FieldSetOpt p old (p.orElse (fun _ => old)) := by
  cases p <;> simp [FieldSetOpt]

theorem patched_merge (it : Item) (patch : Patch) : Patched it (merge it patch) patch :=
  ⟨fieldSet_getD _ _, fieldSet_getD _ _, fieldSet_getD _ _, fieldSet_getD _ _,
    fieldSet_getD _ _, fieldSet_getD _ _, fieldSet_getD _ _, fieldSetOpt_orElse _ _,
    fieldSetOpt_orElse _ _, fieldSetOpt_orElse _ _, fieldSetOpt_orElse _ _,
    fieldSetOpt_orElse _ _, fieldSetOpt_orElse _ _⟩

/-- C10: for every store, id and partial-field record, `setItem(id, patch)`
returns a store of the same length in which the item at each position is the old
item of that position, unchanged when its id differs from `id`, and with every
field named in `patch` set to the patch's value and every other field unchanged
when its id is `id`. -/
theorem setItem_patches_in_place (items : List Item) (id : Nat) (patch : Patch) :
    (setItem items id patch).length = items.length ∧
      ∀ (i : Nat) (old : Item), items[i]? = some old →
        ∃ new : Item, (setItem items id patch)[i]? = some new ∧
          (old.id = id → Patched old new patch) ∧ (old.id ≠ id → new = old) := by
  refine ⟨by simp [setItem], ?_⟩
  intro i old hold
  refine ⟨if old.id = id then merge old patch else old, ?_, ?_, ?_⟩
  · simp [setItem, List.getElem?_map, hold]
  · intro h
    rw [if_pos h]
    exact patched_merge old patch
  · intro h
    rw [if_neg h]

/-! ## Ids in the store are below the counter -/

theorem freshIds_append {items : List Item} {c : Nat} {it : Item} (h : FreshIds items c)
    (hid : it.id = c) : FreshIds (items ++ [it]) (c + 1) := by
  intro j hj
  rcases List.mem_append.mp hj with hj | hj
  · exact Nat.lt_succ_of_lt (h j hj)
  · rw [List.mem_singleton.mp hj, hid]; exact Nat.lt_succ_self c

theorem freshIds_filter {items : List Item} {c : Nat} (p : Item → Bool) (h : FreshIds items c) :
    FreshIds (items.filter p) c :=
  fun j hj => h j (List.mem_of_mem_filter hj)

theorem freshIds_setItem {items : List Item} {c : Nat} (id : Nat) (patch : Patch)
    (h : FreshIds items c) (hp : patch.id = none) : FreshIds (setItem items id patch) c := by
  intro j hj
  obtain ⟨i, hi, rfl⟩ := List.mem_map.mp hj
  split
  · simpa [merge, hp] using h i hi
  · exact h i hi

theorem freshIds_onResize (s : State) (id : Nat) (corner : String) (dx dy : ℚ) (origin : Origin)
    (h : FreshIds s.items s.idCounter) :
    FreshIds (onResize s id corner dx dy origin).items (onResize s id corner dx dy origin).idCounter := by
  intro j hj
  obtain ⟨i, hi, rfl⟩ := List.mem_map.mp hj
  split
  · exact h i hi
  · exact h i hi

theorem freshIds_bringToFront (s : State) (id : Nat) (h : FreshIds s.items s.idCounter) :
    FreshIds (bringToFront s id).items (bringToFront s id).idCounter := by
  unfold bringToFront
  split
  · exact freshIds_setItem _ _ h rfl
  · exact h

theorem freshIds_onPickImage (s : State) (file : Option String)
    (h : FreshIds s.items s.idCounter) :
    FreshIds (onPickImage s file).items (onPickImage s file).idCounter := by
  unfold onPickImage
  simp only
  split
  · exact freshIds_setItem _ _ h rfl
  · split
    · split
      · exact freshIds_filter _ h
      · exact h
    · exact h
  · exact h

theorem freshIds_step (s : State) (a : Action) (h : FreshIds s.items s.idCounter) :
    FreshIds (step s a).items (step s a).idCounter := by
  cases a with
  | wheel _ => exact h
  | resetView => exact h
  | zoomIn => exact h
  | zoomOut => exact h
  | backgroundDown button cx cy =>
    simp only [step, onBoardClick, beginPan]
    repeat' split
    all_goals exact h
  | boardDown => exact h
  | selectModeButton => exact h
  | addImage => exact freshIds_append h rfl
  | addNote => exact freshIds_append h rfl
  | addDocument => exact freshIds_append h rfl
  | addComment => exact freshIds_append h rfl
  | addLink => exact freshIds_append h rfl
  | addMusic => exact h
  | addVideo => exact h
  | addSwatch => exact freshIds_append h rfl
  | addVoice n src => exact freshIds_append h rfl
  | pickAudio file =>
    cases file with
    | none => exact h
    | some f => exact freshIds_append h rfl
  | pickVideo file =>
    cases file with
    | none => exact h
    | some f => exact freshIds_append h rfl
  | pickImage file => exact freshIds_onPickImage s file h
  | removeItem id => exact freshIds_filter _ h
  | clearBoard => intro j hj; cases hj
  | editText id text => exact freshIds_setItem _ _ h rfl
  | editTitle id title => exact freshIds_setItem _ _ h rfl
  | editUrl id url => exact freshIds_setItem _ _ h rfl
  | setCurrentColor _ => exact h
  | setPaletteOrientation o =>
    simp only [step]
    split <;> exact h
  | setPaletteColor _ _ => exact h
  | addPaletteStop => exact h
  | removePaletteStop idx =>
    simp only [step, removePaletteStop]
    split <;> exact h
  | movePaletteStop idx dir =>
    simp only [step, movePaletteStop]
    repeat' split
    all_goals exact h
  | itemDown cx cy item part isEditing =>
    rw [step_itemDown_eq]
    split
    · exact freshIds_bringToFront _ _ h
    · exact h
  | handleDown cx cy item =>
    simp only [step]
    split <;> exact h
  | mouseMove cx cy =>
    have h1 : FreshIds (onPanMove s cx cy).items (onPanMove s cx cy).idCounter := by
      unfold onPanMove
      split <;> exact h
    have h2 : FreshIds (useDrag.onMouseMove (onPanMove s cx cy) cx cy).items
        (useDrag.onMouseMove (onPanMove s cx cy) cx cy).idCounter := by
      unfold useDrag.onMouseMove
      split
      · exact h1
      · exact freshIds_setItem _ _ h1 rfl
    show FreshIds (useResize.onMove _ cx cy).items (useResize.onMove _ cx cy).idCounter
    unfold useResize.onMove
    split
    · exact h2
    · exact freshIds_onResize _ _ _ _ _ _ h2
  | mouseUp => exact h
  | resize id corner dx dy origin => exact freshIds_onResize s id corner dx dy origin h

/-- In every state the application reaches, the ids of the store are below the
counter. -/
theorem freshIds_run (acts : List Action) (s : State) (h : FreshIds s.items s.idCounter) :
    FreshIds (run s acts).items (run s acts).idCounter := by
  induction acts generalizing s with
  | nil => exact h
  | cons a acts ih => exact ih (step s a) (freshIds_step s a h)

theorem freshIds_reachable (s : State) (h : Reachable s) : FreshIds s.items s.idCounter := by
  obtain ⟨acts, rfl⟩ := h
  exact freshIds_run acts State.init (fun _ hj => by cases hj)

/-! ## A cancelled image pick -/

theorem filter_ne_of_fresh {items : List Item} {c : Nat} (h : FreshIds items c) :
    items.filter (fun i => i.id ≠ c) = items := by
  rw [List.filter_eq_self]
  intro it hit
  simpa using Nat.ne_of_lt (h it hit)

theorem find_none_of_fresh {items : List Item} {c : Nat} (h : FreshIds items c) :
    items.find? (fun (it : Item) => it.id = c) = none := by
  rw [List.find?_eq_none]
  intro it hit
  simpa using Nat.ne_of_lt (h it hit)

/-- The general form of the cancelled pick: when the pending id is `pid` and the
item found for it has a falsy `src`, `onPickImage` without a file removes the
items with id `pid`, resets the pending id, and clears a selection equal to
`pid`. -/
theorem onPickImage_cancel (t : State) (pid : Nat) (item : Item)
    (hp : t.pendingImageRef = some pid)
    (hf : t.items.find? (fun (it : Item) => it.id = pid) = some item)
    (hsrc : truthy item.src = false) :
    (onPickImage t none).items = t.items.filter (fun i => i.id ≠ pid) ∧
      (onPickImage t none).pendingImageRef = none ∧
      (onPickImage t none).selected = if t.selected = some pid then none else t.selected := by
  simp [onPickImage, hp, hf, hsrc, removeItem]

/-- C8: in a store whose ids are below the id counter (every reachable store is
one), `addImage` appends a provisional image item with empty `src` and makes it
the pending image; when `onPickImage` then runs with no file chosen, that item is
no longer in the store, all other items are unchanged (the store is the one
before `addImage`), the selection is none and the pending-image reference is
reset.  More generally, in any state whose pending image is found in the store
with an empty `src`, `onPickImage` without a file removes it, resets the pending
reference and clears the selection when that item was the selected one. -/
theorem cancelled_pick_removes_provisional_image (s : State)
    (hfresh : FreshIds s.items s.idCounter) :
    (step s .addImage).items = s.items ++ [newImage s.idCounter s.items.length] ∧
      (newImage s.idCounter s.items.length).src = some "" ∧
      (step s .addImage).pendingImageRef = some s.idCounter ∧
      (run s [.addImage, .pickImage none]).items = s.items ∧
      (∀ it ∈ (run s [.addImage, .pickImage none]).items, it.id ≠ s.idCounter) ∧
      (run s [.addImage, .pickImage none]).selected = none ∧
      (run s [.addImage, .pickImage none]).pendingImageRef = none ∧
      ∀ (t : State) (pid : Nat) (item : Item), t.pendingImageRef = some pid →
        t.items.find? (fun (it : Item) => it.id = pid) = some item → truthy item.src = false →
        (onPickImage t none).items = t.items.filter (fun i => i.id ≠ pid) ∧
          (∀ it ∈ (onPickImage t none).items, it.id ≠ pid) ∧
          (onPickImage t none).pendingImageRef = none ∧
          (onPickImage t none).selected = if t.selected = some pid then none else t.selected := by
  have hfind : (step s .addImage).items.find? (fun (it : Item) => it.id = s.idCounter) =
      some (newImage s.idCounter s.items.length) := by
    simp [step, addImage, List.find?_append, find_none_of_fresh hfresh, newImage]
  obtain ⟨h1, h2, h3⟩ := onPickImage_cancel (step s .addImage) s.idCounter _ rfl hfind rfl
  have hitems : (run s [.addImage, .pickImage none]).items = s.items := by
    show (onPickImage (step s .addImage) none).items = s.items
    rw [h1]
    have hne := filter_ne_of_fresh hfresh
    simp only [ne_eq, decide_not] at hne
    simp [step, addImage, List.filter_append, hne, newImage]
  refine ⟨rfl, rfl, rfl, hitems, ?_, ?_, h2, ?_⟩
  · rw [hitems]
    exact fun it hit => Nat.ne_of_lt (hfresh it hit)
  · show (onPickImage (step s .addImage) none).selected = none
    rw [h3]
    simp [step, addImage, newImage]
  · intro t pid item hp hf hsrc
    obtain ⟨g1, g2, g3⟩ := onPickImage_cancel t pid item hp hf hsrc
    refine ⟨g1, ?_, g2, g3⟩
    rw [g1]
    intro it hit
    simpa using (List.mem_filter.mp hit).2

/-! ## New items and the front -/

/-- C6 at a concrete event sequence: two notes are added, the first and then the
second are pressed (each is brought to the front), and a third note is added.
The third note is the selected, most recently created item, and its `zIndex` is
the item count 2, below the `zIndex` 3 of the second note: `addNote` does not
promote the new item to the front. -/
theorem new_item_below_front :
    (run State.init [.addNote, .addNote, .itemDown 0 0 (newNote 1 0) .body false, .mouseUp,
        .itemDown 0 0 (newNote 2 1) .body false, .mouseUp, .addNote]).selected = some 3 ∧
      (run State.init [.addNote, .addNote, .itemDown 0 0 (newNote 1 0) .body false, .mouseUp,
        .itemDown 0 0 (newNote 2 1) .body false, .mouseUp, .addNote]).items.map
          (fun it => (it.id, it.zIndex)) = [(1, 2), (2, 3), (3, 2)] := by
  constructor
  · simp [run, step, boardItemMouseDown, addNote, newNote, itemMouseDown, bringToFront, mathMax,
      setItem, merge,
      useDrag.onMouseDown, useDrag.onMouseUp, useResize.onUp, endPan, orZero, State.init]
  · simp [run, step, boardItemMouseDown, addNote, newNote, itemMouseDown, bringToFront, mathMax,
      setItem, merge,
      useDrag.onMouseDown, useDrag.onMouseUp, useResize.onUp, endPan, orZero, State.init]
    norm_num

/-! ## Patches and the id -/

/-- C11 fails as stated: a record that names an `id` (or a `type`) overwrites
it.  On the store that holds one note with id 1, `setItem(1, { id: 2 })` leaves a
note with id 2, and `setItem(1, { type: "image" })` leaves an item of type
`image`. -/
theorem setItem_overwrites_id_and_type :
    (setItem [newNote 1 0] 1 { id := some 2 }).map (fun it => it.id) = [2] ∧
      (setItem [newNote 1 0] 1 { type := some "image" }).map (fun it => it.type) = ["image"] := by
  constructor <;> simp [setItem, merge, newNote]

/-- C11 as amended: for every store, every id and every record that names
neither `id` nor `type`, `setItem(id, patch)` leaves the id and the type of the
item at every position unchanged. -/
theorem setItem_keeps_id_and_type (items : List Item) (id : Nat) (patch : Patch)
    (hid : patch.id = none) (htype : patch.type = none) :
    (setItem items id patch).map (fun it => (it.id, it.type)) =
      items.map (fun it => (it.id, it.type)) := by
  simp only [setItem, List.map_map]
  apply List.map_congr_left
  intro it _
  simp only [Function.comp]
  split
  · simp [merge, hid, htype]
  · rfl

/-! ## Dangling ids -/

theorem setItem_absent (items : List Item) (id : Nat) (patch : Patch)
    (h : ∀ it ∈ items, it.id ≠ id) : setItem items id patch = items := by
  unfold setItem
  conv_rhs => rw [← List.map_id items]
  apply List.map_congr_left
  intro it hit
  rw [if_neg (h it hit)]
  rfl

/-- C12: for every store (the empty one included) and every id that no item of
the store has, `setItem(id, patch)`, `removeItem(id)`, `bringToFront(id)` and
`onResize(id, ...)` each leave the store as it is; `bringToFront` and `onResize`
leave the whole state as it is, and `removeItem` changes nothing but a selection
equal to that id.  The handlers are total functions: none of them fails. -/
theorem absent_id_is_noop (s : State) (id : Nat) (patch : Patch) (corner : String) (dx dy : ℚ)
    (origin : Origin) (h : ∀ it ∈ s.items, it.id ≠ id) :
    setItem s.items id patch = s.items ∧
      (removeItem s id).items = s.items ∧
      (s.selected ≠ some id → removeItem s id = s) ∧
      bringToFront s id = s ∧
      onResize s id corner dx dy origin = s ∧
      ∀ t : State, t.items = [] →
        setItem t.items id patch = [] ∧ (removeItem t id).items = [] ∧
          bringToFront t id = t ∧ onResize t id corner dx dy origin = t := by
  have hfilter : s.items.filter (fun i => decide (i.id ≠ id)) = s.items := by
    rw [List.filter_eq_self]
    intro it hit
    simpa using h it hit
  have hres : s.items.map (fun it =>
      if it.id ≠ id then it
      else
        let min := (60 : ℚ)
        { it with w := max min (origin.w + dx), h := max min (origin.h + dy), x := it.x, y := it.y })
        = s.items := by
    conv_rhs => rw [← List.map_id s.items]
    apply List.map_congr_left
    intro it hit
    rw [if_pos (h it hit)]
    rfl
  refine ⟨setItem_absent _ _ _ h, hfilter, ?_, ?_, ?_, ?_⟩
  · intro hsel
    simp only [removeItem, hfilter, if_neg hsel]
  · unfold bringToFront
    split
    · rw [setItem_absent _ _ _ h]
    · rfl
  · simp only [onResize, hres]
  · intro t ht
    refine ⟨by simp [setItem, ht], by simp [removeItem, ht], ?_, ?_⟩
    · simp [bringToFront, ht, mathMax]
    · have : onResize t id corner dx dy origin = { t with items := [] } := by
        simp [onResize, ht]
      rw [this, ← ht]

/-! ## Adding items -/

/-- The add-actions whose handler runs in the render that shows the current
store append one item: the old items stay in front unchanged, the new item has
the counter value as id, is at `(100, 100)`, has the item count as `zIndex` and
is selected. -/
theorem add_appends (s : State) (a : Action)
    (ha : a = .addImage ∨ a = .addNote ∨ a = .addDocument ∨ a = .addComment ∨ a = .addLink ∨
      a = .addSwatch ∨ (∃ f, a = .pickAudio (some f)) ∨ ∃ f, a = .pickVideo (some f)) :
    ∃ it : Item, (step s a).items = s.items ++ [it] ∧ it.id = s.idCounter ∧ it.x = 100 ∧
      it.y = 100 ∧ it.zIndex = s.items.length ∧ (step s a).selected = some it.id := by
  rcases ha with h | h | h | h | h | h | ⟨f, h⟩ | ⟨f, h⟩ <;> subst h
  · exact ⟨newImage s.idCounter s.items.length, rfl, rfl, rfl, rfl, rfl, rfl⟩
  · exact ⟨newNote s.idCounter s.items.length, rfl, rfl, rfl, rfl, rfl, rfl⟩
  · exact ⟨newDocument s.idCounter s.items.length, rfl, rfl, rfl, rfl, rfl, rfl⟩
  · exact ⟨newComment s.idCounter s.items.length, rfl, rfl, rfl, rfl, rfl, rfl⟩
  · exact ⟨newLink s.idCounter s.items.length, rfl, rfl, rfl, rfl, rfl, rfl⟩
  · exact ⟨newSwatch s.idCounter s.items.length s.paletteStops s.paletteOrientation,
      rfl, rfl, rfl, rfl, rfl, rfl⟩
  · exact ⟨newAudio s.idCounter s.items.length f.1 f.2, rfl, rfl, rfl, rfl, rfl, rfl⟩
  · exact ⟨newVideo s.idCounter s.items.length f.1 f.2, rfl, rfl, rfl, rfl, rfl, rfl⟩

/-- C13 at a concrete event sequence: a recording is started on the empty board
(`addVoice` of that render reads `items.length = 0`), a note is added while the
recording runs, and the recording is stopped.  The voice item is appended to a
store of one item, so the claim gives it `zIndex` 1; it has `zIndex` 0, the item
count at the start of the recording.  For a note added to the empty board the
claim holds: size `(240, 140)`, `zIndex` 0, selected. -/
theorem voice_item_stale_count :
    (run State.init [.addNote, .addVoice 0 "blob:voice"]).items.map
        (fun it => (it.id, it.type, it.zIndex)) = [(1, "note", 0), (2, "audio", 0)] ∧
      (run State.init [.addNote]).items.map
        (fun it => (it.id, it.x, it.y, it.w, it.h, it.zIndex)) = [(1, 100, 100, 240, 140, 0)] ∧
      (run State.init [.addNote]).selected = some 1 := by
  refine ⟨?_, ?_, ?_⟩ <;>
    simp [run, step, addNote, newNote, addVoice, newAudio, State.init]

/-! ## Ids are never reused -/

theorem onResize_ids (s : State) (id : Nat) (corner : String) (dx dy : ℚ) (origin : Origin) :
    (onResize s id corner dx dy origin).items.map (fun it => it.id) =
      s.items.map (fun it => it.id) := by
  simp only [onResize, List.map_map]
  apply List.map_congr_left
  intro it _
  simp only [Function.comp]
  split <;> rfl

theorem removeItem_ids_sublist (s : State) (id : Nat) :
    ((removeItem s id).items.map (fun it => it.id)).Sublist (s.items.map (fun it => it.id)) :=
  (List.filter_sublist _).map _

theorem onPickImage_ids_sublist (s : State) (file : Option String) :
    ((onPickImage s file).items.map (fun it => it.id)).Sublist
      (s.items.map (fun it => it.id)) := by
  unfold onPickImage
  simp only
  split
  · rw [setItem_ids _ _ _ rfl]
  · split
    · split
      · exact removeItem_ids_sublist s _
      · exact List.Sublist.refl _
    · exact List.Sublist.refl _
  · exact List.Sublist.refl _

theorem mouseMove_ids (s : State) (cx cy : ℚ) :
    (step s (.mouseMove cx cy)).items.map (fun it => it.id) = s.items.map (fun it => it.id) := by
  simp only [step]
  rw [resizeMove_ids]
  have hp := (onPanMove_frame s cx cy).1
  unfold useDrag.onMouseMove
  split
  · rw [hp]
  · simp only
    rw [setItem_ids _ _ _ rfl, hp]

/-- What one event does to the ids: either `newId` is called once, the counter
value is appended as the id of a new item and the counter goes up by one, or
`newId` is not called, the counter stays and the ids of the store are a
subsequence of the ids before. -/
theorem step_ids (s : State) (a : Action) :
    ((step s a).items.map (fun it => it.id) = s.items.map (fun it => it.id) ++ [s.idCounter] ∧
        (step s a).idCounter = s.idCounter + 1 ∧ issuedId s a = some s.idCounter) ∨
      (((step s a).items.map (fun it => it.id)).Sublist (s.items.map (fun it => it.id)) ∧
        (step s a).idCounter = s.idCounter ∧ issuedId s a = none) := by
  cases a with
  | wheel _ => exact Or.inr ⟨List.Sublist.refl _, rfl, rfl⟩
  | resetView => exact Or.inr ⟨List.Sublist.refl _, rfl, rfl⟩
  | zoomIn => exact Or.inr ⟨List.Sublist.refl _, rfl, rfl⟩
  | zoomOut => exact Or.inr ⟨List.Sublist.refl _, rfl, rfl⟩
  | backgroundDown button cx cy =>
    refine Or.inr ⟨?_, ?_, rfl⟩ <;>
      · simp only [step, onBoardClick, beginPan]
        repeat' split
        all_goals first | exact List.Sublist.refl _ | rfl
  | boardDown => exact Or.inr ⟨List.Sublist.refl _, rfl, rfl⟩
  | selectModeButton => exact Or.inr ⟨List.Sublist.refl _, rfl, rfl⟩
  | addImage => exact Or.inl ⟨by simp [step, addImage, newImage], rfl, rfl⟩
  | addNote => exact Or.inl ⟨by simp [step, addNote, newNote], rfl, rfl⟩
  | addDocument => exact Or.inl ⟨by simp [step, addDocument, newDocument], rfl, rfl⟩
  | addComment => exact Or.inl ⟨by simp [step, addComment, newComment], rfl, rfl⟩
  | addLink => exact Or.inl ⟨by simp [step, addLink, newLink], rfl, rfl⟩
  | addMusic => exact Or.inr ⟨List.Sublist.refl _, rfl, rfl⟩
  | addVideo => exact Or.inr ⟨List.Sublist.refl _, rfl, rfl⟩
  | addSwatch => exact Or.inl ⟨by simp [step, addSwatch, newSwatch], rfl, rfl⟩
  | addVoice n src => exact Or.inl ⟨by simp [step, addVoice, newAudio], rfl, rfl⟩
  | pickAudio file =>
    cases file with
    | none => exact Or.inr ⟨List.Sublist.refl _, rfl, rfl⟩
    | some f => exact Or.inl ⟨by simp [step, onPickAudio, newAudio], rfl, rfl⟩
  | pickVideo file =>
    cases file with
    | none => exact Or.inr ⟨List.Sublist.refl _, rfl, rfl⟩
    | some f => exact Or.inl ⟨by simp [step, onPickVideo, newVideo], rfl, rfl⟩
  | pickImage file =>
    refine Or.inr ⟨onPickImage_ids_sublist s file, ?_, rfl⟩
    simp only [step, onPickImage, removeItem]
    repeat' split
    all_goals rfl
  | removeItem id => exact Or.inr ⟨removeItem_ids_sublist s id, rfl, rfl⟩
  | clearBoard => exact Or.inr ⟨List.nil_sublist _, rfl, rfl⟩
  | editText id text =>
    exact Or.inr ⟨by simp only [step]; rw [setItem_ids _ _ _ rfl], rfl, rfl⟩
  | editTitle id title =>
    exact Or.inr ⟨by simp only [step]; rw [setItem_ids _ _ _ rfl], rfl, rfl⟩
  | editUrl id url =>
    exact Or.inr ⟨by simp only [step]; rw [setItem_ids _ _ _ rfl], rfl, rfl⟩
  | setCurrentColor _ => exact Or.inr ⟨List.Sublist.refl _, rfl, rfl⟩
  | setPaletteOrientation o =>
    refine Or.inr ⟨?_, ?_, rfl⟩ <;>
      · simp only [step]
        split <;> first | exact List.Sublist.refl _ | rfl
  | setPaletteColor _ _ => exact Or.inr ⟨List.Sublist.refl _, rfl, rfl⟩
  | addPaletteStop => exact Or.inr ⟨List.Sublist.refl _, rfl, rfl⟩
  | removePaletteStop idx =>
    refine Or.inr ⟨?_, ?_, rfl⟩ <;>
      · simp only [step, removePaletteStop]
        split <;> first | exact List.Sublist.refl _ | rfl
  | movePaletteStop idx dir =>
    refine Or.inr ⟨?_, ?_, rfl⟩ <;>
      · simp only [step, movePaletteStop]
        repeat' split
        all_goals first | exact List.Sublist.refl _ | rfl
  | itemDown cx cy item part isEditing =>
    refine Or.inr ⟨?_, ?_, rfl⟩
    · rw [step_itemDown_eq]
      split
      · simp only [itemMouseDown, useDrag.onMouseDown]
        rw [bringToFront_ids]
      · exact List.Sublist.refl _
    · simp only [step_itemDown_eq, itemMouseDown, useDrag.onMouseDown, bringToFront]
      repeat' split
      all_goals rfl
  | handleDown cx cy item =>
    refine Or.inr ⟨?_, ?_, rfl⟩ <;>
      · simp only [step, handleMouseDown, useResize.onHandleDown]
        split <;> first | exact List.Sublist.refl _ | rfl
  | mouseMove cx cy =>
    refine Or.inr ⟨by rw [mouseMove_ids], ?_, rfl⟩
    simp only [step, useResize.onMove, useDrag.onMouseMove, onPanMove, onResize]
    repeat' split
    all_goals rfl
  | mouseUp => exact Or.inr ⟨List.Sublist.refl _, rfl, rfl⟩
  | resize id corner dx dy origin =>
    exact Or.inr ⟨by rw [show step s (.resize id corner dx dy origin) =
      onResize s id corner dx dy origin from rfl, onResize_ids], rfl, rfl⟩

theorem idsOk_step (s : State) (a : Action) (issued : List Nat) (h : IdsOk s issued) :
    IdsOk (step s a) (issued ++ (issuedId s a).toList) := by
  obtain ⟨hnd, hmem, hlt, hpw⟩ := h
  rcases step_ids s a with ⟨hids, hc, hi⟩ | ⟨hsub, hc, hi⟩
  · rw [hi]
    refine ⟨?_, ?_, ?_, ?_⟩
    · rw [hids]
      refine List.Nodup.append hnd (List.nodup_singleton _) ?_
      intro i hi1 hi2
      rw [List.mem_singleton.mp hi2] at hi1
      exact absurd (hlt _ (hmem _ hi1)) (lt_irrefl _)
    · intro i hi'
      rw [hids] at hi'
      rcases List.mem_append.mp hi' with h1 | h1
      · exact List.mem_append_left _ (hmem i h1)
      · exact List.mem_append_right _ (by simpa using h1)
    · intro n hn
      rw [hc]
      rcases List.mem_append.mp hn with h1 | h1
      · exact Nat.lt_succ_of_lt (hlt n h1)
      · have : n = s.idCounter := by simpa using h1
        rw [this]
        exact Nat.lt_succ_self _
    · rw [List.pairwise_append]
      refine ⟨hpw, by simp, ?_⟩
      intro x hx y hy
      have : y = s.idCounter := by simpa using hy
      rw [this]
      exact hlt x hx
  · rw [hi]
    simp only [Option.toList, List.append_nil]
    exact ⟨hnd.sublist hsub, fun i hi' => hmem i (hsub.subset hi'), by rw [hc]; exact hlt, hpw⟩

theorem idsOk_run (acts : List Action) (s : State) (issued : List Nat) (h : IdsOk s issued) :
    IdsOk (run s acts) (issued ++ issuedIds s acts) := by
  induction acts generalizing s issued with
  | nil => simpa [run, issuedIds] using h
  | cons a acts ih =>
    have := ih (step s a) _ (idsOk_step s a issued h)
    simpa [run, issuedIds, List.append_assoc] using this

/-- C14: in every state reached from the initial state by any sequence of
events (add-actions, the patches the application issues, removals and board
clears among them), the ids of the items in the store are pairwise distinct; the
ids issued by `newId` along the way are strictly increasing, so each differs
from every id issued earlier, whether or not the item that got it is still in
the store; every id in the store was issued, and every issued id is below the
counter, so the next one is new. -/
theorem ids_distinct_never_reused (acts : List Action) :
    ((run State.init acts).items.map (fun it => it.id)).Nodup ∧
      (issuedIds State.init acts).Pairwise (fun a b => a < b) ∧
      (issuedIds State.init acts).Nodup ∧
      (∀ it ∈ (run State.init acts).items, it.id ∈ issuedIds State.init acts) ∧
      ∀ n ∈ issuedIds State.init acts, n < (run State.init acts).idCounter := by
  have h0 : IdsOk State.init [] := by
    refine ⟨List.nodup_nil, ?_, ?_, List.Pairwise.nil⟩
    · intro i hi
      simp [State.init] at hi
    · intro n hn
      simp at hn
  obtain ⟨h1, h2, h3, h4⟩ := idsOk_run acts State.init [] h0
  simp only [List.nil_append] at h2 h3 h4
  refine ⟨h1, h4, ?_, fun it hit => h2 _ (List.mem_map_of_mem _ hit), h3⟩
  exact List.Pairwise.imp (fun {a b} hab => Nat.ne_of_lt hab) h4

/-! ## Panning -/

theorem dragMove_pan (s : State) (cx cy : ℚ) :
    (useDrag.onMouseMove s cx cy).pan = s.pan ∧
      (useDrag.onMouseMove s cx cy).panning = s.panning := by
  unfold useDrag.onMouseMove
  split <;> simp

theorem resizeMove_pan (s : State) (cx cy : ℚ) :
    (useResize.onMove s cx cy).pan = s.pan ∧
      (useResize.onMove s cx cy).panning = s.panning := by
  unfold useResize.onMove
  split <;> simp [onResize]

theorem step_mouseMove_pan (s : State) (cx cy : ℚ) :
    (step s (.mouseMove cx cy)).pan = (onPanMove s cx cy).pan ∧
      (step s (.mouseMove cx cy)).panning = s.panning := by
  simp only [step]
  rw [(resizeMove_pan _ cx cy).1, (resizeMove_pan _ cx cy).2, (dragMove_pan _ cx cy).1,
    (dragMove_pan _ cx cy).2]
  refine ⟨rfl, ?_⟩
  unfold onPanMove
  split <;> simp [*]

theorem onPanMove_panning (s : State) (d : PanRef) (px py : ℚ) (h : s.panning = some d) :
    (onPanMove s px py).pan = { x := d.ox + (px - d.sx), y := d.oy + (py - d.sy) } := by
  simp [onPanMove, h]

theorem onPanMove_idle (s : State) (px py : ℚ) (h : s.panning = none) :
    onPanMove s px py = s := by
  simp [onPanMove, h]

theorem run_moveEvents_panning (moves : List (ℚ × ℚ)) (s : State) :
    (run s (moveEvents moves)).panning = s.panning := by
  induction moves generalizing s with
  | nil => rfl
  | cons p moves ih =>
    have h := ih (step s (.mouseMove p.1 p.2))
    rw [(step_mouseMove_pan s p.1 p.2).2] at h
    exact h

theorem run_moveEvents_idle_pan (moves : List (ℚ × ℚ)) (s : State) (h : s.panning = none) :
    (run s (moveEvents moves)).pan = s.pan := by
  induction moves generalizing s with
  | nil => rfl
  | cons p moves ih =>
    have h1 := step_mouseMove_pan s p.1 p.2
    have h2 := ih (step s (.mouseMove p.1 p.2)) (h1.2.trans h)
    rw [h1.1, onPanMove_idle s _ _ h] at h2
    exact h2

/-- C15: while a pan with origin `(ox, oy)` and pointer-down point `(sx, sy)` is
active, `onPanMove` at pointer position `(px, py)` sets the pan to
`(ox + (px - sx), oy + (py - sy))`, whatever the zoom is; `beginPan` captures the
pan of that moment as origin, and after a pointer-down on the background and any
sequence of pointer-moves that ends at `(px, py)` the pan is the pan at
pointer-down plus `(px - sx, py - sy)`, whatever the earlier moves were. -/
theorem pan_recomputed_from_origin (s : State) (sx sy px py : ℚ) (moves : List (ℚ × ℚ))
    (hmode : s.selectMode = true) :
    (∀ d : PanRef, s.panning = some d →
        (onPanMove s px py).pan = { x := d.ox + (px - d.sx), y := d.oy + (py - d.sy) }) ∧
      (∀ z : ℚ, (onPanMove { s with zoom := z } px py).pan = (onPanMove s px py).pan) ∧
      (beginPan s 0 false sx sy).panning =
        some { sx := sx, sy := sy, ox := s.pan.x, oy := s.pan.y } ∧
      (run s (.backgroundDown 0 sx sy :: moveEvents (moves ++ [(px, py)]))).pan =
        { x := s.pan.x + (px - sx), y := s.pan.y + (py - sy) } := by
  have hbegin : (beginPan s 0 false sx sy).panning =
      some { sx := sx, sy := sy, ox := s.pan.x, oy := s.pan.y } := by
    simp [beginPan, hmode]
  refine ⟨fun d hd => onPanMove_panning s d px py hd, ?_, hbegin, ?_⟩
  · intro z
    unfold onPanMove
    cases s.panning <;> rfl
  · have hdown : (step s (.backgroundDown 0 sx sy)).panning =
        some { sx := sx, sy := sy, ox := s.pan.x, oy := s.pan.y } := by
      simp only [step, onBoardClick]
      exact hbegin
    have hrun : run s (.backgroundDown 0 sx sy :: moveEvents (moves ++ [(px, py)])) =
        step (run (step s (.backgroundDown 0 sx sy)) (moveEvents moves)) (.mouseMove px py) := by
      simp [run, moveEvents, List.foldl_append]
    rw [hrun, (step_mouseMove_pan _ px py).1]
    have hp := run_moveEvents_panning moves (step s (.backgroundDown 0 sx sy))
    rw [hdown] at hp
    rw [onPanMove_panning _ _ px py hp]

/-- C16: `beginPan` makes the pan active, with the pointer position and the
current pan as origin, when the tool mode is select mode, the button is button 0
and the target is not inside a board item, and in every other case it leaves the
state as it is; so from an idle pan state the pan is active afterwards if and
only if the three conditions hold, and otherwise it stays idle and later
pointer-moves do not change the pan offset. -/
theorem beginPan_iff (s : State) (button : ℤ) (onItem : Bool) (cx cy : ℚ) :
    (s.selectMode = true ∧ button = 0 ∧ onItem = false →
        (beginPan s button onItem cx cy).panning =
          some { sx := cx, sy := cy, ox := s.pan.x, oy := s.pan.y }) ∧
      (¬ (s.selectMode = true ∧ button = 0 ∧ onItem = false) →
        beginPan s button onItem cx cy = s) ∧
      (s.panning = none →
        ((beginPan s button onItem cx cy).panning ≠ none ↔
          s.selectMode = true ∧ button = 0 ∧ onItem = false)) ∧
      (s.panning = none → ¬ (s.selectMode = true ∧ button = 0 ∧ onItem = false) →
        ∀ moves : List (ℚ × ℚ),
          (run (beginPan s button onItem cx cy) (moveEvents moves)).panning = none ∧
            (run (beginPan s button onItem cx cy) (moveEvents moves)).pan = s.pan) := by
  have hyes : s.selectMode = true ∧ button = 0 ∧ onItem = false →
      (beginPan s button onItem cx cy).panning =
        some { sx := cx, sy := cy, ox := s.pan.x, oy := s.pan.y } := by
    rintro ⟨h1, h2, h3⟩
    simp [beginPan, h1, h2, h3]
  have hno : ¬ (s.selectMode = true ∧ button = 0 ∧ onItem = false) →
      beginPan s button onItem cx cy = s := by
    intro h
    unfold beginPan
    by_cases h1 : s.selectMode = true
    · by_cases h2 : button = 0
      · have h3 : onItem = true := by
          cases onItem
          · exact absurd ⟨h1, h2, rfl⟩ h
          · rfl
        simp [h1, h3]
      · simp [h1, h2]
    · simp [h1]
  refine ⟨hyes, hno, ?_, ?_⟩
  · intro hidle
    constructor
    · intro hact
      by_contra hc
      rw [hno hc] at hact
      exact hact hidle
    · intro hc
      rw [hyes hc]
      exact Option.some_ne_none _
  · intro hidle hc moves
    rw [hno hc]
    exact ⟨(run_moveEvents_panning moves s).trans hidle, run_moveEvents_idle_pan moves s hidle⟩

/-! ## Pointer-down on an item -/

/-- C17: a pointer-down at `(cx, cy)` on an item of the store that reaches the
item's handler (its target does not stop propagation, and the item is not a note
or comment being edited) sets the selection to that item's id, whatever it was
before, starts a drag whose origin is the pointer position and the item's
current `(x, y)`, and leaves the item in the store with a `zIndex` strictly
above that of every item with another id. -/
theorem item_pointer_down (s : State) (item : Item) (part : ItemPart) (isEditing : Bool)
    (cx cy : ℚ) (hmem : item ∈ s.items) (hruns : handlerRuns item part isEditing = true) :
    (step s (.itemDown cx cy item part isEditing)).selected = some item.id ∧
      (step s (.itemDown cx cy item part isEditing)).dragging =
        some { id := item.id, sx := cx, sy := cy, ox := item.x, oy := item.y } ∧
      (∃ it ∈ (step s (.itemDown cx cy item part isEditing)).items, it.id = item.id) ∧
      ∀ it ∈ (step s (.itemDown cx cy item part isEditing)).items, it.id = item.id →
        ∀ j ∈ (step s (.itemDown cx cy item part isEditing)).items, j.id ≠ item.id →
          j.zIndex < it.zIndex := by
  have hne : ({ s with selected := some item.id } : State).items ≠ [] :=
    List.ne_nil_of_mem hmem
  obtain ⟨maxZ, -, hmax, heq⟩ := bringToFront_eq { s with selected := some item.id } item.id hne
  have hitems : (step s (.itemDown cx cy item part isEditing)).items =
      setItem s.items item.id { zIndex := some (maxZ + 1) } := by
    rw [step_itemDown_eq, if_pos ⟨hmem, hruns⟩]
    simp only [itemMouseDown, useDrag.onMouseDown]
    exact heq
  have hsel : (step s (.itemDown cx cy item part isEditing)).selected = some item.id := by
    rw [step_itemDown_eq, if_pos ⟨hmem, hruns⟩]
    simp only [itemMouseDown, useDrag.onMouseDown, bringToFront]
    split <;> rfl
  refine ⟨hsel, (step_itemDown s item part isEditing cx cy hmem hruns).1, ?_, ?_⟩
  · rw [hitems]
    exact ⟨_, List.mem_map.mpr ⟨item, hmem, rfl⟩, by rw [if_pos rfl]; rfl⟩
  · intro it hit hid j hj hjid
    rw [hitems] at hit hj
    obtain ⟨i, hi, rfl⟩ := List.mem_map.mp hit
    obtain ⟨k, hk, rfl⟩ := List.mem_map.mp hj
    by_cases hii : i.id = item.id
    · by_cases hkk : k.id = item.id
      · rw [if_pos hkk] at hjid
        exact absurd hkk hjid
      · rw [if_pos hii, if_neg hkk]
        have := hmax k hk
        simp only [merge, Option.getD_some]
        linarith
    · rw [if_neg hii] at hid
      exact absurd hid hii

/-! ## One interaction at a time -/

/-- Events other than pointer-down and pointer-up leave the three refs as they
are. -/
theorem step_refs (s : State) (a : Action) (hd : isPointerDown a = false)
    (hu : isPointerUp a = false) :
    (step s a).dragging = s.dragging ∧ (step s a).start = s.start ∧
      (step s a).panning = s.panning := by
  cases a <;> first | (simp [isPointerDown] at hd; done) | (simp [isPointerUp] at hu; done) | skip
  all_goals
    simp only [step, onWheel, resetView, zoomIn, zoomOut, addImage,
      addNote, addDocument, addComment, addLink, addMusic, addVideo, addSwatch, addVoice,
      onPickAudio, onPickVideo, onPickImage, removeItem, setPaletteColor, addPaletteStop,
      removePaletteStop, movePaletteStop, useDrag.onMouseMove, useResize.onMove, onPanMove,
      onResize]
    repeat' split
    all_goals simp [*]

/-- A pointer-down from the idle state activates at most one machine. -/
theorem step_down_from_idle (s : State) (a : Action) (hd : isPointerDown a = true)
    (hidle : activeCount s = 0) : activeCount (step s a) ≤ 1 := by
  have h0 : s.dragging = none ∧ s.start = none ∧ s.panning = none := by
    unfold activeCount at hidle
    refine ⟨?_, ?_, ?_⟩
    · cases h : s.dragging <;> simp_all
    · cases h : s.start <;> simp_all
    · cases h : s.panning <;> simp_all
  obtain ⟨h1, h2, h3⟩ := h0
  cases a <;> first | (simp [isPointerDown] at hd; done) | skip
  all_goals
    simp only [step, boardItemMouseDown_eq, onBoardClick, beginPan, itemMouseDown,
      handleMouseDown, bringToFront, useDrag.onMouseDown, useResize.onHandleDown]
    repeat' split
    all_goals simp [activeCount, h1, h2, h3]

theorem step_up_idle (s : State) : activeCount (step s .mouseUp) = 0 := by
  simp [step, useResize.onUp, useDrag.onMouseUp, endPan, activeCount]

theorem one_active_run (acts : List Action) (s : State) (held : Bool)
    (hidle : held = false → activeCount s = 0) (hone : activeCount s ≤ 1)
    (hseq : oneButtonAtATime held acts = true) : activeCount (run s acts) ≤ 1 := by
  induction acts generalizing s held with
  | nil => exact hone
  | cons a acts ih =>
    unfold oneButtonAtATime at hseq
    by_cases hd : isPointerDown a = true
    · rw [if_pos hd] at hseq
      simp only [Bool.and_eq_true, Bool.not_eq_true'] at hseq
      exact ih (step s a) true (fun h => by cases h)
        (step_down_from_idle s a hd (hidle hseq.1)) hseq.2
    · rw [if_neg hd] at hseq
      by_cases hu : isPointerUp a = true
      · rw [if_pos hu] at hseq
        have ha : a = .mouseUp := by
          cases a <;> first | rfl | simp [isPointerUp] at hu
        subst ha
        have h0 := step_up_idle s
        exact ih (step s .mouseUp) false (fun _ => h0) (by rw [h0]; exact Nat.zero_le _) hseq
      · rw [if_neg hu] at hseq
        obtain ⟨r1, r2, r3⟩ := step_refs s a (by simpa using hd) (by simpa using hu)
        have hcount : activeCount (step s a) = activeCount s := by
          simp only [activeCount, r1, r2, r3]
        exact ih (step s a) held (fun h => by rw [hcount]; exact hidle h)
          (by rw [hcount]; exact hone) hseq

/-- C18 fails as stated: on a board with one note, a pointer-down on the resize
handle, a pointer-move that would shrink the note below the size floor (the
pointer leaves the handle, which stops at 60 by 60) and a pointer-down on the
body of the note, with no pointer-up in between, leave both the resize and the
drag active. -/
theorem resize_and_drag_both_active :
    (run (addNote State.init) [.handleDown 340 240 (newNote 1 0), .mouseMove 100 100,
        .itemDown 100 100 { newNote 1 0 with w := 60, h := 60 } .body false]).dragging ≠
        none ∧
      (run (addNote State.init) [.handleDown 340 240 (newNote 1 0), .mouseMove 100 100,
        .itemDown 100 100 { newNote 1 0 with w := 60, h := 60 } .body false]).start ≠ none ∧
      activeCount (run (addNote State.init) [.handleDown 340 240 (newNote 1 0),
        .mouseMove 100 100,
        .itemDown 100 100 { newNote 1 0 with w := 60, h := 60 } .body false]) = 2 := by
  have hmem : ({ newNote 1 0 with w := 60, h := 60 } : Item) ∈
      (run (addNote State.init) [.handleDown 340 240 (newNote 1 0), .mouseMove 100 100]).items := by
    simp [run, step, addNote, newNote, handleMouseDown, useResize.onHandleDown,
      useResize.onMove, useDrag.onMouseMove, onPanMove, onResize, orOne, State.init]
    norm_num
  have hstart : (run (addNote State.init)
      [.handleDown 340 240 (newNote 1 0), .mouseMove 100 100]).start ≠ none := by
    simp [run, step, addNote, newNote, handleMouseDown, useResize.onHandleDown,
      useResize.onMove, useDrag.onMouseMove, onPanMove, onResize, State.init]
  have hrun : run (addNote State.init) [.handleDown 340 240 (newNote 1 0), .mouseMove 100 100,
      .itemDown 100 100 { newNote 1 0 with w := 60, h := 60 } .body false] =
      step (run (addNote State.init) [.handleDown 340 240 (newNote 1 0), .mouseMove 100 100])
        (.itemDown 100 100 { newNote 1 0 with w := 60, h := 60 } .body false) := rfl
  rw [hrun]
  have hd := (step_itemDown _ { newNote 1 0 with w := 60, h := 60 } .body false 100 100 hmem
    (by decide)).1
  have hs : (step (run (addNote State.init)
      [.handleDown 340 240 (newNote 1 0), .mouseMove 100 100])
      (.itemDown 100 100 { newNote 1 0 with w := 60, h := 60 } .body false)).start =
      (run (addNote State.init) [.handleDown 340 240 (newNote 1 0), .mouseMove 100 100]).start := by
    rw [step_itemDown_eq, if_pos ⟨hmem, by decide⟩]
    simp only [itemMouseDown, useDrag.onMouseDown, bringToFront]
    split <;> rfl
  have hp : (step (run (addNote State.init)
      [.handleDown 340 240 (newNote 1 0), .mouseMove 100 100])
      (.itemDown 100 100 { newNote 1 0 with w := 60, h := 60 } .body false)).panning =
      none := by
    rw [step_itemDown_eq, if_pos ⟨hmem, by decide⟩]
    simp only [itemMouseDown, useDrag.onMouseDown, bringToFront]
    split <;>
      simp [run, step, addNote, handleMouseDown, useResize.onHandleDown,
        useResize.onMove, useDrag.onMouseMove, onPanMove, onResize, State.init]
  refine ⟨by rw [hd]; exact Option.some_ne_none _, by rw [hs]; exact hstart, ?_⟩
  have hs' := hs ▸ hstart
  unfold activeCount
  rw [hd, hp]
  cases h : (step (run (addNote State.init)
      [.handleDown 340 240 (newNote 1 0), .mouseMove 100 100])
      (.itemDown 100 100 { newNote 1 0 with w := 60, h := 60 } .body false)).start with
  | none => exact absurd h hs'
  | some r => simp

/-- C18 as amended: a pointer-down from the idle state activates at most one of
the three machines, a pointer-up deactivates all three, and no other event
touches them; so in every state reached from a state with all three idle by a
sequence of events in which every pointer-down comes while no button is held
(between two pointer-downs there is a pointer-up), at most one of drag, resize
and pan is active. -/
theorem one_interaction_at_a_time (s : State) (acts : List Action)
    (hidle : activeCount s = 0) (hseq : oneButtonAtATime false acts = true) :
    activeCount (run s acts) ≤ 1 :=
  one_active_run acts s false (fun _ => hidle) (by rw [hidle]; exact Nat.zero_le _) hseq

/-! ## Resizing -/

/-- C19: after a pointer-down at `(sx, sy)` on the resize handle of an item,
which captures the item's `w` and `h` as origin, a resize move to
`(sx + dxs, sy + dys)` at a zoom `z` in `[0.1, 3.0]` gives every item with that
id `w = max(60, originW + dxs / z)` and `h = max(60, originH + dys / z)` and
leaves its other fields, `x` and `y` among them, and every other item unchanged.
This is what the resize listener does; the whole pointer-move does the same when
no drag is active. -/
theorem resize_move_from_origin (s : State) (item : Item) (sx sy dxs dys : ℚ)
    (hlo : 0.1 ≤ s.zoom) (hhi : s.zoom ≤ 3) :
    (handleMouseDown s sx sy item).start =
        some { id := item.id, corner := "se", sx := sx, sy := sy,
               origin := { w := item.w, h := item.h, x := item.x, y := item.y } } ∧
      (useResize.onMove (handleMouseDown s sx sy item) (sx + dxs) (sy + dys)).items =
        s.items.map (fun it =>
          if it.id = item.id then
            { it with w := max 60 (item.w + dxs / s.zoom), h := max 60 (item.h + dys / s.zoom) }
          else it) ∧
      (item ∈ s.items → s.dragging = none →
        (run s [.handleDown sx sy item, .mouseMove (sx + dxs) (sy + dys)]).items =
          s.items.map (fun it =>
            if it.id = item.id then
              { it with w := max 60 (item.w + dxs / s.zoom), h := max 60 (item.h + dys / s.zoom) }
            else it)) := by
  have hpos : (0 : ℚ) < s.zoom := lt_of_lt_of_le (by norm_num) hlo
  have _ := hhi
  have hmove : ∀ t : State, t.items = s.items → t.zoom = s.zoom →
      t.start = some { id := item.id, corner := "se", sx := sx, sy := sy,
                       origin := { w := item.w, h := item.h, x := item.x, y := item.y } } →
      (useResize.onMove t (sx + dxs) (sy + dys)).items =
        s.items.map (fun it =>
          if it.id = item.id then
            { it with w := max 60 (item.w + dxs / s.zoom), h := max 60 (item.h + dys / s.zoom) }
          else it) := by
    intro t hi hz hs
    simp only [useResize.onMove, hs, onResize, hi, hz, orOne_of_pos hpos]
    apply List.map_congr_left
    intro it _
    by_cases h : it.id = item.id
    · simp [h]
    · simp [h]
  refine ⟨rfl, hmove _ rfl rfl rfl, ?_⟩
  intro hmem hdrag
  show (step (step s (.handleDown sx sy item)) (.mouseMove (sx + dxs) (sy + dys))).items = _
  simp only [step, if_pos hmem]
  have hpf := onPanMove_frame (handleMouseDown s sx sy item) (sx + dxs) (sy + dys)
  have hdm : useDrag.onMouseMove (onPanMove (handleMouseDown s sx sy item) (sx + dxs) (sy + dys))
      (sx + dxs) (sy + dys) = onPanMove (handleMouseDown s sx sy item) (sx + dxs) (sy + dys) := by
    unfold useDrag.onMouseMove
    rw [hpf.2.1]
    show (match s.dragging with
      | none => _
      | some d => _) = _
    rw [hdrag]
  rw [hdm]
  exact hmove _ hpf.1 hpf.2.2.1 hpf.2.2.2

/-! ## Zoom steps and the two-sided clamp -/

/-- C20: for every reachable zoom `z`, `zoomIn` yields `z + 0.1` rounded to 2
decimals and clamped to `[0.1, 3.0]` on both sides, and `zoomOut` yields the
same of `z - 0.1`, although `zoomIn` applies only the upper bound and `zoomOut`
only the lower one; this holds for every `z` in `[0.1, 3.0]`, and it does not
hold for every number: from `-1` the code's `zoomIn` gives `-0.9`. -/
theorem zoom_steps_two_sided_clamp (acts : List Action) :
    (zoomIn (run State.init acts)).zoom = clampedRounded ((run State.init acts).zoom + 0.1) ∧
      (zoomOut (run State.init acts)).zoom = clampedRounded ((run State.init acts).zoom - 0.1) ∧
      (∀ z : ℚ, 0.1 ≤ z → z ≤ 3 →
        zoomInZ z = clampedRounded (z + 0.1) ∧ zoomOutZ z = clampedRounded (z - 0.1)) ∧
      zoomInZ (-1) ≠ clampedRounded (-1 + 0.1) := by
  have hgen : ∀ z : ℚ, 0.1 ≤ z → z ≤ 3 →
      zoomInZ z = clampedRounded (z + 0.1) ∧ zoomOutZ z = clampedRounded (z - 0.1) := by
    intro z hlo hhi
    have h20 := le_toFixed2 (z + 0.1) 20 (by norm_num) (by norm_num at hlo ⊢; linarith)
    have h290 := toFixed2_le (z - 0.1) 290 (by norm_num at hhi ⊢; linarith)
    constructor
    · unfold zoomInZ clampedRounded
      rw [max_eq_right]
      norm_num at h20 ⊢
      linarith
    · unfold zoomOutZ clampedRounded
      rw [min_eq_right]
      rw [max_le_iff]
      constructor
      · norm_num
      · norm_num at h290 ⊢
        linarith
  obtain ⟨hlo, hhi, -⟩ := zoomOk_run acts State.init zoomOk_one
  refine ⟨(hgen _ hlo hhi).1, (hgen _ hlo hhi).2, hgen, ?_⟩
  norm_num [zoomInZ, clampedRounded, toFixed2, Rat.floor_def']

/-! ## Wheel steps -/

theorem toFixed2_add_hundredths (k m : ℤ) :
    toFixed2 ((k : ℚ) / 100 + (m : ℚ) / 100) = (k : ℚ) / 100 + (m : ℚ) / 100 := by
  have h : (k : ℚ) / 100 + (m : ℚ) / 100 = ((k + m : ℤ) : ℚ) / 100 := by push_cast; ring
  rw [h, toFixed2_hundredth]

theorem toFixed2_zoom_add {z : ℚ} (hz : ZoomOk z) (m : ℤ) :
    toFixed2 (z + (m : ℚ) / 100) = z + (m : ℚ) / 100 := by
  obtain ⟨-, -, k, hk⟩ := hz
  rw [hk, toFixed2_add_hundredths]

theorem onWheelZ_pos {deltaY z : ℚ} (h : 0 < deltaY) (hz : ZoomOk z) :
    onWheelZ deltaY z = min 3 (max 0.1 (z - 0.05)) := by
  have hfix := toFixed2_zoom_add hz (-5)
  have harg : z + -(mathSign deltaY) * 0.05 = z + ((-5 : ℤ) : ℚ) / 100 := by
    simp only [mathSign, if_pos h]
    norm_num
  have hval : z + ((-5 : ℤ) : ℚ) / 100 = z - 0.05 := by norm_num; ring
  simp only [onWheelZ]
  rw [harg, hfix, hval]

theorem onWheelZ_neg {deltaY z : ℚ} (h : deltaY < 0) (hz : ZoomOk z) :
    onWheelZ deltaY z = min 3 (max 0.1 (z + 0.05)) := by
  have hfix := toFixed2_zoom_add hz 5
  have harg : z + -(mathSign deltaY) * 0.05 = z + ((5 : ℤ) : ℚ) / 100 := by
    simp only [mathSign, if_neg (not_lt.mpr (le_of_lt h)), if_pos h]
    norm_num
  have hval : z + ((5 : ℤ) : ℚ) / 100 = z + 0.05 := by norm_num
  simp only [onWheelZ]
  rw [harg, hfix, hval]

theorem onWheelZ_zero {z : ℚ} (hz : ZoomOk z) : onWheelZ 0 z = z := by
  have hfix := toFixed2_zoom_add hz 0
  simp only [Int.cast_zero, zero_div, add_zero] at hfix
  have harg : z + -(mathSign 0) * 0.05 = z := by
    simp [mathSign]
  simp only [onWheelZ]
  rw [harg, hfix, max_eq_right hz.1, min_eq_right hz.2.1]

theorem onWheelZ_by_sign (z : ℚ) (hz : ZoomOk z) (deltaY : ℚ) :
    onWheelZ deltaY z = clampedRounded (z - mathSign deltaY * 0.05) ∧
      (0 < deltaY → onWheelZ deltaY z = min 3 (max 0.1 (z - 0.05))) ∧
      (0 < deltaY → 0.15 ≤ z → onWheelZ deltaY z = z - 0.05) ∧
      (deltaY < 0 → onWheelZ deltaY z = min 3 (max 0.1 (z + 0.05))) ∧
      (deltaY < 0 → z ≤ 2.95 → onWheelZ deltaY z = z + 0.05) ∧
      (deltaY = 0 → onWheelZ deltaY z = z) ∧
      ∀ d : ℚ, (0 < d ↔ 0 < deltaY) → (d < 0 ↔ deltaY < 0) →
        onWheelZ d z = onWheelZ deltaY z := by
  have hlo := hz.1
  have hhi := hz.2.1
  refine ⟨?_, fun h => onWheelZ_pos h hz, ?_, fun h => onWheelZ_neg h hz, ?_, ?_, ?_⟩
  · have harg : z + -(mathSign deltaY) * 0.05 = z - mathSign deltaY * 0.05 := by ring
    simp only [onWheelZ, clampedRounded]
    rw [harg]
  · intro h hz'
    rw [onWheelZ_pos h hz, max_eq_right (by norm_num at hz' ⊢; linarith),
      min_eq_right (by norm_num at hhi ⊢; linarith)]
  · intro h hz'
    rw [onWheelZ_neg h hz, max_eq_right (by norm_num at hlo ⊢; linarith),
      min_eq_right (by norm_num at hz' ⊢; linarith)]
  · intro h
    rw [h, onWheelZ_zero hz]
  · intro d h1 h2
    rcases lt_trichotomy deltaY 0 with h | h | h
    · rw [onWheelZ_neg h hz, onWheelZ_neg (h2.mpr h) hz]
    · have hd : d = 0 := by
        rcases lt_trichotomy d 0 with g | g | g
        · exact absurd (h2.mp g) (by rw [h]; exact lt_irrefl _)
        · exact g
        · exact absurd (h1.mp g) (by rw [h]; exact lt_irrefl _)
      rw [h, hd]
    · rw [onWheelZ_pos h hz, onWheelZ_pos (h1.mpr h) hz]

/-- C21: for every reachable zoom `z` and every wheel event with vertical delta
`deltaY`, `onWheel` sets the zoom to `z - sign(deltaY) * 0.05` rounded to 2
decimals and clamped to `[0.1, 3.0]`.  For `deltaY > 0` that is the clamp of
`z - 0.05` (it is `z - 0.05` when `z ≥ 0.15`), for `deltaY < 0` the clamp of
`z + 0.05` (it is `z + 0.05` when `z ≤ 2.95`), for `deltaY = 0` it is `z`; two
deltas of the same sign give the same zoom, whatever their magnitude. -/
theorem wheel_steps_by_sign (acts : List Action) (deltaY : ℚ) :
    (onWheel (run State.init acts) deltaY).zoom =
        clampedRounded ((run State.init acts).zoom - mathSign deltaY * 0.05) ∧
      (0 < deltaY → (onWheel (run State.init acts) deltaY).zoom =
        min 3 (max 0.1 ((run State.init acts).zoom - 0.05))) ∧
      (0 < deltaY → 0.15 ≤ (run State.init acts).zoom →
        (onWheel (run State.init acts) deltaY).zoom = (run State.init acts).zoom - 0.05) ∧
      (deltaY < 0 → (onWheel (run State.init acts) deltaY).zoom =
        min 3 (max 0.1 ((run State.init acts).zoom + 0.05))) ∧
      (deltaY < 0 → (run State.init acts).zoom ≤ 2.95 →
        (onWheel (run State.init acts) deltaY).zoom = (run State.init acts).zoom + 0.05) ∧
      (deltaY = 0 → (onWheel (run State.init acts) deltaY).zoom = (run State.init acts).zoom) ∧
      ∀ d : ℚ, (0 < d ↔ 0 < deltaY) → (d < 0 ↔ deltaY < 0) →
        (onWheel (run State.init acts) d).zoom = (onWheel (run State.init acts) deltaY).zoom :=
  onWheelZ_by_sign _ (zoomOk_run acts State.init zoomOk_one) deltaY

/-! ## Zoom in and out cancel -/

theorem zoomZ_in_out_cancel (z : ℚ) (hz : ZoomOk z) :
    (z ≤ 2.9 → zoomOutZ (zoomInZ z) = z) ∧ (0.2 ≤ z → zoomInZ (zoomOutZ z) = z) := by
  have hup : toFixed2 (z + 0.1) = z + 0.1 := by
    have := toFixed2_zoom_add hz 10
    norm_num at this ⊢
    exact this
  have hdown : toFixed2 (z - 0.1) = z - 0.1 := by
    have := toFixed2_zoom_add hz (-10)
    norm_num at this ⊢
    rw [sub_eq_add_neg]
    exact this
  have hsame := toFixed2_zoom_add hz 0
  simp only [Int.cast_zero, zero_div, add_zero] at hsame
  obtain ⟨hlo, hhi, -⟩ := hz
  constructor
  · intro h
    have h1 : zoomInZ z = z + 0.1 := by
      unfold zoomInZ
      rw [hup, min_eq_right (by norm_num at h ⊢; linarith)]
    rw [h1]
    unfold zoomOutZ
    rw [add_sub_cancel_right, hsame, max_eq_right hlo]
  · intro h
    have h1 : zoomOutZ z = z - 0.1 := by
      unfold zoomOutZ
      rw [hdown, max_eq_right (by norm_num at h ⊢; linarith)]
    rw [h1]
    unfold zoomInZ
    rw [sub_add_cancel, hsame, min_eq_right hhi]

/-- C29: for every reachable zoom `z` with `z ≤ 2.9`, `zoomIn` followed by
`zoomOut` gives back exactly `z`, and for every reachable zoom `z` with
`0.2 ≤ z`, `zoomOut` followed by `zoomIn` gives back exactly `z` (a reachable
zoom is in `[0.1, 3.0]`). -/
theorem zoom_in_out_cancel (acts : List Action) :
    ((run State.init acts).zoom ≤ 2.9 →
        (zoomOut (zoomIn (run State.init acts))).zoom = (run State.init acts).zoom) ∧
      (0.2 ≤ (run State.init acts).zoom →
        (zoomIn (zoomOut (run State.init acts))).zoom = (run State.init acts).zoom) :=
  zoomZ_in_out_cancel _ (zoomOk_run acts State.init zoomOk_one)

/-! ## Clearing the selection -/

/-- C22: for every store and selection, a pointer-down on the board whose target
is not inside a board item sets the selection to none through `onBoardClick`
(also when it comes from the background layer, through `beginPan` first), and the
"Select Mode" button sets the selection to none; both leave the items of the
store unchanged.  For a target inside a board item `onBoardClick` returns at
once: the state, the selection with it, stays as it is. -/
theorem selection_cleared_by_background (s : State) (button : ℤ) (cx cy : ℚ) :
    (onBoardClick s false).selected = none ∧ (onBoardClick s false).items = s.items ∧
      (step s .boardDown).selected = none ∧ (step s .boardDown).items = s.items ∧
      (step s (.backgroundDown button cx cy)).selected = none ∧
      (step s (.backgroundDown button cx cy)).items = s.items ∧
      (step s .selectModeButton).selected = none ∧
      (step s .selectModeButton).items = s.items ∧
      (step s .selectModeButton).selectMode = true ∧
      onBoardClick s true = s := by
  refine ⟨rfl, rfl, rfl, rfl, rfl, ?_, rfl, rfl, rfl, rfl⟩
  simp only [step, onBoardClick, beginPan]
  repeat' split
  all_goals rfl

/-! ## Bringing to the front keeps the order of the others -/

theorem orderedInsert_of_forall (a : Item) (l : List Item) (h : ∀ c ∈ l, zLe a c) :
    l.orderedInsert zLe a = a :: l := by
  cases l with
  | nil => rfl
  | cons b l => exact List.orderedInsert_of_le zLe l (h b (List.mem_cons_self _ _))

theorem filter_orderedInsert (p : Item → Bool) (a : Item) :
    ∀ l : List Item, l.Sorted zLe →
      (l.orderedInsert zLe a).filter p =
        if p a then (l.filter p).orderedInsert zLe a else l.filter p
  | [], _ => by
    cases h : p a <;> simp [h]
  | b :: l, hs => by
    have ih := filter_orderedInsert p a l hs.of_cons
    by_cases hab : zLe a b
    · rw [List.orderedInsert_of_le zLe l hab]
      have hall : ∀ c ∈ (b :: l).filter p, zLe a c := by
        intro c hc
        have hc' := List.mem_of_mem_filter hc
        rcases List.mem_cons.mp hc' with e | hc''
        · rw [e]; exact hab
        · exact IsTrans.trans _ _ _ hab (List.rel_of_sorted_cons hs c hc'')
      rw [orderedInsert_of_forall a _ hall]
      cases h : p a <;> simp [List.filter_cons, h]
    · have hins : (b :: l).orderedInsert zLe a = b :: l.orderedInsert zLe a := by
        simp [List.orderedInsert, hab]
      rw [hins]
      cases hb : p b
      · simp only [List.filter_cons, hb]
        simpa using ih
      · simp only [List.filter_cons, hb, if_true]
        rw [ih]
        cases h : p a
        · simp
        · simp [List.orderedInsert, hab]

theorem filter_sortedItems (p : Item → Bool) (items : List Item) :
    (sortedItems items).filter p = sortedItems (items.filter p) := by
  induction items with
  | nil => rfl
  | cons a items ih =>
    have hs : (sortedItems items).Sorted zLe := List.sorted_insertionSort zLe items
    show ((sortedItems items).orderedInsert zLe a).filter p = _
    rw [filter_orderedInsert p a _ hs, ih]
    cases h : p a
    · simp [List.filter_cons, h]
    · simp [List.filter_cons, h, sortedItems]

theorem filter_setItem_ne (items : List Item) (id : Nat) (patch : Patch) (h : patch.id = none) :
    (setItem items id patch).filter (fun it => it.id ≠ id) =
      items.filter (fun it => it.id ≠ id) := by
  induction items with
  | nil => rfl
  | cons a items ih =>
    simp only [setItem, List.map_cons] at ih ⊢
    by_cases ha : a.id = id
    · have hm : (merge a patch).id = id := by simp [merge, h, ha]
      rw [if_pos ha, List.filter_cons_of_neg (by simp [hm]),
        List.filter_cons_of_neg (by simp [ha])]
      exact ih
    · rw [if_neg ha, List.filter_cons_of_pos (by simp [ha]),
        List.filter_cons_of_pos (by simp [ha]), ih]

/-- C26: for every store and every id present in it, `bringToFront(id)` changes
nothing in the state but the `zIndex` field of the items with that id, and the
other items come in the same order in the render sequence `sortedItems` before
and after. -/
theorem bringToFront_frame (s : State) (id : Nat) (hid : ∃ it ∈ s.items, it.id = id) :
    (∃ z : ℚ, bringToFront s id =
        { s with items := s.items.map (fun it => if it.id = id then { it with zIndex := z } else it) }) ∧
      (sortedItems (bringToFront s id).items).filter (fun it => it.id ≠ id) =
        (sortedItems s.items).filter (fun it => it.id ≠ id) := by
  obtain ⟨it, hit, rfl⟩ := hid
  obtain ⟨maxZ, -, -, heq⟩ := bringToFront_eq s it.id (List.ne_nil_of_mem hit)
  constructor
  · refine ⟨maxZ + 1, ?_⟩
    unfold bringToFront at heq ⊢
    split
    · rename_i m hm
      rw [hm] at heq
      simp only at heq
      have hz : s.items.map (fun j => if j.id = it.id then { j with zIndex := maxZ + 1 } else j) =
          setItem s.items it.id { zIndex := some (maxZ + 1) } := rfl
      rw [hz, ← heq]
    · rename_i hn
      exact absurd (List.map_eq_nil_iff.mp (mathMax_eq_none hn)) (List.ne_nil_of_mem hit)
  · rw [filter_sortedItems, filter_sortedItems, heq, filter_setItem_ne _ _ _ rfl]

/-! ## What a pointer-move changes -/

/-- C27: while a drag is in progress, the drag listener changes, on a
pointer-move, only the `x` and `y` fields of the items with the dragged id: all
their other fields, every other item and the rest of the state (selection, zoom
and pan among it) stay as they are; the whole pointer-move does the same when no
resize and no pan is active; and a pointer-move while no drag, resize or pan is
active leaves the state as it is. -/
theorem drag_move_frame (s : State) (d : DragRef) (cx cy : ℚ) (hd : s.dragging = some d) :
    useDrag.onMouseMove s cx cy =
        { s with items := s.items.map (fun it =>
            if it.id = d.id then
              { it with x := d.ox + (cx - d.sx) / orOne s.zoom,
                        y := d.oy + (cy - d.sy) / orOne s.zoom }
            else it) } ∧
      (s.start = none → s.panning = none →
        step s (.mouseMove cx cy) =
          { s with items := s.items.map (fun it =>
              if it.id = d.id then
                { it with x := d.ox + (cx - d.sx) / orOne s.zoom,
                          y := d.oy + (cy - d.sy) / orOne s.zoom }
              else it) }) ∧
      ∀ t : State, t.dragging = none → t.start = none → t.panning = none →
        step t (.mouseMove cx cy) = t := by
  have hdrag : useDrag.onMouseMove s cx cy =
      { s with items := s.items.map (fun it =>
          if it.id = d.id then
            { it with x := d.ox + (cx - d.sx) / orOne s.zoom,
                      y := d.oy + (cy - d.sy) / orOne s.zoom }
          else it) } := by
    unfold useDrag.onMouseMove
    rw [hd]
    rfl
  refine ⟨hdrag, ?_, ?_⟩
  · intro hs hp
    simp only [step]
    rw [onPanMove_idle s cx cy hp, hdrag]
    unfold useResize.onMove
    simp only [hs]
  · intro t h1 h2 h3
    simp only [step]
    rw [onPanMove_idle t cx cy h3]
    unfold useDrag.onMouseMove
    rw [h1]
    unfold useResize.onMove
    simp only [h2]

/-! ## Export -/

/-- C23: for every export kind (`png`, `jpg`, `pdf`, `html` or any other string)
and every outcome (board not mounted, empty board, pipeline success, pipeline
error, print window refused, markup error), `exportAs` leaves the items of the
store, the selection, the zoom and the pan unchanged: it leaves the state as it
is or closes the popover. -/
theorem exportAs_frame (s : State) (numStr : ℚ → String) (type : String)
    (boardMounted pipelineThrows windowOpened : Bool) :
    (exportAs s numStr type boardMounted pipelineThrows windowOpened).items = s.items ∧
      (exportAs s numStr type boardMounted pipelineThrows windowOpened).selected = s.selected ∧
      (exportAs s numStr type boardMounted pipelineThrows windowOpened).zoom = s.zoom ∧
      (exportAs s numStr type boardMounted pipelineThrows windowOpened).pan = s.pan ∧
      (exportAs s numStr type boardMounted pipelineThrows windowOpened = s ∨
        exportAs s numStr type boardMounted pipelineThrows windowOpened =
          { s with popover := none }) := by
  unfold exportAs
  repeat' split
  all_goals simp

theorem itemHtml_zIndex (numStr : ℚ → String) (item : Item) (z : ℚ) :
    itemHtml numStr { item with zIndex := z } = itemHtml numStr item := rfl

/-- C28: for every two stores that hold the same items in the same insertion
order up to their `zIndex` values, `exportAsHTML` produces the same document
(or fails alike): the markup of an item does not read `zIndex`, and the document
is the head, the markups of the items in store order joined by newlines, and the
tail. -/
theorem exportAsHTML_ignores_zIndex (numStr : ℚ → String) (items items' : List Item)
    (h : items.map (fun it => { it with zIndex := 0 }) =
      items'.map (fun it => { it with zIndex := 0 })) :
    exportAsHTML numStr items = exportAsHTML numStr items' ∧
      (∀ (it : Item) (z : ℚ), itemHtml numStr { it with zIndex := z } = itemHtml numStr it) ∧
      exportAsHTML numStr items =
        (items.mapM (itemHtml numStr)).map
          (fun frags => htmlHead ++ "\n".intercalate frags ++ htmlTail) := by
  have hfrag : ∀ l : List Item, l.mapM (itemHtml numStr) =
      (l.map (fun it => { it with zIndex := 0 })).mapM (itemHtml numStr) := by
    intro l
    induction l with
    | nil => rfl
    | cons a l ih =>
      simp only [List.mapM_cons, List.map_cons, ih, itemHtml_zIndex]
  refine ⟨?_, fun it z => itemHtml_zIndex numStr it z, rfl⟩
  unfold exportAsHTML
  rw [hfrag items, hfrag items', h]

/-! ## The recorder after a refused microphone -/

theorem voiceStep_error (v : VoiceState) (a : VoiceAction) (h : v.recState = "error") :
    (voiceStep v a).recState = "error" := by
  cases a with
  | start granted => simp [voiceStep, h]
  | stop src => simp [voiceStep, h]
  | board a => exact h

theorem voiceRun_error (acts : List VoiceAction) (v : VoiceState) (h : v.recState = "error") :
    (voiceRun v acts).recState = "error" := by
  induction acts generalizing v with
  | nil => exact h
  | cons a acts ih => exact ih (voiceStep v a) (voiceStep_error v a h)

/-- C24 on the code: when microphone acquisition fails in `startRec`, the store
is unchanged and `recState` becomes `error`; from there every sequence of popover
and board actions leaves `recState` at `error`, so the "Start Recording" button,
rendered only for `idle`, is never offered again: no sequence leads back to a
state in which a recording can be started.  (After a granted start and a stop
the recorder is back at `idle`.) -/
theorem recorder_stuck_after_refusal (v : VoiceState) (acts : List VoiceAction) :
    (startRec v false).board = v.board ∧ (startRec v false).recState = "error" ∧
      (voiceRun (startRec v false) acts).recState = "error" ∧
      (voiceRun (startRec v false) acts).recState ≠ "idle" ∧
      (voiceRun VoiceState.init [.start true, .stop "blob:voice"]).recState = "idle" := by
  have h := voiceRun_error acts (startRec v false) rfl
  refine ⟨rfl, rfl, h, ?_, ?_⟩
  · rw [h]
    decide
  · simp [voiceRun, voiceStep, startRec, stopRec, VoiceState.init]

/-! ## The palette is never empty -/

theorem enumFrom_filter_length (idx : Nat) :
    ∀ (l : List String) (n : Nat),
      l.length ≤ ((l.enumFrom n).filter (fun p => decide (¬ p.1 = idx))).length + 1
  | [], _ => by simp
  | a :: l, n => by
    by_cases h : n = idx
    · have hall : (l.enumFrom (n + 1)).filter (fun p => decide (¬ p.1 = idx)) =
          l.enumFrom (n + 1) := by
        rw [List.filter_eq_self]
        intro p hp
        have := List.le_fst_of_mem_enumFrom hp
        simp only [decide_not, Bool.not_eq_true', decide_eq_false_iff_not]
        omega
      rw [List.enumFrom_cons, List.filter_cons_of_neg (by simp [h]), hall]
      simp
    · have ih := enumFrom_filter_length idx l (n + 1)
      rw [List.enumFrom_cons, List.filter_cons_of_pos (by simp [h])]
      simp only [List.length_cons]
      omega

theorem swapAt_length (a : List String) (i j : Nat) : (swapAt a i j).length = a.length := by
  unfold swapAt
  split <;> simp

theorem paletteOk_setPaletteColor (s : State) (idx : Nat) (c : String) (h : PaletteOk s) :
    PaletteOk (setPaletteColor s idx c) := by
  obtain ⟨h1, h2⟩ := h
  exact ⟨by simpa [setPaletteColor] using h1, h2⟩

theorem paletteOk_removePaletteStop (s : State) (idx : Nat) (h : PaletteOk s) :
    PaletteOk (removePaletteStop s idx) := by
  obtain ⟨h1, h2⟩ := h
  unfold removePaletteStop
  split
  · rename_i hlen
    refine ⟨?_, h2⟩
    have := enumFrom_filter_length idx s.paletteStops 0
    simp only [List.length_map, List.enum, ne_eq]
    omega
  · exact ⟨h1, h2⟩

theorem paletteOk_movePaletteStop (s : State) (idx : Nat) (dir : String) (h : PaletteOk s) :
    PaletteOk (movePaletteStop s idx dir) := by
  obtain ⟨h1, h2⟩ := h
  unfold movePaletteStop
  split
  · exact ⟨by simpa [swapAt_length] using h1, h2⟩
  · split
    · exact ⟨by simpa [swapAt_length] using h1, h2⟩
    · exact ⟨h1, h2⟩

theorem step_palette_frame (s : State) (a : Action) :
    ((step s a).paletteStops = s.paletteStops ∧
        (step s a).paletteOrientation = s.paletteOrientation) ∨
      (∃ idx c, a = .setPaletteColor idx c) ∨ a = .addPaletteStop ∨
      (∃ idx, a = .removePaletteStop idx) ∨ (∃ idx dir, a = .movePaletteStop idx dir) ∨
      ∃ o, a = .setPaletteOrientation o := by
  cases a
  case setPaletteColor idx c => exact Or.inr (Or.inl ⟨idx, c, rfl⟩)
  case addPaletteStop => exact Or.inr (Or.inr (Or.inl rfl))
  case removePaletteStop idx => exact Or.inr (Or.inr (Or.inr (Or.inl ⟨idx, rfl⟩)))
  case movePaletteStop idx dir => exact Or.inr (Or.inr (Or.inr (Or.inr (Or.inl ⟨idx, dir, rfl⟩))))
  case setPaletteOrientation o => exact Or.inr (Or.inr (Or.inr (Or.inr (Or.inr ⟨o, rfl⟩))))
  all_goals
    left
    simp only [step, boardItemMouseDown_eq, onWheel, resetView, zoomIn, zoomOut, onBoardClick,
      beginPan, addImage,
      addNote, addDocument, addComment, addLink, addMusic, addVideo, addSwatch, addVoice,
      onPickAudio, onPickVideo, onPickImage, removeItem, itemMouseDown, handleMouseDown,
      bringToFront, useDrag.onMouseDown, useDrag.onMouseMove, useDrag.onMouseUp,
      useResize.onHandleDown, useResize.onMove, useResize.onUp, onPanMove, endPan, onResize]
    repeat' split
    all_goals simp

theorem paletteOk_step (s : State) (a : Action) (h : PaletteOk s) : PaletteOk (step s a) := by
  rcases step_palette_frame s a with ⟨e1, e2⟩ | ⟨idx, c, rfl⟩ | rfl | ⟨idx, rfl⟩ |
    ⟨idx, dir, rfl⟩ | ⟨o, rfl⟩
  · exact ⟨by rw [e1]; exact h.1, by rw [e2]; exact h.2⟩
  · exact paletteOk_setPaletteColor s idx c h
  · exact ⟨by simp [step, addPaletteStop], h.2⟩
  · exact paletteOk_removePaletteStop s idx h
  · exact paletteOk_movePaletteStop s idx dir h
  · simp only [step]
    split
    · rename_i ho
      exact ⟨h.1, ho⟩
    · exact h

theorem paletteOk_run (acts : List Action) (s : State) (h : PaletteOk s) :
    PaletteOk (run s acts) := by
  induction acts generalizing s with
  | nil => exact h
  | cons a acts ih => exact ih (step s a) (paletteOk_step s a h)

theorem stops_real_le_length (a : List Slot) : Stops.real a ≤ a.length :=
  List.countP_le_length _

theorem stops_spread_length (a : List Slot) : (Stops.spread a).length = a.length := by
  simp [Stops.spread]

theorem stops_spread_real (a : List Slot) : Stops.real (Stops.spread a) = a.length := by
  induction a with
  | nil => rfl
  | cons v a ih =>
    simp only [Stops.real, Stops.spread, List.map_cons, List.length_cons] at ih ⊢
    rw [List.countP_cons_of_pos]
    · rw [ih]
    · by_cases h : v = .hole <;> simp [h]

theorem stops_get_ne_hole (a : List Slot) (i : ℤ) : ¬ Stops.get a i = .hole := by
  unfold Stops.get
  split
  · simp
  · split
    · rename_i v _
      by_cases h : v = .hole <;> simp [h]
    · simp

theorem stops_countP_set_ge (a : List Slot) (k : Nat) (v : Slot) (hv : ¬ v = .hole) :
    Stops.real a ≤ Stops.real (a.set k v) := by
  induction a generalizing k with
  | nil => simp
  | cons b a ih =>
    cases k with
    | zero =>
      simp only [Stops.real, List.set_cons_zero, List.countP_cons, hv, not_false_eq_true,
        decide_True, if_true]
      split <;> omega
    | succ k =>
      have := ih k
      simp only [Stops.real, List.set_cons_succ, List.countP_cons] at this ⊢
      omega

theorem stops_set_facts (a : List Slot) (i : ℤ) (v : Slot) (hv : ¬ v = .hole) :
    Stops.real a ≤ Stops.real (Stops.set a i v) ∧ a.length ≤ (Stops.set a i v).length ∧
      ((Stops.set a i v).length = a.length ∨ Stops.real a + 1 ≤ Stops.real (Stops.set a i v)) := by
  unfold Stops.set
  split
  · exact ⟨le_refl _, le_refl _, Or.inl rfl⟩
  · split
    · refine ⟨stops_countP_set_ge a _ v hv, ?_, Or.inl ?_⟩
      · rw [List.length_set]
      · rw [List.length_set]
    · have hreal : Stops.real (a ++ List.replicate (i.toNat - a.length) Slot.hole ++ [v]) =
          Stops.real a + 1 := by
        simp [Stops.real, List.countP_append, List.countP_replicate, hv]
      refine ⟨by rw [hreal]; omega, ?_, Or.inr (by rw [hreal])⟩
      simp only [List.length_append, List.length_replicate, List.length_singleton]
      omega

theorem stops_ok_two_sets (a : List Slot) (i j : ℤ) (v w : Slot) (hv : ¬ v = .hole)
    (hw : ¬ w = .hole) (hlen : 1 ≤ a.length) :
    Stops.Ok (Stops.set (Stops.set (Stops.spread a) i v) j w) := by
  obtain ⟨r1, l1, c1⟩ := stops_set_facts (Stops.spread a) i v hv
  obtain ⟨r2, l2, c2⟩ := stops_set_facts (Stops.set (Stops.spread a) i v) j w hw
  have hr := stops_spread_real a
  have hl := stops_spread_length a
  constructor
  · omega
  · intro h2
    rcases c1 with c1 | c1 <;> rcases c2 with c2 | c2 <;> omega

theorem stops_setPaletteColor_enumFrom (idx : ℤ) (color : String) :
    ∀ (a : List Slot) (n : Nat),
      Stops.real ((a.enumFrom n).map (fun p =>
        if p.2 = .hole then .hole else if (p.1 : ℤ) = idx then .color color else p.2)) =
        Stops.real a
  | [], _ => rfl
  | b :: a, n => by
    have ih := stops_setPaletteColor_enumFrom idx color a (n + 1)
    simp only [Stops.real, List.enumFrom_cons, List.map_cons, List.countP_cons] at ih ⊢
    rw [ih]
    congr 1
    by_cases hb : b = .hole
    · simp [hb]
    · by_cases hn : (n : ℤ) = idx <;> simp [hb, hn]

theorem stops_remove_enumFrom (idx : ℤ) :
    ∀ (a : List Slot) (n : Nat),
      Stops.real a ≤ ((a.enumFrom n).filter
        (fun p => decide (¬ p.2 = .hole ∧ ¬ (p.1 : ℤ) = idx))).length + 1 ∧
      (¬ (∃ p ∈ a.enumFrom n, (p.1 : ℤ) = idx) →
        Stops.real a = ((a.enumFrom n).filter
          (fun p => decide (¬ p.2 = .hole ∧ ¬ (p.1 : ℤ) = idx))).length)
  | [], _ => by simp [Stops.real]
  | b :: a, n => by
    obtain ⟨ih1, ih2⟩ := stops_remove_enumFrom idx a (n + 1)
    simp only [List.enumFrom_cons, Stops.real, List.countP_cons, List.filter_cons] at ih1 ih2 ⊢
    by_cases hb : b = .hole
    · simp only [hb, not_true_eq_false, decide_False, false_and, Bool.false_eq_true,
        if_false, add_zero]
      refine ⟨ih1, fun hne => ih2 (fun ⟨p, hp, e⟩ => hne ⟨p, List.mem_cons_of_mem _ hp, e⟩)⟩
    · by_cases hn : (n : ℤ) = idx
      · have hnone : ¬ ∃ p ∈ a.enumFrom (n + 1), (p.1 : ℤ) = idx := by
          rintro ⟨p, hp, e⟩
          have := List.le_fst_of_mem_enumFrom hp
          omega
        have := ih2 hnone
        simp only [hb, hn, not_false_eq_true, not_true_eq_false, decide_True, decide_False,
          and_false, Bool.false_eq_true, if_false, if_true]
        refine ⟨by omega, fun hne => absurd ⟨(n, b), List.mem_cons_self _ _, hn⟩ hne⟩
      · simp only [hb, hn, not_false_eq_true, decide_True, and_self, if_true,
          List.length_cons]
        refine ⟨by omega, fun hne => ?_⟩
        have := ih2 (fun ⟨p, hp, e⟩ => hne ⟨p, List.mem_cons_of_mem _ hp, e⟩)
        omega

theorem stops_remove_no_holes (idx : ℤ) (a : List Slot) :
    Stops.real ((a.enum.filter (fun p => decide (¬ p.2 = .hole ∧ ¬ (p.1 : ℤ) = idx))).map
      (fun p => p.2)) =
      ((a.enum.filter (fun p => decide (¬ p.2 = .hole ∧ ¬ (p.1 : ℤ) = idx))).map
        (fun p => p.2)).length := by
  unfold Stops.real
  rw [List.countP_eq_length]
  intro v hv
  obtain ⟨p, hp, rfl⟩ := List.mem_map.mp hv
  have := (List.mem_filter.mp hp).2
  simp only [decide_eq_true_eq] at this
  simpa using this.1

theorem stops_ok_call (a : List Slot) (c : PaletteCall) (h : Stops.Ok a) :
    Stops.Ok (Stops.call a c) := by
  obtain ⟨h1, h2⟩ := h
  have hlen : 1 ≤ a.length := le_trans h1 (stops_real_le_length a)
  cases c with
  | setPaletteColor idx color =>
    have hr : Stops.real (Stops.setPaletteColor a idx color) = Stops.real a :=
      stops_setPaletteColor_enumFrom idx color a 0
    have hl : (Stops.setPaletteColor a idx color).length = a.length := by
      simp [Stops.setPaletteColor]
    exact ⟨by rw [show Stops.call a (.setPaletteColor idx color) =
      Stops.setPaletteColor a idx color from rfl, hr]; exact h1,
      by rw [show Stops.call a (.setPaletteColor idx color) =
        Stops.setPaletteColor a idx color from rfl, hr, hl]; exact h2⟩
  | addPaletteStop currentColor =>
    have hr : Stops.real (Stops.addPaletteStop a currentColor) = a.length + 1 := by
      have := stops_spread_real a
      simp only [Stops.real] at this
      simp only [Stops.addPaletteStop, Stops.real, List.countP_append]
      rw [this]
      simp
    show Stops.Ok (Stops.addPaletteStop a currentColor)
    exact ⟨by rw [hr]; omega, fun _ => by rw [hr]; omega⟩
  | removePaletteStop idx =>
    show Stops.Ok (Stops.removePaletteStop a idx)
    unfold Stops.removePaletteStop
    split
    · rename_i hgt
      have hcount := (stops_remove_enumFrom idx a 0).1
      have hnh := stops_remove_no_holes idx a
      have h2' := h2 (by omega)
      simp only [List.enum] at hnh ⊢
      constructor
      · rw [hnh]
        simp only [List.length_map]
        omega
      · intro _
        rw [hnh]
        assumption
    · exact ⟨h1, h2⟩
  | movePaletteStop idx dir =>
    show Stops.Ok (Stops.movePaletteStop a idx dir)
    unfold Stops.movePaletteStop
    split
    · exact stops_ok_two_sets a _ _ _ _ (stops_get_ne_hole _ _) (stops_get_ne_hole _ _) hlen
    · split
      · exact stops_ok_two_sets a _ _ _ _ (stops_get_ne_hole _ _) (stops_get_ne_hole _ _) hlen
      · exact ⟨h1, h2⟩

theorem stops_ok_run (calls : List PaletteCall) (a : List Slot) (h : Stops.Ok a) :
    Stops.Ok (Stops.run a calls) := by
  induction calls generalizing a with
  | nil => exact h
  | cons c calls ih => exact ih (Stops.call a c) (stops_ok_call a c h)


theorem stops_spread_ofColors (l : List String) :
    Stops.spread (Stops.ofColors l) = Stops.ofColors l := by
  simp [Stops.spread, Stops.ofColors]

theorem stops_get_ofColors (l : List String) (k : Nat) (c : String) (h : l[k]? = some c) :
    Stops.get (Stops.ofColors l) (k : ℤ) = .color c := by
  have h1 : (Stops.ofColors l).get? k = some (.color c) := by
    simp [Stops.ofColors, List.getElem?_map, h]
  have h2 : ¬ ((k : ℤ) < 0) := by omega
  unfold Stops.get
  rw [if_neg h2, Int.toNat_ofNat, h1]
  simp

theorem stops_set_ofColors (l : List String) (k : Nat) (c : String) (h : k < l.length) :
    Stops.set (Stops.ofColors l) (k : ℤ) (.color c) = Stops.ofColors (l.set k c) := by
  simp [Stops.set, Stops.ofColors, h, List.map_set]

theorem stops_swap_ofColors (l : List String) (i j : Nat) (hi : i < l.length)
    (hj : j < l.length) :
    Stops.set (Stops.set (Stops.ofColors l) (i : ℤ) (Stops.get (Stops.ofColors l) (j : ℤ)))
        (j : ℤ) (Stops.get (Stops.ofColors l) (i : ℤ)) =
      Stops.ofColors (swapAt l i j) := by
  have hvi : l[i]? = some l[i] := List.getElem?_eq_getElem hi
  have hvj : l[j]? = some l[j] := List.getElem?_eq_getElem hj
  rw [stops_get_ofColors l j _ hvj, stops_get_ofColors l i _ hvi,
    stops_set_ofColors l i _ hi, stops_set_ofColors _ j _ (by simpa using hj)]
  simp [swapAt, hvi, hvj]

/-- On a palette of strings and for the indices of its stops, which are the
indices the buttons pass, the handlers of the state do what the array updaters
do. -/
theorem paletteHandlers_refine (s : State) (idx : Nat) (color dir : String) :
    Stops.setPaletteColor (Stops.ofColors s.paletteStops) idx color =
        Stops.ofColors (setPaletteColor s idx color).paletteStops ∧
      Stops.addPaletteStop (Stops.ofColors s.paletteStops) s.currentColor =
        Stops.ofColors (addPaletteStop s).paletteStops ∧
      Stops.removePaletteStop (Stops.ofColors s.paletteStops) idx =
        Stops.ofColors (removePaletteStop s idx).paletteStops ∧
      (idx < s.paletteStops.length →
        Stops.movePaletteStop (Stops.ofColors s.paletteStops) idx dir =
          Stops.ofColors (movePaletteStop s idx dir).paletteStops) := by
  refine ⟨?_, ?_, ?_, ?_⟩
  · simp only [Stops.setPaletteColor, Stops.ofColors, setPaletteColor, List.enum,
      List.enumFrom_map, List.map_map]
    apply List.map_congr_left
    intro p _
    by_cases h : p.1 = idx
    · simp [h]
    · have : ¬ (p.1 : ℤ) = (idx : ℤ) := by exact_mod_cast h
      simp [h, this]
  · simp only [Stops.addPaletteStop, stops_spread_ofColors, addPaletteStop]
    simp [Stops.ofColors]
  · simp only [Stops.removePaletteStop, removePaletteStop, Stops.ofColors, List.length_map]
    split
    · simp only [List.enum, List.enumFrom_map, List.filter_map, List.map_map]
      congr 1
      apply List.filter_congr
      intro p _
      by_cases h : p.1 = idx
      · simp [h]
      · have : ¬ (p.1 : ℤ) = (idx : ℤ) := by exact_mod_cast h
        simp [h, this]
    · rfl
  · intro hidx
    simp only [Stops.movePaletteStop, movePaletteStop, stops_spread_ofColors]
    by_cases hup : dir = "up" ∧ idx > 0
    · have hup' : dir = "up" ∧ (idx : ℤ) > 0 := ⟨hup.1, by exact_mod_cast hup.2⟩
      rw [if_pos hup', if_pos hup]
      have hcast : (idx : ℤ) - 1 = ((idx - 1 : ℕ) : ℤ) := by omega
      rw [hcast]
      exact stops_swap_ofColors _ _ _ (by omega) hidx
    · have hup' : ¬ (dir = "up" ∧ (idx : ℤ) > 0) := by
        intro h
        exact hup ⟨h.1, by exact_mod_cast h.2⟩
      rw [if_neg hup', if_neg hup]
      by_cases hdown : dir = "down" ∧ idx + 1 < s.paletteStops.length
      · have hdown' : dir = "down" ∧
            (idx : ℤ) < ((Stops.ofColors s.paletteStops).length : ℤ) - 1 := by
          refine ⟨hdown.1, ?_⟩
          simp only [Stops.ofColors, List.length_map]
          omega
        rw [if_pos hdown', if_pos hdown]
        have hcast : (idx : ℤ) + 1 = ((idx + 1 : ℕ) : ℤ) := by omega
        rw [hcast]
        exact stops_swap_ofColors _ _ _ hidx hdown.2
      · have hdown' : ¬ (dir = "down" ∧
            (idx : ℤ) < ((Stops.ofColors s.paletteStops).length : ℤ) - 1) := by
          intro h
          apply hdown
          refine ⟨h.1, ?_⟩
          have := h.2
          simp only [Stops.ofColors, List.length_map] at this
          omega
        rw [if_neg hdown', if_neg hdown]


/-- C25: in every state reached from the initial palette by any sequence of
`setPaletteColor`, `addPaletteStop`, `removePaletteStop` and `movePaletteStop`
calls with any integer indices, the palette array has at least one element, and
so has its copy `[...paletteStops]` that `addSwatch` stores as `colors`.  In
every state the application reaches, the palette has at least one colour and the
orientation is `horizontal` or `vertical`, and `addSwatch` appends a swatch item
whose `colors` are the palette and whose `orientation` is the orientation of
that moment. -/
theorem palette_never_empty (calls : List PaletteCall) (acts : List Action) :
    1 ≤ (Stops.run Stops.init calls).length ∧ 1 ≤ Stops.real (Stops.run Stops.init calls) ∧
      1 ≤ (Stops.spread (Stops.run Stops.init calls)).length ∧
      1 ≤ (run State.init acts).paletteStops.length ∧
      ((run State.init acts).paletteOrientation = "horizontal" ∨
        (run State.init acts).paletteOrientation = "vertical") ∧
      ∃ it : Item,
        (step (run State.init acts) .addSwatch).items = (run State.init acts).items ++ [it] ∧
          it.type = "swatch" ∧ it.colors = some (run State.init acts).paletteStops ∧
          it.orientation = some (run State.init acts).paletteOrientation := by
  have hA : Stops.Ok (Stops.run Stops.init calls) :=
    stops_ok_run calls Stops.init ⟨by decide, fun _ => by decide⟩
  have hB : PaletteOk (run State.init acts) :=
    paletteOk_run acts State.init ⟨by decide, Or.inr rfl⟩
  have hlen : 1 ≤ (Stops.run Stops.init calls).length :=
    le_trans hA.1 (stops_real_le_length _)
  refine ⟨hlen, hA.1, by rw [stops_spread_length]; exact hlen, hB.1, hB.2, ?_⟩
  exact ⟨newSwatch (run State.init acts).idCounter (run State.init acts).items.length
    (run State.init acts).paletteStops (run State.init acts).paletteOrientation,
    rfl, rfl, rfl, rfl⟩

/-- On finite numbers the handler on JavaScript numbers is `onResize`. -/
theorem onResizeJs_finite (s : State) (id : Nat) (corner : String) (dx dy : ℚ)
    (origin : Origin) :
    onResizeJs (s.items.map JsItem.ofItem) id corner (.num dx) (.num dy)
        (JsOrigin.ofOrigin origin) =
      (onResize s id corner dx dy origin).items.map JsItem.ofItem := by
  simp only [onResizeJs, onResize, List.map_map]
  apply List.map_congr_left
  intro it _
  by_cases h : it.id = id
  · simp [JsItem.ofItem, JsOrigin.ofOrigin, JsNumber.add, JsNumber.mathMax, h]
  · simp [JsItem.ofItem, h]

/-- C2 as stated fails: `onResize` accepts any value for `dx`, `dy` and
`origin`, and `Math.max(60, NaN)` is `NaN`.  On the board with one new note
(240 by 140), `onResize(1, 'se', NaN, 0, origin)` stores `w = NaN`, and so does
`onResize(1, 'se', -Infinity, 0, origin)` with `origin.w = Infinity`; `NaN >= 60`
is false. -/
theorem resize_by_nan_breaks_floor :
    onResizeJs ((run State.init [.addNote]).items.map JsItem.ofItem) 1 "se" .nan (.num 0)
        { w := .num 240, h := .num 140, x := .num 100, y := .num 100 } =
      [{ id := 1, w := .nan, h := .num 140, x := .num 100, y := .num 100 }] ∧
    onResizeJs ((run State.init [.addNote]).items.map JsItem.ofItem) 1 "se" .negInf (.num 0)
        { w := .posInf, h := .num 140, x := .num 100, y := .num 100 } =
      [{ id := 1, w := .nan, h := .num 140, x := .num 100, y := .num 100 }] ∧
    JsNumber.ge .nan (.num 60) = false := by
  refine ⟨?_, ?_, rfl⟩ <;>
    · simp [run, step, addNote, newNote, State.init, onResizeJs, JsItem.ofItem, JsNumber.add,
        JsNumber.mathMax]
      norm_num

/-- A pointer-down that does not reach the item's handler changes nothing. -/
theorem step_itemDown_skipped (s : State) (item : Item) (part : ItemPart) (isEditing : Bool)
    (cx cy : ℚ) (hskip : handlerRuns item part isEditing = false) :
    step s (.itemDown cx cy item part isEditing) = s := by
  rw [step_itemDown_eq, if_neg (by simp [hskip])]

/-- C3 as stated fails for a note that is being edited: its textarea stops the
propagation of a pointer-down while `isEditing` is set, and the root element
calls the handler only `if (!isEditing)`.  On the board with one new note at
`(100, 100)` and zoom 1, a pointer-down at `(0, 0)` in the text of the note
while it is edited, followed by a pointer-move to `(50, 30)`, starts no drag and
leaves the note at `(100, 100)`, not at `(150, 130)`. -/
theorem edited_note_stays_in_place :
    newNote 1 0 ∈ (run State.init [.addNote]).items ∧
      (run State.init [.addNote]).zoom = 1 ∧
      (run State.init [.addNote, .itemDown 0 0 (newNote 1 0) .textarea true]).dragging = none ∧
      (run State.init [.addNote, .itemDown 0 0 (newNote 1 0) .textarea true,
        .mouseMove 50 30]).items.map (fun it => (it.id, it.x, it.y)) = [(1, 100, 100)] ∧
      ¬ ∀ it ∈ (run State.init [.addNote, .itemDown 0 0 (newNote 1 0) .textarea true,
          .mouseMove 50 30]).items,
        it.id = (newNote 1 0).id →
          it.x = (newNote 1 0).x + 50 / (run State.init [.addNote]).zoom ∧
            it.y = (newNote 1 0).y + 30 / (run State.init [.addNote]).zoom := by
  have hrun : run State.init [.addNote, .itemDown 0 0 (newNote 1 0) .textarea true,
      .mouseMove 50 30] = { addNote State.init with popover := none } := by
    simp [run, step, boardItemMouseDown, addNote, newNote, useDrag.onMouseMove, useResize.onMove,
      onPanMove, State.init]
  refine ⟨?_, ?_, ?_, ?_, ?_⟩
  · simp [run, step, addNote, State.init]
  · simp [run, step, addNote, State.init]
  · simp [run, step, boardItemMouseDown, addNote, newNote, State.init]
  · rw [hrun]
    simp [addNote, newNote, State.init]
  · rw [hrun]
    intro h
    have := h (newNote 1 0) (by simp [addNote, State.init]) rfl
    norm_num [run, step, addNote, newNote, State.init] at this

/-- C17 as stated fails for a note that is being edited: the root element of a
note calls the handler only `if (!isEditing)`.  On the board with two new notes,
the second one selected, a pointer-down on the body of the first note while it
is edited leaves the selection on the second note, leaves the first note's
`zIndex` 0 below the second note's 1, and starts no drag. -/
theorem edited_note_pointer_down_ignored :
    newNote 1 0 ∈ (run State.init [.addNote, .addNote]).items ∧
      (run State.init [.addNote, .addNote,
        .itemDown 3 4 (newNote 1 0) .body true]).selected = some 2 ∧
      (run State.init [.addNote, .addNote,
        .itemDown 3 4 (newNote 1 0) .body true]).items.map (fun it => (it.id, it.zIndex)) =
        [(1, 0), (2, 1)] ∧
      (run State.init [.addNote, .addNote,
        .itemDown 3 4 (newNote 1 0) .body true]).dragging = none := by
  refine ⟨?_, ?_, ?_, ?_⟩ <;>
    simp [run, step, boardItemMouseDown, onBoardClick, addNote, newNote, State.init]

/-! ## Instances of the theorems at concrete stores -/

/-- The size floor at a note shrunk by a resize of `(-1000, -1000)`. -/
theorem size_floor_reachable_witness :
    { newNote 1 0 with w := 60, h := 60 } ∈
        (run State.init [.addNote, .resize 1 "se" (-1000) (-1000)
          { w := 240, h := 140, x := 100, y := 100 }]).items ∧
      (60 : ℚ) ≤ ({ newNote 1 0 with w := 60, h := 60 } : Item).w ∧
      (60 : ℚ) ≤ ({ newNote 1 0 with w := 60, h := 60 } : Item).h :=
  have h : { newNote 1 0 with w := 60, h := 60 } ∈
      (run State.init [.addNote, .resize 1 "se" (-1000) (-1000)
        { w := 240, h := 140, x := 100, y := 100 }]).items := by
    simp [run, step, addNote, newNote, onResize, State.init]
    norm_num
  ⟨h, size_floor_reachable _ _ h⟩

/-- The drag theorem at a new note, zoom 1, with two intermediate moves. -/
theorem drag_position_from_origin_witness :
    newNote 1 0 ∈ (addNote State.init).items ∧ (0.1 : ℚ) ≤ (addNote State.init).zoom ∧
      (addNote State.init).zoom ≤ 3 ∧
      handlerRuns (newNote 1 0) .body false = true ∧
      ∀ it ∈ (run (addNote State.init)
          (.itemDown 5 5 (newNote 1 0) .body false ::
            moveEvents ([(6, 7), (90, 2)] ++ [(5 + 50, 5 + 30)]))).items,
        it.id = (newNote 1 0).id →
          it.x = (newNote 1 0).x + 50 / (addNote State.init).zoom ∧
            it.y = (newNote 1 0).y + 30 / (addNote State.init).zoom :=
  have h1 : newNote 1 0 ∈ (addNote State.init).items := by simp [addNote, State.init]
  have h2 : (0.1 : ℚ) ≤ (addNote State.init).zoom := by norm_num [addNote, State.init]
  have h3 : (addNote State.init).zoom ≤ 3 := by norm_num [addNote, State.init]
  have h4 : handlerRuns (newNote 1 0) .body false = true := by decide
  ⟨h1, h2, h3, h4,
    (drag_position_from_origin (addNote State.init) (newNote 1 0) .body false 5 5 50 30
      [(6, 7), (90, 2)] h1 h4 h2 h3).1.2.2⟩

/-- The first of two notes is last in the render sequence once brought to the front. -/
theorem bringToFront_last_witness :
    (∃ it ∈ (addNote (addNote State.init)).items, it.id = 1) ∧
      ∃ last : Item,
        (sortedItems (bringToFront (addNote (addNote State.init)) 1).items).getLast? = some last ∧
          last.id = 1 :=
  have h : ∃ it ∈ (addNote (addNote State.init)).items, it.id = 1 :=
    ⟨newNote 1 0, by simp [addNote, State.init], rfl⟩
  ⟨h, bringToFront_last (addNote (addNote State.init)) 1 h⟩

/-- The first of two notes gets the largest `zIndex` plus one. -/
theorem bringToFront_max_plus_one_witness :
    (∃ it ∈ (addNote (addNote State.init)).items, it.id = 1) ∧
      ∃ maxZ : ℚ, (∀ j ∈ (addNote (addNote State.init)).items, j.zIndex ≤ maxZ) ∧
        ∀ it ∈ (bringToFront (addNote (addNote State.init)) 1).items,
          it.id = 1 → it.zIndex = maxZ + 1 :=
  have h : ∃ it ∈ (addNote (addNote State.init)).items, it.id = 1 :=
    ⟨newNote 1 0, by simp [addNote, State.init], rfl⟩
  ⟨h, (bringToFront_max_plus_one (addNote (addNote State.init)) 1 h).1.elim
    (fun maxZ hm => ⟨maxZ, hm.2.1, hm.2.2.2.2⟩)⟩

/-- A cancelled image pick on a board that holds one note leaves that board. -/
theorem cancelled_pick_removes_provisional_image_witness :
    FreshIds (addNote State.init).items (addNote State.init).idCounter ∧
      (run (addNote State.init) [.addImage, .pickImage none]).items =
        (addNote State.init).items ∧
      (run (addNote State.init) [.addImage, .pickImage none]).selected = none :=
  have h : FreshIds (addNote State.init).items (addNote State.init).idCounter := by
    intro it hit
    simp [addNote, State.init] at hit
    simp [hit, addNote, newNote, State.init]
  ⟨h, (cancelled_pick_removes_provisional_image (addNote State.init) h).2.2.2.1,
    (cancelled_pick_removes_provisional_image (addNote State.init) h).2.2.2.2.2.1⟩

/-- A patch of `x` and `text` on a board of two notes keeps ids and types. -/
theorem setItem_keeps_id_and_type_witness :
    ({ x := some 5, text := some "hi" } : Patch).id = none ∧
      ({ x := some 5, text := some "hi" } : Patch).type = none ∧
      (setItem [newNote 1 0, newNote 2 1] 1 { x := some 5, text := some "hi" }).map
          (fun it => (it.id, it.type)) =
        [newNote 1 0, newNote 2 1].map (fun it => (it.id, it.type)) :=
  ⟨rfl, rfl, setItem_keeps_id_and_type [newNote 1 0, newNote 2 1] 1
    { x := some 5, text := some "hi" } rfl rfl⟩

/-- On a board with the single note 1, the id 7 is dangling. -/
theorem absent_id_is_noop_witness :
    (∀ it ∈ (addNote State.init).items, it.id ≠ 7) ∧
      setItem (addNote State.init).items 7 { x := some 5 } = (addNote State.init).items ∧
      bringToFront (addNote State.init) 7 = addNote State.init :=
  have h : ∀ it ∈ (addNote State.init).items, it.id ≠ 7 := by
    intro it hit
    simp [addNote, State.init] at hit
    simp [hit, newNote]
  have w := absent_id_is_noop (addNote State.init) 7 { x := some 5 } "se" 1 1
    { w := 1, h := 1, x := 1, y := 1 } h
  ⟨h, w.1, w.2.2.2.1⟩

/-- A pan from the initial state: down at `(10, 10)`, moves ending at `(25, 4)`. -/
theorem pan_recomputed_from_origin_witness :
    State.init.selectMode = true ∧
      (run State.init (.backgroundDown 0 10 10 :: moveEvents ([(50, 60)] ++ [(25, 4)]))).pan =
        { x := State.init.pan.x + (25 - 10), y := State.init.pan.y + (4 - 10) } :=
  ⟨rfl, (pan_recomputed_from_origin State.init 10 10 25 4 [(50, 60)] rfl).2.2.2⟩

/-- Pressing the first of two notes selects it and starts a drag at its
position. -/
theorem item_pointer_down_witness :
    newNote 1 0 ∈ (addNote (addNote State.init)).items ∧
      handlerRuns (newNote 1 0) .body false = true ∧
      (step (addNote (addNote State.init))
        (.itemDown 3 4 (newNote 1 0) .body false)).selected = some 1 ∧
      (step (addNote (addNote State.init)) (.itemDown 3 4 (newNote 1 0) .body false)).dragging =
        some { id := 1, sx := 3, sy := 4, ox := 100, oy := 100 } :=
  have h : newNote 1 0 ∈ (addNote (addNote State.init)).items := by
    simp [addNote, State.init]
  have hr : handlerRuns (newNote 1 0) .body false = true := by decide
  have w := item_pointer_down (addNote (addNote State.init)) (newNote 1 0) .body false 3 4 h hr
  ⟨h, hr, w.1, w.2.1⟩

/-- Three complete gestures and the start of a fourth on a board with one note. -/
theorem one_interaction_at_a_time_witness :
    activeCount (addNote State.init) = 0 ∧
      oneButtonAtATime false [.itemDown 0 0 (newNote 1 0) .body false, .mouseMove 5 5, .mouseUp,
        .backgroundDown 0 1 1, .mouseMove 2 2, .mouseUp, .zoomIn,
        .handleDown 9 9 (newNote 1 0), .mouseMove 5 5] = true ∧
      activeCount (run (addNote State.init) [.itemDown 0 0 (newNote 1 0) .body false, .mouseMove 5 5,
        .mouseUp, .backgroundDown 0 1 1, .mouseMove 2 2, .mouseUp, .zoomIn,
        .handleDown 9 9 (newNote 1 0), .mouseMove 5 5]) ≤ 1 :=
  have h1 : activeCount (addNote State.init) = 0 := by
    simp [activeCount, addNote, State.init]
  have h2 : oneButtonAtATime false [.itemDown 0 0 (newNote 1 0) .body false, .mouseMove 5 5, .mouseUp,
      .backgroundDown 0 1 1, .mouseMove 2 2, .mouseUp, .zoomIn,
      .handleDown 9 9 (newNote 1 0), .mouseMove 5 5] = true := by
    simp [oneButtonAtATime, isPointerDown, isPointerUp]
  ⟨h1, h2, one_interaction_at_a_time (addNote State.init) _ h1 h2⟩

/-- Resizing a new note by `(10, -200)` at zoom 1. -/
theorem resize_move_from_origin_witness :
    (0.1 : ℚ) ≤ (addNote State.init).zoom ∧ (addNote State.init).zoom ≤ 3 ∧
      (useResize.onMove (handleMouseDown (addNote State.init) 340 240 (newNote 1 0))
          (340 + 10) (240 + -200)).items =
        (addNote State.init).items.map (fun it =>
          if it.id = (newNote 1 0).id then
            { it with w := max 60 ((newNote 1 0).w + 10 / (addNote State.init).zoom),
                      h := max 60 ((newNote 1 0).h + -200 / (addNote State.init).zoom) }
          else it) :=
  have h2 : (0.1 : ℚ) ≤ (addNote State.init).zoom := by norm_num [addNote, State.init]
  have h3 : (addNote State.init).zoom ≤ 3 := by norm_num [addNote, State.init]
  ⟨h2, h3, (resize_move_from_origin (addNote State.init) (newNote 1 0) 340 240 10 (-200)
    h2 h3).2.1⟩

/-- Bringing the first of two notes to the front keeps the other in place. -/
theorem bringToFront_frame_witness :
    (∃ it ∈ (addNote (addNote State.init)).items, it.id = 1) ∧
      (sortedItems (bringToFront (addNote (addNote State.init)) 1).items).filter
          (fun it => it.id ≠ 1) =
        (sortedItems (addNote (addNote State.init)).items).filter (fun it => it.id ≠ 1) :=
  have h : ∃ it ∈ (addNote (addNote State.init)).items, it.id = 1 :=
    ⟨newNote 1 0, by simp [addNote, State.init], rfl⟩
  ⟨h, (bringToFront_frame (addNote (addNote State.init)) 1 h).2⟩

/-- A pointer-move during the drag of a new note pressed at `(3, 4)`. -/
theorem drag_move_frame_witness :
    (step (addNote State.init) (.itemDown 3 4 (newNote 1 0) .body false)).dragging =
        some { id := 1, sx := 3, sy := 4, ox := 100, oy := 100 } ∧
      (useDrag.onMouseMove (step (addNote State.init) (.itemDown 3 4 (newNote 1 0) .body false)) 13 24).selected =
        (step (addNote State.init) (.itemDown 3 4 (newNote 1 0) .body false)).selected :=
  have hmem : newNote 1 0 ∈ (addNote State.init).items := by simp [addNote, State.init]
  have h : (step (addNote State.init) (.itemDown 3 4 (newNote 1 0) .body false)).dragging =
      some { id := 1, sx := 3, sy := 4, ox := 100, oy := 100 } :=
    (step_itemDown (addNote State.init) (newNote 1 0) .body false 3 4 hmem (by decide)).1
  ⟨h, by
    rw [(drag_move_frame (step (addNote State.init) (.itemDown 3 4 (newNote 1 0) .body false))
      { id := 1, sx := 3, sy := 4, ox := 100, oy := 100 } 13 24 h).1]⟩

/-- Two boards of two notes that differ in `zIndex` only export alike. -/
theorem exportAsHTML_ignores_zIndex_witness :
    [newNote 1 0, newNote 2 1].map (fun it => { it with zIndex := 0 }) =
        [{ newNote 1 0 with zIndex := 5 }, { newNote 2 1 with zIndex := 3 }].map
          (fun it => { it with zIndex := 0 }) ∧
      exportAsHTML (fun q => toString q.num) [newNote 1 0, newNote 2 1] =
        exportAsHTML (fun q => toString q.num)
          [{ newNote 1 0 with zIndex := 5 }, { newNote 2 1 with zIndex := 3 }] :=
  have h : [newNote 1 0, newNote 2 1].map (fun it => { it with zIndex := 0 }) =
      [{ newNote 1 0 with zIndex := 5 }, { newNote 2 1 with zIndex := 3 }].map
        (fun it => { it with zIndex := 0 }) := rfl
  ⟨h, (exportAsHTML_ignores_zIndex (fun q => toString q.num) _ _ h).1⟩

end Moodart
